import Mathlib

/-!
# mod_md: the ACME client core

A shallow embedding of `mod_md/acme/md_acme.c` (problem map, directory setup,
nonce handling, signed requests) and of `src/acme/md_acme_drive.c` (the ACME
driver), together with the properties of the specification that were checked
against them.

Conventions of the embedding.

* `apr_status_t` is `Int`; the APR constants carry the values of a Unix build
  of the APR library.
* A `const char *` that may be `NULL` is an `Option String`.
* C functions that change state take the state and return it next to their
  status.  The world outside the program (CA, store, registry, clock) is an
  abstract type `W`, and the functions of the repository that are not part of
  the embedded files are fields of the records `Http W` and `Ext W`, or are
  modelled from the specification where a callback of the embedded code runs
  inside them.
* The state carries a ghost list `log` of events.  The embedded code appends an
  event where the C code calls an external function, assigns `ad->phase`, or
  invokes a callback; nothing in the embedded code reads the log.
-/

namespace mod_md

/-! ## APR: status codes, strings, tables -/

abbrev apr_status_t := Int

def APR_SUCCESS : apr_status_t := 0
def APR_ENOENT : apr_status_t := 2
def APR_EAGAIN : apr_status_t := 11
def APR_EACCES : apr_status_t := 13
def APR_EINVAL : apr_status_t := 22
def APR_EGENERAL : apr_status_t := 20014
def APR_TIMEUP : apr_status_t := 70007
def APR_BADARG : apr_status_t := 70013
def APR_ENOTIMPL : apr_status_t := 70023

/-- The macro `APR_STATUS_IS_ENOENT(s)` of a Unix build. -/
def APR_STATUS_IS_ENOENT (s : apr_status_t) : Bool := s == APR_ENOENT

/-- The macro `APR_STATUS_IS_EAGAIN(s)` of a Unix build. -/
def APR_STATUS_IS_EAGAIN (s : apr_status_t) : Bool := s == APR_EAGAIN

/-- The test `strstr(s, p) == s`: the first occurrence of `p` in `s` is at its start. -/
def strstr_at_start (s p : String) : Bool := p.toList.isPrefixOf s.toList

/-- Pointer arithmetic `s += n` on a C string. -/
def str_advance (s : String) (n : Nat) : String := String.mk (s.toList.drop n)

/-- The function `strlen`. -/
def strlen (s : String) : Nat := s.toList.length

def apr_isspace (c : Char) : Bool :=
  c == ' ' || c == '\t' || c == '\n' || c == '\x0b' || c == '\x0c' || c == '\r'

def apr_isdigit (c : Char) : Bool := decide ('0' ≤ c ∧ c ≤ '9')

def apr_toupper (c : Char) : Char := c.toUpper

/-- The character a C string pointer points at: `0` at the end of the string. -/
def cur (s : List Char) : Char := s.headD (Char.ofNat 0)

/-- The helper `compare_right` of APR `strings/apr_strnatcmp.c`
(right-aligned digit runs: the longest wins, then the first difference). -/
def compare_right : List Char → List Char → Int → Int
  | a, b, bias =>
    match a, b with
    | ca :: as, cb :: bs =>
      if !apr_isdigit ca && !apr_isdigit cb then bias
      else if !apr_isdigit ca then -1
      else if !apr_isdigit cb then 1
      else if ca < cb then compare_right as bs (if bias = 0 then -1 else bias)
      else if ca > cb then compare_right as bs (if bias = 0 then 1 else bias)
      else compare_right as bs bias
    | [], cb :: _ => if !apr_isdigit cb then bias else -1
    | ca :: _, [] => if !apr_isdigit ca then bias else 1
    | [], [] => bias

/-- The helper `compare_left` of APR `strings/apr_strnatcmp.c`
(left-aligned digit runs: the first difference wins). -/
def compare_left : List Char → List Char → Int
  | ca :: as, cb :: bs =>
    if !apr_isdigit ca && !apr_isdigit cb then 0
    else if !apr_isdigit ca then -1
    else if !apr_isdigit cb then 1
    else if ca < cb then -1
    else if ca > cb then 1
    else compare_left as bs
  | [], cb :: _ => if !apr_isdigit cb then 0 else -1
  | ca :: _, [] => if !apr_isdigit ca then 0 else 1
  | [], [] => 0

/-- The loop of `strnatcmp0` of APR `strings/apr_strnatcmp.c`.  Each round
skips white space on both sides, compares a run of digits when both sides
stand on one, then compares one character and advances both sides.  The
first argument bounds the number of rounds; `strnatcmp0` supplies a bound the
loop cannot reach. -/
def strnatcmp0_loop (fold_case : Bool) : Nat → List Char → List Char → Int
  | 0, _, _ => 0
  | fuel + 1, a, b =>
    let a := a.dropWhile apr_isspace
    let b := b.dropWhile apr_isspace
    let ca := cur a
    let cb := cur b
    let result : Int :=
      if apr_isdigit ca && apr_isdigit cb then
        (if ca == '0' || cb == '0' then compare_left a b else compare_right a b 0)
      else 0
    if result ≠ 0 then result
    else if a.isEmpty && b.isEmpty then 0
    else
      let ca := if fold_case then apr_toupper ca else ca
      let cb := if fold_case then apr_toupper cb else cb
      if ca < cb then -1
      else if ca > cb then 1
      else strnatcmp0_loop fold_case fuel a.tail b.tail

def strnatcmp0 (a b : String) (fold_case : Bool) : Int :=
  strnatcmp0_loop fold_case (a.toList.length + b.toList.length + 1) a.toList b.toList

/-- The APR function `apr_strnatcasecmp`: natural order, case folded. -/
def apr_strnatcasecmp (a b : String) : Int := strnatcmp0 a b true

/-! ## `md_acme.c`: the problem map -/

structure acme_problem_status_t where
  type : String
  rv : apr_status_t
deriving DecidableEq, Repr

def Problems : List acme_problem_status_t := [
  { type := "acme:error:badCSR", rv := APR_EINVAL },
  { type := "acme:error:badNonce", rv := APR_EGENERAL },
  { type := "acme:error:badSignatureAlgorithm", rv := APR_EINVAL },
  { type := "acme:error:invalidContact", rv := APR_BADARG },
  { type := "acme:error:unsupportedContact", rv := APR_EGENERAL },
  { type := "acme:error:malformed", rv := APR_EINVAL },
  { type := "acme:error:rateLimited", rv := APR_BADARG },
  { type := "acme:error:rejectedIdentifier", rv := APR_BADARG },
  { type := "acme:error:serverInternal", rv := APR_EGENERAL },
  { type := "acme:error:unauthorized", rv := APR_EACCES },
  { type := "acme:error:unsupportedIdentifier", rv := APR_BADARG },
  { type := "acme:error:userActionRequired", rv := APR_EAGAIN },
  { type := "acme:error:badRevocationReason", rv := APR_EINVAL },
  { type := "acme:error:caa", rv := APR_EGENERAL },
  { type := "acme:error:dns", rv := APR_EGENERAL },
  { type := "acme:error:connection", rv := APR_EGENERAL },
  { type := "acme:error:tls", rv := APR_EGENERAL },
  { type := "acme:error:incorrectResponse", rv := APR_EGENERAL }
]

/-- The `for` loop of `problem_status_get` over the remaining entries of the table. -/
def problem_status_scan (type : String) : List acme_problem_status_t → apr_status_t
  | [] => APR_EGENERAL
  | e :: rest =>
    if apr_strnatcasecmp type e.type = 0 then e.rv else problem_status_scan type rest

def problem_status_get (type : String) : apr_status_t :=
  let type :=
    if strstr_at_start type "urn:ietf:params:" then str_advance type (strlen "urn:ietf:params:")
    else if strstr_at_start type "urn:" then str_advance type (strlen "urn:")
    else type
  problem_status_scan type Problems

/-! ## APR tables, JSON documents, the HTTP client -/

/-- An `apr_table_t`: entries in insertion order; a value may be `NULL`
(`apr_table_set` stores `apr_pstrdup(val)`, which is `NULL` for `NULL`). -/
abbrev apr_table_t := List (String × Option String)

/-- Keys of an APR table compare with `strcasecmp`. -/
def key_eq (a b : String) : Bool := a.toList.map Char.toLower == b.toList.map Char.toLower

/-- The APR function `apr_table_get`: the value of the first entry with that key. -/
def apr_table_get (t : apr_table_t) (key : String) : Option String :=
  match t.find? (fun e => key_eq e.1 key) with
  | some e => e.2
  | none => none

/-- The APR function `apr_table_set`: the first entry with that key takes the
value and further entries with the key are dropped; without such an entry one
is appended. -/
def apr_table_set : apr_table_t → String → Option String → apr_table_t
  | [], key, val => [(key, val)]
  | e :: rest, key, val =>
    if key_eq e.1 key then (e.1, val) :: rest.filter (fun e => !key_eq e.1 key)
    else e :: apr_table_set rest key val

/-- A JSON document (`md_json_t`, a wrapper of a jansson value). -/
inductive md_json_t where
  | null
  | bool (b : Bool)
  | num (n : Int)
  | str (s : String)
  | arr (items : List md_json_t)
  | obj (members : List (String × md_json_t))

/-- Modelled from the spec: `md_json_gets(json, key, NULL)` of `md_json.c`,
which is not among the sources.  It yields the value of the member `key` of a
JSON object when that member is a string, and `NULL` otherwise (a required URL
that is not there "is missing"). -/
def md_json_gets (json : md_json_t) (key : String) : Option String :=
  match json with
  | md_json_t.obj members =>
    match members.find? (fun m => m.1 == key) with
    | some (_, md_json_t.str s) => some s
    | _ => none
  | _ => none

/-- A private key (`md_pkey_t` of `md_crypt.h`). -/
structure md_pkey_t where
  id : Nat
deriving DecidableEq, Repr

/-- A certificate (`md_cert_t` of `md_crypt.h`). -/
structure md_cert_t where
  id : Nat
deriving DecidableEq, Repr

structure md_http_request_t where
  method : String
  url : Option String
  ctype : Option String
  body : Option String

/-- The response handed to a callback: "Response exposes `status`, `headers`,
`body`, `rv`". -/
structure md_http_response_t where
  rv : apr_status_t
  status : Int
  headers : Option apr_table_t
  body : Option String

/-! ## Events of the ghost log -/

inductive md_store_group_t where
  | MD_SG_ACCOUNTS
  | MD_SG_CHALLENGES
  | MD_SG_DOMAINS
  | MD_SG_STAGING
deriving DecidableEq, Repr

inductive md_store_vtype_t where
  | MD_SV_TEXT
  | MD_SV_JSON
  | MD_SV_CERT
  | MD_SV_PKEY
  | MD_SV_CHAIN
deriving DecidableEq, Repr

/-- The field selectors of `md_reg_update` that the driver uses. -/
inductive md_upd_fields where
  | MD_UPD_CA_ACCOUNT
  | MD_UPD_CERT_URL
deriving DecidableEq, Repr

/-- The functions of `md_acme_drive.c` that `acme_drive_cert` calls in turn. -/
inductive Phase where
  | ad_set_acct
  | md_acme_acct_check_agreement
  | ad_cert_poll_once
  | md_reg_update_cert_url
  | ad_setup_authz
  | ad_start_challenges
  | ad_monitor_challenges
  | ad_setup_certificate
deriving DecidableEq, Repr

inductive Event where
  /-- `md_json_http_get(url)` -/
  | http_GET (url : String)
  /-- `md_http_HEAD(url)` -/
  | http_HEAD (url : Option String)
  /-- `md_http_POSTd(url)`; `nonce` is the entry `nonce` of the protected headers then -/
  | http_POST (url : Option String) (nonce : Option String)
  /-- the response to the HTTP request arrived; `replay_nonce` is its header `Replay-Nonce` -/
  | http_response (replay_nonce : Option String)
  /-- `req->on_init` is invoked; the entry `nonce` of `req->prot_hdrs` and `acme->nonce` then -/
  | on_init (hdr_nonce : Option String) (acme_nonce : Option String)
  /-- `req->on_success` was invoked and returned `rv` -/
  | on_success (rv : apr_status_t)
  /-- an assignment to `ad->phase` -/
  | phase (name : String)
  /-- in `acme_drive_cert`, the call `p` returned `rv` -/
  | returned (p : Phase) (rv : apr_status_t)
  /-- an `assert` whose condition is false -/
  | assert_failed (what : String)
  /-- `md_acme_acct_load(&acct, store, id, p)` returned `rv` -/
  | md_acme_acct_load (id : String) (rv : apr_status_t)
  /-- `md_acme_acct_validate(acme, acct)` returned `rv`; `id` is `acct->id` -/
  | md_acme_acct_validate (id : Option String) (rv : apr_status_t)
  /-- `md_acme_acct_disable(acct)` returned `rv`; `id` is `acct->id` -/
  | md_acme_acct_disable (id : Option String) (rv : apr_status_t)
  /-- `md_acme_acct_find(&acct, store, acme, p)` returned `rv` -/
  | md_acme_acct_find (rv : apr_status_t)
  /-- `md_acme_register(&acct, store, acme, contacts, agreement)` returned `rv` -/
  | md_acme_register (rv : apr_status_t)
  /-- `md_reg_update(reg, name, md, fields)` -/
  | md_reg_update (name : String) (fields : md_upd_fields)
  | md_acme_authz_set_load (name : String)
  /-- `md_acme_authz_set_get(set, domain)`; `found` tells that the result is not `NULL` -/
  | md_acme_authz_set_get (domain : String) (found : Bool)
  /-- `md_acme_authz_update(authz, acme, acct, p)` returned `rv`; `domain` is `authz->domain` -/
  | md_acme_authz_update (domain : String) (rv : apr_status_t)
  | md_acme_authz_set_remove (domain : String)
  | md_acme_authz_register (domain : String)
  | md_acme_authz_set_add (domain : Option String)
  | md_acme_authz_respond (domain : String)
  | md_acme_authz_set_save (name : String)
  | md_pkey_load (name : String)
  | md_pkey_gen_rsa (bits : Nat)
  | md_pkey_save (name : String) (create : Bool)
  | md_cert_req_create (name : String)
  /-- `md_acme_GET(url)` -/
  | md_acme_GET (url : Option String)
  /-- `md_acme_POST(url)` -/
  | md_acme_POST (url : Option String)
  /-- `md_store_save(store, group, name, aspect, vtype, value, create)` -/
  | md_store_save (group : md_store_group_t) (name : String) (aspect : String)
      (vtype : md_store_vtype_t)
deriving DecidableEq, Repr

/-! ## `md_acme.h`: the ACME server record and a request -/

structure md_acme_t where
  url : String
  new_authz : Option String := none
  new_cert : Option String := none
  new_reg : Option String := none
  revoke_cert : Option String := none
  nonce : Option String := none
  max_retries : Int := 0
  pkey_bits : Nat := 0
deriving DecidableEq, Repr

/-- The data fields of `md_acme_req_t`.  Its callbacks `on_init`, `on_success`
and its baton travel beside the record. -/
structure md_acme_req_t where
  url : Option String
  prot_hdrs : apr_table_t := []
  req_json : Option md_json_t := none
  resp_hdrs : Option apr_table_t := none
  resp_json : Option md_json_t := none
  rv : apr_status_t := 0

/-- The state a call runs in: the ACME server record, the baton of the
callbacks, the world outside, and the ghost log. -/
structure St (W B : Type) where
  acme : md_acme_t
  baton : B
  world : W
  log : List Event

def St.note {W B : Type} (s : St W B) (e : Event) : St W B := { s with log := s.log ++ [e] }

/-- The callback `req->on_init(req, baton)`: it builds the request body from
the protected headers.  It reads the ACME record through `req->acme`. -/
abbrev md_acme_req_init_cb (W B : Type) :=
  md_acme_req_t → md_acme_t → B → W → apr_status_t × md_acme_req_t × B × W

/-- The callback `req->on_success(acme, headers, json, baton)`. -/
abbrev md_acme_req_success_cb (W B : Type) :=
  md_acme_t → Option apr_table_t → Option md_json_t → B → W → apr_status_t × B × W

/-- The functions that `md_acme.c` calls and that are no part of it: the HTTP
client and the JSON reader. -/
structure Http (W : Type) where
  /-- `md_http_create` -/
  md_http_create : W → apr_status_t × W
  /-- the answer of the network to a request -/
  perform : md_http_request_t → W → md_http_response_t × W
  /-- `md_json_http_get(&json, pool, http, url)` -/
  md_json_http_get : String → W → apr_status_t × Option md_json_t × W
  /-- `md_json_read_http(&json, pool, res)`; the document is `none` when it leaves `*pjson` alone -/
  md_json_read_http : md_http_response_t → apr_status_t × Option md_json_t
  /-- `md_json_writep(json, fmt, pool)` -/
  md_json_writep : md_json_t → String
  /-- `md_jws_sign(&jws, pool, payload, len, prot_hdrs, key, NULL)` -/
  md_jws_sign : String → apr_table_t → Option md_pkey_t → apr_status_t × Option md_json_t

/-- Modelled from the spec: `md_http_HEAD` of `md_http.c`, which is not among
the sources ("HEAD(url, headers, on_response, baton) → id ... Synchronous wait
via await(id). Response exposes status, headers, body, rv").  The request is
performed at once, the response is handed to the callback, and the status of
the callback is returned. -/
def md_http_HEAD {W B : Type} (http : Http W) (url : Option String)
    (cb : md_http_response_t → St W B → apr_status_t × St W B) (s : St W B) :
    apr_status_t × St W B :=
  let (res, w) := http.perform { method := "HEAD", url := url, ctype := none, body := none } s.world
  let s := { s with world := w }.note (Event.http_HEAD url)
  cb res (s.note (Event.http_response (res.headers.bind (apr_table_get · "Replay-Nonce"))))

/-- Modelled from the spec: `md_http_POSTd` of `md_http.c`, which is not among
the sources ("POST(url, ctype, body, …)"); see `md_http_HEAD`.  The argument
`nonce` only feeds the ghost log. -/
def md_http_POSTd {W B : Type} (http : Http W) (url : Option String) (ctype : String)
    (body : Option String) (nonce : Option String)
    (cb : md_http_response_t → St W B → apr_status_t × St W B) (s : St W B) :
    apr_status_t × St W B :=
  let (res, w) :=
    http.perform { method := "POST", url := url, ctype := some ctype, body := body } s.world
  let s := { s with world := w }.note (Event.http_POST url nonce)
  cb res (s.note (Event.http_response (res.headers.bind (apr_table_get · "Replay-Nonce"))))

/-! ## `md_acme.c`: creation, directory, nonce, requests -/

/-- The result of `md_acme_create`: the status and `*pacme`.  The record comes
from `apr_pcalloc`, so every field the function does not assign is zero. -/
def md_acme_create {W : Type} (http : Http W) (url : Option String) (w : W) :
    apr_status_t × Option md_acme_t × W :=
  match url with
  | none => (APR_EINVAL, none, w)
  | some url =>
    let acme : md_acme_t := { url := url, pkey_bits := 4096 }
    let (rv, w) := http.md_http_create w
    (rv, some acme, w)

def md_acme_setup {W B : Type} (http : Http W) (s : St W B) : apr_status_t × St W B :=
  let (rv, json, w) := http.md_json_http_get s.acme.url s.world
  let s := { s with world := w }.note (Event.http_GET s.acme.url)
  if rv = APR_SUCCESS then
    let acme := { s.acme with
      new_authz := json.bind (md_json_gets · "new-authz")
      new_cert := json.bind (md_json_gets · "new-cert")
      new_reg := json.bind (md_json_gets · "new-reg")
      revoke_cert := json.bind (md_json_gets · "revoke-cert") }
    let s := { s with acme := acme }
    if acme.new_authz.isSome && acme.new_cert.isSome && acme.new_reg.isSome
        && acme.revoke_cert.isSome then
      (APR_SUCCESS, s)
    else
      (APR_EINVAL, s)
  else
    (rv, s)

def req_update_nonce {W B : Type} (req : md_acme_req_t) (s : St W B) : St W B :=
  match req.resp_hdrs with
  | some hdrs =>
    match apr_table_get hdrs "Replay-Nonce" with
    | some nonce => { s with acme := { s.acme with nonce := some nonce } }
    | none => s
  | none => s

def http_update_nonce {W B : Type} (res : md_http_response_t) (s : St W B) :
    apr_status_t × St W B :=
  match res.headers with
  | some hdrs =>
    match apr_table_get hdrs "Replay-Nonce" with
    | some nonce => (res.rv, { s with acme := { s.acme with nonce := some nonce } })
    | none => (res.rv, s)
  | none => (res.rv, s)

def md_acme_new_nonce {W B : Type} (http : Http W) (s : St W B) : apr_status_t × St W B :=
  md_http_HEAD http s.acme.new_reg http_update_nonce s

/-- Pool and table allocation are taken to succeed. -/
def md_acme_req_create (url : Option String) : md_acme_req_t := { url := url }

def md_acme_req_body_init {W : Type} (http : Http W) (req : md_acme_req_t)
    (jpayload : md_json_t) (key : Option md_pkey_t) : apr_status_t × md_acme_req_t :=
  let payload := http.md_json_writep jpayload
  let (rv, jws) := http.md_jws_sign payload req.prot_hdrs key
  (rv, { req with req_json := jws })

/-- In `inspect_problem`, `problem_status_get(ptype)` with the `type` member of
the problem document.  A document without a string member `type` hands `NULL`
to `strstr`; the embedding gives that undefined call the status of an unknown
type. -/
def problem_status_of (ptype : Option String) : apr_status_t :=
  match ptype with
  | some t => problem_status_get t
  | none => APR_EGENERAL

def inspect_problem {W : Type} (http : Http W) (req : md_acme_req_t)
    (res : md_http_response_t) : apr_status_t × md_acme_req_t :=
  let ctype := req.resp_hdrs.bind (apr_table_get · "content-type")
  if ctype = some "application/problem+json" then
    match (http.md_json_read_http res).2 with
    | some problem =>
      let ptype := md_json_gets problem "type"
      let req := { req with resp_json := some problem, rv := problem_status_of ptype }
      (req.rv, req)
    | none => (APR_EGENERAL, req)
  else
    (APR_EGENERAL, req)

def md_acme_req_done (req : md_acme_req_t) : apr_status_t := req.rv

def on_response {W B : Type} (http : Http W) (on_success : Option (md_acme_req_success_cb W B))
    (res : md_http_response_t) (req : md_acme_req_t) (s : St W B) :
    apr_status_t × md_acme_req_t × St W B :=
  let rv := res.rv
  if rv ≠ APR_SUCCESS then (rv, req, s)
  else
    let req := { req with resp_hdrs := res.headers }
    let s := req_update_nonce req s
    if 200 ≤ res.status ∧ res.status < 300 then
      let (rv, json) := http.md_json_read_http res
      let req := { req with resp_json := json }
      if rv ≠ APR_SUCCESS then (APR_EINVAL, req, s)
      else
        match on_success with
        | some cb =>
          let (r, b, w) := cb s.acme req.resp_hdrs req.resp_json s.baton s.world
          let req := { req with rv := r }
          let s := { s with baton := b, world := w }.note (Event.on_success r)
          let _ := md_acme_req_done req
          (rv, req, s)
        | none =>
          let _ := md_acme_req_done req
          (rv, req, s)
    else
      let req := { req with rv := rv }
      let (rv, req) := inspect_problem http req res
      let _ := md_acme_req_done req
      (rv, req, s)

def md_acme_req_send {W B : Type} (http : Http W) (on_init : md_acme_req_init_cb W B)
    (on_success : Option (md_acme_req_success_cb W B)) (req : md_acme_req_t) (s : St W B) :
    apr_status_t × St W B :=
  let (rv, s) := if s.acme.new_authz.isNone then md_acme_setup http s else (APR_SUCCESS, s)
  if rv ≠ APR_SUCCESS then (rv, s)
  else
    let (rv, s) := if s.acme.nonce.isNone then md_acme_new_nonce http s else (APR_SUCCESS, s)
    if rv ≠ APR_SUCCESS then (rv, s)
    else
      let req := { req with prot_hdrs := apr_table_set req.prot_hdrs "nonce" s.acme.nonce }
      let s := { s with acme := { s.acme with nonce := none } }
      let s := s.note (Event.on_init (apr_table_get req.prot_hdrs "nonce") s.acme.nonce)
      let (rv, req, b, w) := on_init req s.acme s.baton s.world
      let s := { s with baton := b, world := w }
      if rv = APR_SUCCESS then
        let body := req.req_json.map http.md_json_writep
        md_http_POSTd http req.url "application/json" body (apr_table_get req.prot_hdrs "nonce")
          (fun res s => let r := on_response http on_success res req s; (r.1, r.2.2)) s
      else
        let _ := md_acme_req_done req
        (rv, s)

def md_acme_req_do {W B : Type} (http : Http W) (url : Option String)
    (on_init : md_acme_req_init_cb W B) (on_success : Option (md_acme_req_success_cb W B))
    (s : St W B) : apr_status_t × St W B :=
  let req := md_acme_req_create url
  md_acme_req_send http on_init on_success req s

/-! ## `md_acme_drive.c`: data -/

/-- A managed domain: the fields of `md_t` (declared in `md.h`, which is not
among the sources) that the driver reads or writes. -/
structure md_t where
  name : String
  domains : List String
  contacts : Option (List String) := none
  ca_url : Option String := none
  ca_account : Option String := none
  ca_agreement : Option String := none
  cert_url : Option String := none
deriving DecidableEq, Repr

/-- An ACME account: the fields of `md_acme_acct_t` (declared in
`md_acme_acct.h`, which is not among the sources) that the driver uses. -/
structure md_acme_acct_t where
  id : String
  key : Option md_pkey_t := none
deriving DecidableEq, Repr

/-- Modelled from the spec: the states of an authorization, the enum
`md_acme_authz_state_t` of `md_acme_authz.h`, which is not among the sources.
The driver names `MD_ACME_AUTHZ_S_VALID` and `MD_ACME_AUTHZ_S_PENDING`; the
other two stand for every state that takes the `default` branch of its
`switch` (the terminal states `invalid`, `revoked`, `expired`, and a state not
yet known). -/
inductive md_acme_authz_state_t where
  | MD_ACME_AUTHZ_S_UNKNOWN
  | MD_ACME_AUTHZ_S_PENDING
  | MD_ACME_AUTHZ_S_VALID
  | MD_ACME_AUTHZ_S_INVALID
deriving DecidableEq, Repr

structure md_acme_authz_t where
  domain : String
  location : Option String := none
  state : md_acme_authz_state_t := md_acme_authz_state_t.MD_ACME_AUTHZ_S_UNKNOWN
  /-- `authz->dir`, the challenge directory that `md_acme_order.c` records -/
  dir : Option String := none
deriving DecidableEq, Repr

structure md_acme_authz_set_t where
  account_id : Option String
  authzs : List md_acme_authz_t
deriving DecidableEq, Repr

/-- The record `md_acme_driver_t`.  Its field `acme` is the field `acme` of the
state, its field `driver` is the state itself. -/
structure md_acme_driver_t where
  phase : Option String := none
  acct : Option md_acme_acct_t := none
  md : md_t
  can_http_01 : Bool := false
  can_tls_sni_01 : Bool := false
  authz_set : Option md_acme_authz_set_t := none
  authz_monitor_timeout : Int := 0
  csr_der_64 : Option String := none
  cert_poll_timeout : Int := 0
  cert : Option md_cert_t := none

/-- The answer of the CA to a request of `md_acme_GET` or `md_acme_POST`: a
failure (transport error, problem document, unexpected answer) with its error
status, or a response with a 2xx status. -/
inductive acme_answer where
  | failed (rv : apr_status_t)
  | response (res : md_http_response_t)

/-- Modelled from the spec: the macro `MD_FN_CERT` of `md.h`, which is not
among the sources; the aspects of the store name the certificate `cert.pem`. -/
def MD_FN_CERT : String := "cert.pem"

/-- The functions that `md_acme_drive.c` calls and that are no part of the
embedded sources.  Each takes the world and returns it next to its results;
an out-parameter the function may leave `NULL` is an `Option`. -/
structure Ext (W : Type) extends Http W where
  md_acme_acct_validate : md_acme_t → Option md_acme_acct_t → W → apr_status_t × W
  md_acme_acct_disable : Option md_acme_acct_t → W → apr_status_t × W
  md_acme_acct_load : String → W → apr_status_t × Option md_acme_acct_t × W
  md_acme_acct_find : md_acme_t → W → apr_status_t × Option md_acme_acct_t × W
  md_acme_register :
    md_acme_t → Option (List String) → Option String → W → apr_status_t × Option md_acme_acct_t × W
  md_acme_acct_check_agreement :
    md_acme_t → Option md_acme_acct_t → Option String → W → apr_status_t × W
  md_reg_update : String → md_t → md_upd_fields → W → apr_status_t × W
  md_acme_authz_set_load : String → W → apr_status_t × Option md_acme_authz_set_t × W
  md_acme_authz_set_create : Option String → md_acme_authz_set_t
  /-- `md_acme_authz_set_get(set, domain)`: the position in `set->authzs` of the entry it points to -/
  md_acme_authz_set_get : md_acme_authz_set_t → String → Option Nat
  md_acme_authz_set_remove : md_acme_authz_set_t → String → md_acme_authz_set_t
  md_acme_authz_set_add : md_acme_authz_set_t → Option md_acme_authz_t → apr_status_t × md_acme_authz_set_t
  md_acme_authz_set_save : String → md_acme_authz_set_t → Bool → W → apr_status_t × W
  md_acme_authz_update :
    md_acme_authz_t → md_acme_t → Option md_acme_acct_t → W → apr_status_t × md_acme_authz_t × W
  md_acme_authz_register :
    md_acme_t → String → Option md_acme_acct_t → W → apr_status_t × Option md_acme_authz_t × W
  md_acme_authz_respond :
    md_acme_authz_t → md_acme_t → Option md_acme_acct_t → Bool → Bool → W →
      apr_status_t × md_acme_authz_t × W
  /-- `md_cert_read_http(&cert, pool, res)`: it takes `*pcert` as it is on entry and returns
  the status and `*pcert` as it is on return -/
  md_cert_read_http : Option md_cert_t → md_http_response_t → apr_status_t × Option md_cert_t
  md_pkey_load : String → W → apr_status_t × Option md_pkey_t × W
  md_pkey_gen_rsa : Nat → W → apr_status_t × Option md_pkey_t × W
  md_pkey_save : String → Option md_pkey_t → Bool → W → apr_status_t × W
  md_cert_req_create : md_t → Option md_pkey_t → W → apr_status_t × Option String × W
  md_store_save :
    md_store_group_t → String → String → md_store_vtype_t → Option md_cert_t → Bool → W →
      apr_status_t × W
  /-- the answer of the CA to `md_acme_GET` (`"GET"`) or `md_acme_POST` (`"POST"`) on a URL -/
  acme_answer : String → Option String → W → acme_answer × W
  /-- the number of further attempts that the clock allows `md_util_try` within a timeout -/
  retries_within : Int → W → Nat

/-- The state of a driver run: `d->baton` is the `md_acme_driver_t`. -/
abbrev DSt (W : Type) := St W md_acme_driver_t

/-- The assignment `ad->phase = name`. -/
def set_phase {W : Type} (name : String) (s : DSt W) : DSt W :=
  { s with baton := { s.baton with phase := some name } }.note (Event.phase name)

/-- An `assert` of the C code: execution goes on as in a build with `NDEBUG`,
and the log keeps a false condition. -/
def c_assert {W B : Type} (cond : Bool) (what : String) (s : St W B) : St W B :=
  if cond then s else s.note (Event.assert_failed what)

/-! ## Functions of the repository with callbacks into the driver -/

/-- Modelled from the spec: the loop of `md_util_try` (see there), at attempt
number `i` with `left` further attempts allowed by the timeout. -/
def md_util_try_loop {σ : Type} (fn : Nat → σ → apr_status_t × σ) (ignore_errs : Bool) :
    Nat → Nat → σ → apr_status_t × σ
  | left, i, s =>
    let (rv, s) := fn i s
    if rv = APR_SUCCESS then (rv, s)
    else if !APR_STATUS_IS_EAGAIN rv && !ignore_errs then (rv, s)
    else
      match left with
      | 0 => (APR_TIMEUP, s)
      | left + 1 => md_util_try_loop fn ignore_errs left (i + 1) s

/-- Modelled from the spec: `md_util_try(fn, baton, ignore_errs, timeout, ...)`
of `md_util.c`, which is not among the sources: the "generic try N times with
interval utility".  It calls `fn` until `fn` succeeds ("until it yields a
certificate", "until all authorizations are valid"), or fails with an error
that is not to be retried, or the timeout is over ("total elapsed > timeout",
"bounded by cert_poll_timeout").  Without `ignore_errs` only `APR_EAGAIN` is
retried.  The clock decides how many further attempts the timeout allows; when
it is over the result is `APR_TIMEUP`. -/
def md_util_try {W : Type} (ext : Ext W) (fn : Nat → DSt W → apr_status_t × DSt W)
    (ignore_errs : Bool) (timeout : Int) (s : DSt W) : apr_status_t × DSt W :=
  md_util_try_loop fn ignore_errs (ext.retries_within timeout s.world) 0 s

/-- Modelled from the spec: `md_acme_GET(acme, url, NULL, NULL, on_res, baton)`,
declared in `md_acme.h`; its definition is not among the sources ("exposes
get(url) → (headers, body) for plain GET"; "on HTTP status 2xx, the on_res
callback is invoked").  A failing request yields its error status; a 2xx
response is handed to `on_res`, whose status is the result. -/
def md_acme_GET {W : Type} (ext : Ext W) (url : Option String)
    (on_res : md_http_response_t → DSt W → apr_status_t × DSt W) (s : DSt W) :
    apr_status_t × DSt W :=
  let (answer, w) := ext.acme_answer "GET" url s.world
  let s := { s with world := w }.note (Event.md_acme_GET url)
  match answer with
  | acme_answer.failed rv => (rv, s)
  | acme_answer.response res => on_res res s

/-- Modelled from the spec: `md_acme_POST(acme, url, on_init, NULL, on_res, baton)`,
declared in `md_acme.h`; its definition is not among the sources ("If a on_json
callback is given and the HTTP response is JSON, only this callback is invoked.
Otherwise, on HTTP status 2xx, the on_res callback is invoked").  `on_init`
builds the signed body; when it fails nothing is sent and its status is the
result.  A failing request yields its error status; a 2xx response is handed
to `on_res`, whose status is the result. -/
def md_acme_POST {W : Type} (ext : Ext W) (url : Option String)
    (on_init : md_acme_req_t → DSt W → apr_status_t × md_acme_req_t)
    (on_res : md_http_response_t → DSt W → apr_status_t × DSt W) (s : DSt W) :
    apr_status_t × DSt W :=
  let (rv, _) := on_init (md_acme_req_create url) s
  if rv ≠ APR_SUCCESS then (rv, s)
  else
    let (answer, w) := ext.acme_answer "POST" url s.world
    let s := { s with world := w }.note (Event.md_acme_POST url)
    match answer with
    | acme_answer.failed rv => (rv, s)
    | acme_answer.response res => on_res res s

/-! ## `md_acme_drive.c`: account setup -/

def ad_acct_validate {W : Type} (ext : Ext W) (pacct : Option md_acme_acct_t) (s : DSt W) :
    apr_status_t × Option md_acme_acct_t × DSt W :=
  let acct := pacct
  let (rv, w) := ext.md_acme_acct_validate s.acme pacct s.world
  let s := { s with world := w }.note
    (Event.md_acme_acct_validate (pacct.map md_acme_acct_t.id) rv)
  if rv ≠ APR_SUCCESS then
    if rv = APR_ENOENT ∨ rv = APR_EACCES then
      let (rv, w) := ext.md_acme_acct_disable acct s.world
      let s := { s with world := w }.note
        (Event.md_acme_acct_disable (acct.map md_acme_acct_t.id) rv)
      (rv, none, s)
    else (rv, pacct, s)
  else (rv, pacct, s)

/-- The loop `while (NULL == acct && APR_SUCCESS == (rv = md_acme_acct_find(...)))`
of `ad_set_acct`, entered with `acct == NULL`.  The first argument bounds the
number of rounds; the result is `none` when the loop is still running after
that many. -/
def ad_set_acct_find {W : Type} (ext : Ext W) :
    Nat → DSt W → Option (apr_status_t × Option md_acme_acct_t × DSt W)
  | 0, _ => none
  | fuel + 1, s =>
    let (rv, acct, w) := ext.md_acme_acct_find s.acme s.world
    let s := { s with world := w }.note (Event.md_acme_acct_find rv)
    if rv = APR_SUCCESS then
      let (rv, acct, s) := ad_acct_validate ext acct s
      if acct.isNone then ad_set_acct_find ext fuel s else some (rv, acct, s)
    else some (rv, acct, s)

/-- In `ad_set_acct`, the block `if (ad->md->ca_account) { ... }`: the account
of earlier runs is loaded and validated. -/
def ad_set_acct_previous {W : Type} (ext : Ext W) (s : DSt W) :
    apr_status_t × Option md_acme_acct_t × DSt W :=
  match s.baton.md.ca_account with
  | some id =>
    let (rv, acct, w) := ext.md_acme_acct_load id s.world
    let s := { s with world := w }.note (Event.md_acme_acct_load id rv)
    if rv = APR_SUCCESS then ad_acct_validate ext acct s
    else if rv = APR_ENOENT then (APR_SUCCESS, acct, s)
    else (rv, acct, s)
  | none => (APR_SUCCESS, none, s)

/-- In `ad_set_acct`, the block `if (APR_SUCCESS == rv && NULL == acct) { while ... }`:
the accounts of the store are searched for one that validates. -/
def ad_set_acct_search {W : Type} (ext : Ext W) (fuel : Nat) (rv : apr_status_t)
    (acct : Option md_acme_acct_t) (s : DSt W) :
    Option (apr_status_t × Option md_acme_acct_t × DSt W) :=
  if rv = APR_SUCCESS ∧ acct.isNone then
    match ad_set_acct_find ext fuel s with
    | some (rv, acct, s) =>
      if acct.isNone ∧ rv = APR_ENOENT then some (APR_SUCCESS, acct, s) else some (rv, acct, s)
    | none => none
  else some (rv, acct, s)

/-- In `ad_set_acct`, the rest of the function: a new account is registered
when none was found, and the chosen account is recorded at the managed domain. -/
def ad_set_acct_register {W : Type} (ext : Ext W) (rv : apr_status_t)
    (acct : Option md_acme_acct_t) (s : DSt W) : apr_status_t × DSt W :=
  let md := s.baton.md
  if rv = APR_SUCCESS ∧ acct.isNone ∧ (md.contacts.isNone ∨ md.contacts = some []) then
    (APR_EINVAL, s)
  else
    let (rv, acct, s) :=
      if rv = APR_SUCCESS ∧ acct.isNone then
        /- 2.2 No local account exists, create a new one -/
        let (rv, acct, w) := ext.md_acme_register s.acme md.contacts md.ca_agreement s.world
        ((rv, acct, { s with world := w }.note (Event.md_acme_register rv)) :
          apr_status_t × Option md_acme_acct_t × DSt W)
      else (rv, acct, s)
    if rv = APR_SUCCESS then
      let s := { s with baton := { s.baton with acct := acct } }
      /- Persist the account chosen at the md so we use the same on future runs -/
      if md.ca_account.isNone ∨ md.ca_account ≠ acct.map md_acme_acct_t.id then
        let md := { md with ca_account := acct.map md_acme_acct_t.id }
        let s := { s with baton := { s.baton with md := md } }
        let (rv, w) := ext.md_reg_update md.name md md_upd_fields.MD_UPD_CA_ACCOUNT s.world
        (rv, { s with world := w }.note
          (Event.md_reg_update md.name md_upd_fields.MD_UPD_CA_ACCOUNT))
      else (rv, s)
    else (rv, s)

/-- The function `ad_set_acct`.  `fuel` bounds the rounds of the account
search; the result is `none` when the search is still running after `fuel`
rounds. -/
def ad_set_acct {W : Type} (ext : Ext W) (fuel : Nat) (s : DSt W) :
    Option (apr_status_t × DSt W) :=
  let s := set_phase "choose account" s
  let s := { s with baton := { s.baton with acct := none } }
  /- Get an account for the ACME server for this MD -/
  let (rv, acct, s) := ad_set_acct_previous ext s
  /- If MD has no account, find a local account for server, store at MD -/
  match ad_set_acct_search ext fuel rv acct s with
  | none => none
  | some (rv, acct, s) => some (ad_set_acct_register ext rv acct s)

/-! ## `md_acme_drive.c`: authz/challenge setup -/

/-- The set `ad->authz_set` points to; the code dereferences the pointer
without a test, and the embedding reads a `NULL` as a set without entries. -/
def the_authz_set {W : Type} (s : DSt W) : md_acme_authz_set_t :=
  s.baton.authz_set.getD { account_id := none, authzs := [] }

def put_authz_set {W : Type} (set : md_acme_authz_set_t) (s : DSt W) : DSt W :=
  { s with baton := { s.baton with authz_set := some set } }

/-- In the loop of `ad_setup_authz`, the block `if (authz) { ... }` ("check
valid"): the entry of the set for `domain` is updated, and removed when the
update fails.  The result is `rv`, `authz` and `changed`. -/
def ad_setup_authz_check {W : Type} (ext : Ext W) (domain : String) (s : DSt W) :
    apr_status_t × Option md_acme_authz_t × Bool × DSt W :=
  let set := the_authz_set s
  let found := (ext.md_acme_authz_set_get set domain).bind
    (fun i => (set.authzs.get? i).map (fun a => (i, a)))
  let s := s.note (Event.md_acme_authz_set_get domain found.isSome)
  match found with
  | some (i, authz) =>
    let (rv, authz, w) := ext.md_acme_authz_update authz s.acme s.baton.acct s.world
    let s := { s with world := w }.note (Event.md_acme_authz_update domain rv)
    let s := put_authz_set { set with authzs := set.authzs.set i authz } s
    if rv ≠ APR_SUCCESS then
      let s := put_authz_set (ext.md_acme_authz_set_remove (the_authz_set s) domain) s
      let s := s.note (Event.md_acme_authz_set_remove domain)
      (rv, none, true, s)
    else (rv, some authz, false, s)
  | none => (APR_SUCCESS, none, false, s)

/-- In the loop of `ad_setup_authz`, the body of `if (!authz) { ... }` ("create
new one").  The result is `rv` and `changed`. -/
def ad_setup_authz_create {W : Type} (ext : Ext W) (domain : String) (changed : Bool)
    (s : DSt W) : apr_status_t × Bool × DSt W :=
  let (rv, authz, w) := ext.md_acme_authz_register s.acme domain s.baton.acct s.world
  let s := { s with world := w }.note (Event.md_acme_authz_register domain)
  if rv = APR_SUCCESS then
    let (rv, set) := ext.md_acme_authz_set_add (the_authz_set s) authz
    let s := (put_authz_set set s).note
      (Event.md_acme_authz_set_add (authz.map md_acme_authz_t.domain))
    (rv, true, s)
  else (rv, changed, s)

/-- One round of the `for` loop of `ad_setup_authz`, for `domain`. -/
def ad_setup_authz_domain {W : Type} (ext : Ext W) (domain : String) (s : DSt W) :
    apr_status_t × DSt W :=
  let md := s.baton.md
  let (rv, authz, changed, s) := ad_setup_authz_check ext domain s
  let (rv, changed, s) :=
    if authz.isNone then ad_setup_authz_create ext domain changed s else (rv, changed, s)
  if rv = APR_SUCCESS ∧ changed then
    let (rv, w) := ext.md_acme_authz_set_save md.name (the_authz_set s) false s.world
    (rv, { s with world := w }.note (Event.md_acme_authz_set_save md.name))
  else (rv, s)

/-- The `for` loop of `ad_setup_authz` over the remaining domains. -/
def ad_setup_authz_loop {W : Type} (ext : Ext W) :
    List String → apr_status_t → DSt W → apr_status_t × DSt W
  | [], rv, s => (rv, s)
  | domain :: rest, rv, s =>
    if rv = APR_SUCCESS then
      let (rv, s) := ad_setup_authz_domain ext domain s
      ad_setup_authz_loop ext rest rv s
    else (rv, s)

def ad_setup_authz {W : Type} (ext : Ext W) (s : DSt W) : apr_status_t × DSt W :=
  let md := s.baton.md
  let s := c_assert s.baton.acct.isSome "ad->acct" s
  let s := set_phase "check authz" s
  let (rv, set, w) := ext.md_acme_authz_set_load md.name s.world
  let s := { s with world := w, baton := { s.baton with authz_set := set } }.note
    (Event.md_acme_authz_set_load md.name)
  let (rv, s) :=
    if rv = APR_ENOENT then
      (APR_SUCCESS,
        put_authz_set (ext.md_acme_authz_set_create (s.baton.acct.map md_acme_acct_t.id)) s)
    else (rv, s)
  ad_setup_authz_loop ext md.domains rv s

/-- The `for` loop of `ad_start_challenges`: `done` are the entries of
`ad->authz_set->authzs` before index `i`, the list argument those from `i` on. -/
def ad_start_challenges_loop {W : Type} (ext : Ext W) :
    List md_acme_authz_t → List md_acme_authz_t → apr_status_t → DSt W →
      apr_status_t × List md_acme_authz_t × DSt W
  | [], done, rv, s => (rv, done, s)
  | authz :: rest, done, rv, s =>
    if rv = APR_SUCCESS then
      let (rv, authz, w) := ext.md_acme_authz_update authz s.acme s.baton.acct s.world
      let s := { s with world := w }.note (Event.md_acme_authz_update authz.domain rv)
      let (rv, authz, s) :=
        if rv = APR_SUCCESS then
          match authz.state with
          | md_acme_authz_state_t.MD_ACME_AUTHZ_S_VALID => (rv, authz, s)
          | md_acme_authz_state_t.MD_ACME_AUTHZ_S_PENDING =>
            let (rv, authz, w) := ext.md_acme_authz_respond authz s.acme s.baton.acct
              s.baton.can_http_01 s.baton.can_tls_sni_01 s.world
            (rv, authz, { s with world := w }.note (Event.md_acme_authz_respond authz.domain))
          | _ => (APR_EINVAL, authz, s)
        else (rv, authz, s)
      ad_start_challenges_loop ext rest (done ++ [authz]) rv s
    else (rv, done ++ authz :: rest, s)

def ad_start_challenges {W : Type} (ext : Ext W) (s : DSt W) : apr_status_t × DSt W :=
  let s := c_assert s.baton.acct.isSome "ad->acct" s
  let s := c_assert s.baton.authz_set.isSome "ad->authz_set" s
  let s := c_assert ((the_authz_set s).authzs.length == s.baton.md.domains.length)
    "ad->authz_set->authzs->nelts == ad->md->domains->nelts" s
  let s := set_phase "start challenges" s
  let set := the_authz_set s
  let (rv, authzs, s) := ad_start_challenges_loop ext set.authzs [] APR_SUCCESS s
  (rv, { s with baton := { s.baton with
    authz_set := s.baton.authz_set.map (fun set => { set with authzs := authzs }) } })

/-- The `for` loop of `check_challenges`, laid out as that of `ad_start_challenges`. -/
def check_challenges_loop {W : Type} (ext : Ext W) :
    List md_acme_authz_t → List md_acme_authz_t → apr_status_t → DSt W →
      apr_status_t × List md_acme_authz_t × DSt W
  | [], done, rv, s => (rv, done, s)
  | authz :: rest, done, rv, s =>
    if rv = APR_SUCCESS then
      let (rv, authz, w) := ext.md_acme_authz_update authz s.acme s.baton.acct s.world
      let s := { s with world := w }.note (Event.md_acme_authz_update authz.domain rv)
      let rv :=
        if rv = APR_SUCCESS then
          match authz.state with
          | md_acme_authz_state_t.MD_ACME_AUTHZ_S_VALID => rv
          | md_acme_authz_state_t.MD_ACME_AUTHZ_S_PENDING => APR_EAGAIN
          | _ => APR_EINVAL
        else rv
      check_challenges_loop ext rest (done ++ [authz]) rv s
    else (rv, done ++ authz :: rest, s)

def check_challenges {W : Type} (ext : Ext W) (_attempt : Nat) (s : DSt W) :
    apr_status_t × DSt W :=
  let set := the_authz_set s
  let (rv, authzs, s) := check_challenges_loop ext set.authzs [] APR_SUCCESS s
  (rv, { s with baton := { s.baton with
    authz_set := s.baton.authz_set.map (fun set => { set with authzs := authzs }) } })

def ad_monitor_challenges {W : Type} (ext : Ext W) (s : DSt W) : apr_status_t × DSt W :=
  let s := c_assert s.baton.acct.isSome "ad->acct" s
  let s := c_assert s.baton.authz_set.isSome "ad->authz_set" s
  let s := c_assert ((the_authz_set s).authzs.length == s.baton.md.domains.length)
    "ad->authz_set->authzs->nelts == ad->md->domains->nelts" s
  let s := set_phase "monitor challenges" s
  md_util_try ext (check_challenges ext) false s.baton.authz_monitor_timeout s

/-! ## `md_acme_drive.c`: poll cert -/

def on_got_cert {W : Type} (ext : Ext W) (res : md_http_response_t) (s : DSt W) :
    apr_status_t × DSt W :=
  let (rv, cert) := ext.md_cert_read_http s.baton.cert res
  let s := { s with baton := { s.baton with cert := cert } }
  if rv = APR_SUCCESS then (rv, s)
  else if APR_STATUS_IS_ENOENT rv then (APR_EAGAIN, s)
  else (rv, s)

def get_cert {W : Type} (ext : Ext W) (_attempt : Nat) (s : DSt W) : apr_status_t × DSt W :=
  md_acme_GET ext s.baton.md.cert_url (on_got_cert ext) s

def ad_cert_poll {W : Type} (ext : Ext W) (only_once : Bool) (s : DSt W) :
    apr_status_t × DSt W :=
  let s := c_assert s.baton.md.cert_url.isSome "ad->md->cert_url" s
  let s := set_phase "poll certificate" s
  if only_once then get_cert ext 0 s
  else md_util_try ext (get_cert ext) true s.baton.cert_poll_timeout s

/-! ## `md_acme_drive.c`: cert setup -/

def on_init_csr_req {W : Type} (ext : Ext W) (req : md_acme_req_t) (s : DSt W) :
    apr_status_t × md_acme_req_t :=
  let jpayload := md_json_t.obj
    [("resource", md_json_t.str "new-cert"),
     ("csr", match s.baton.csr_der_64 with
             | some csr => md_json_t.str csr
             | none => md_json_t.null)]
  md_acme_req_body_init ext.toHttp req jpayload (s.baton.acct.bind md_acme_acct_t.key)

def csr_req {W : Type} (ext : Ext W) (res : md_http_response_t) (s : DSt W) :
    apr_status_t × DSt W :=
  let cert_url := res.headers.bind (apr_table_get · "location")
  let s := { s with baton := { s.baton with md := { s.baton.md with cert_url := cert_url } } }
  if cert_url.isNone then (APR_EINVAL, s)
  else
    let md := s.baton.md
    let (rv, w) := ext.md_reg_update md.name md md_upd_fields.MD_UPD_CERT_URL s.world
    let s := { s with world := w }.note (Event.md_reg_update md.name md_upd_fields.MD_UPD_CERT_URL)
    if rv ≠ APR_SUCCESS then (rv, s)
    else
      /- Check if it already was sent with this response -/
      let (rv, cert) := ext.md_cert_read_http s.baton.cert res
      let s := { s with baton := { s.baton with cert := cert } }
      if rv = APR_SUCCESS then
        let (rv, w) := ext.md_store_save md_store_group_t.MD_SG_DOMAINS md.name MD_FN_CERT
          md_store_vtype_t.MD_SV_CERT s.baton.cert false s.world
        (rv, { s with world := w }.note (Event.md_store_save md_store_group_t.MD_SG_DOMAINS
          md.name MD_FN_CERT md_store_vtype_t.MD_SV_CERT))
      else if APR_STATUS_IS_ENOENT rv then (APR_SUCCESS, s)
      else (rv, s)

/-- In `ad_setup_certificate`, the statements of the phase `setup cert pkey`:
the key of the managed domain is loaded, or generated and saved when there is none. -/
def ad_setup_cert_pkey {W : Type} (ext : Ext W) (s : DSt W) :
    apr_status_t × Option md_pkey_t × DSt W :=
  let name := s.baton.md.name
  let (rv, pkey, w) := ext.md_pkey_load name s.world
  let s := { s with world := w }.note (Event.md_pkey_load name)
  if APR_STATUS_IS_ENOENT rv then
    let (rv, pkey, w) := ext.md_pkey_gen_rsa s.acme.pkey_bits s.world
    let s := { s with world := w }.note (Event.md_pkey_gen_rsa s.acme.pkey_bits)
    if rv = APR_SUCCESS then
      let (rv, w) := ext.md_pkey_save name pkey true s.world
      (rv, pkey, { s with world := w }.note (Event.md_pkey_save name true))
    else (rv, pkey, s)
  else (rv, pkey, s)

/-- In `ad_setup_certificate`, the statements of the phase `setup csr`. -/
def ad_setup_csr {W : Type} (ext : Ext W) (pkey : Option md_pkey_t) (s : DSt W) :
    apr_status_t × DSt W :=
  let s := set_phase "setup csr" s
  let (rv, csr, w) := ext.md_cert_req_create s.baton.md pkey s.world
  (rv, { s with world := w, baton := { s.baton with csr_der_64 := csr } }.note
    (Event.md_cert_req_create s.baton.md.name))

/-- In `ad_setup_certificate`, the statements of the phase `submit csr`. -/
def ad_submit_csr {W : Type} (ext : Ext W) (s : DSt W) : apr_status_t × DSt W :=
  let s := set_phase "submit csr" s
  md_acme_POST ext s.acme.new_cert (on_init_csr_req ext) (csr_req ext) s

def ad_setup_certificate {W : Type} (ext : Ext W) (s : DSt W) : apr_status_t × DSt W :=
  let s := set_phase "setup cert pkey" s
  let (rv, pkey, s) := ad_setup_cert_pkey ext s
  let (rv, s) := if rv = APR_SUCCESS then ad_setup_csr ext pkey s else (rv, s)
  let (rv, s) := if rv = APR_SUCCESS then ad_submit_csr ext s else (rv, s)
  if rv = APR_SUCCESS then
    if s.baton.cert.isNone then ad_cert_poll ext false s else (rv, s)
  else (rv, s)

/-! ## `md_acme_drive.c`: ACME driving -/

/-- The result of `acme_driver_init` for the managed domain `md` of the driver
(`d->md`): the status, the baton, and the ACME record when `md_acme_create`
made one. -/
def acme_driver_init {W : Type} (ext : Ext W) (md : md_t) (w : W) :
    apr_status_t × md_acme_driver_t × Option md_acme_t × W :=
  let ad : md_acme_driver_t :=
    { md := md, authz_monitor_timeout := 30 * 1000000, cert_poll_timeout := 30 * 1000000,
      can_http_01 := true }
  /- Find out where we're at with this managed domain -/
  let (rv, acme, w) := md_acme_create ext.toHttp ad.md.ca_url w
  (rv, ad, acme, w)

/-- In `acme_drive_cert`, a conjunct `APR_SUCCESS == (rv = f(d))` behind
`APR_SUCCESS == rv &&`: `f` is called when no call before it failed, and the
log records what it returned. -/
def and_then {W : Type} (p : Phase) (f : DSt W → apr_status_t × DSt W)
    (r : apr_status_t × DSt W) : apr_status_t × DSt W :=
  if r.1 = APR_SUCCESS then
    let (rv, s) := f r.2
    (rv, s.note (Event.returned p rv))
  else r

/-- In `acme_drive_cert`, the statements of
`if (APR_SUCCESS == rv) { ad->phase = "check agreement"; rv = md_acme_acct_check_agreement(...); }`. -/
def check_agreement {W : Type} (ext : Ext W) (s : DSt W) : apr_status_t × DSt W :=
  let s := set_phase "check agreement" s
  let (rv, w) := ext.md_acme_acct_check_agreement s.acme s.baton.acct s.baton.md.ca_agreement
    s.world
  (rv, { s with world := w })

/-- In `acme_drive_cert`, the block `if (APR_SUCCESS == rv && ad->md->cert_url) { ... }`:
"If we know a cert's location, try to get it. Previous download might have
failed. If server 404 it, we clear our memory of it." -/
def poll_known_cert {W : Type} (ext : Ext W) (r : apr_status_t × DSt W) :
    apr_status_t × DSt W :=
  if r.1 = APR_SUCCESS ∧ r.2.baton.md.cert_url.isSome then
    let (rv, s) := ad_cert_poll ext true r.2
    let s := s.note (Event.returned Phase.ad_cert_poll_once rv)
    if APR_STATUS_IS_ENOENT rv then
      /- Server reports to know nothing about it. -/
      let s := { s with baton := { s.baton with md := { s.baton.md with cert_url := none } } }
      let md := s.baton.md
      let (rv, w) := ext.md_reg_update md.name md md_upd_fields.MD_UPD_CERT_URL s.world
      let s := { s with world := w }.note
        (Event.md_reg_update md.name md_upd_fields.MD_UPD_CERT_URL)
      (rv, s.note (Event.returned Phase.md_reg_update_cert_url rv))
    else (rv, s)
  else r

/-- The function `acme_drive_cert`.  `fuel` bounds the rounds of the account
search of `ad_set_acct`; the result is `none` when that search is still
running after `fuel` rounds. -/
def acme_drive_cert {W : Type} (ext : Ext W) (fuel : Nat) (s : DSt W) :
    Option (apr_status_t × DSt W) :=
  if s.baton.cert.isSome then some (APR_SUCCESS, s)
  else
    let s := set_phase "get certificate" s
    /- Chose (or create) and ACME account to use -/
    match ad_set_acct ext fuel s with
    | none => none
    | some (rv, s) =>
      let r := (rv, s.note (Event.returned Phase.ad_set_acct rv))
      /- Check that the account agreed to the terms-of-service -/
      let r := and_then Phase.md_acme_acct_check_agreement (check_agreement ext) r
      let r := poll_known_cert ext r
      let r := and_then Phase.ad_setup_authz (ad_setup_authz ext) r
      let r := and_then Phase.ad_start_challenges (ad_start_challenges ext) r
      let r := and_then Phase.ad_monitor_challenges (ad_monitor_challenges ext) r
      let r := and_then Phase.ad_setup_certificate (ad_setup_certificate ext) r
      some r

def acme_driver_run {W : Type} (ext : Ext W) (fuel : Nat) (s : DSt W) :
    Option (apr_status_t × DSt W) :=
  let s := set_phase "ACME setup" s
  let (rv, s) := md_acme_setup ext.toHttp s
  let r := if rv = APR_SUCCESS then acme_drive_cert ext fuel s else some (rv, s)
  match r with
  | none => none
  | some (rv, s) =>
    /- Update MD expiration date -/
    if rv = APR_SUCCESS then some (rv, set_phase "completed" s) else some (rv, s)

/-! ### Concrete HTTP clients and worlds used to evaluate `md_acme.c` -/

/-- A network that answers the requests with the responses of a script, in
turn; when the script is used up the transport fails. -/
def script_perform (_r : md_http_request_t) (w : List md_http_response_t) :
    md_http_response_t × List md_http_response_t :=
  match w with
  | res :: rest => (res, rest)
  | [] => ({ rv := APR_EGENERAL, status := 0, headers := some [], body := none }, [])

/-- The JSON reader on the scripted responses: a body is read as a JSON
document when the content type names JSON; `problem:` followed by a type is
a problem document of that type, every other body an empty object. -/
def script_read_http (res : md_http_response_t) : apr_status_t × Option md_json_t :=
  match res.headers.bind (apr_table_get · "content-type"), res.body with
  | some ctype, some body =>
    if ctype = "application/json" ∨ ctype = "application/problem+json" then
      if strstr_at_start body "problem:" then
        (APR_SUCCESS, some (md_json_t.obj [("type", md_json_t.str (str_advance body 8))]))
      else (APR_SUCCESS, some (md_json_t.obj []))
    else (APR_ENOENT, none)
  | _, _ => (APR_ENOENT, none)

/-- The directory document of the scripted CA. -/
def script_directory : md_json_t :=
  md_json_t.obj
    [("new-authz", md_json_t.str "https://ca.test/new-authz"),
     ("new-cert", md_json_t.str "https://ca.test/new-cert"),
     ("new-reg", md_json_t.str "https://ca.test/new-reg"),
     ("revoke-cert", md_json_t.str "https://ca.test/revoke-cert")]

def script_http : Http (List md_http_response_t) where
  md_http_create := fun w => (APR_SUCCESS, w)
  perform := script_perform
  md_json_http_get := fun _ w => (APR_SUCCESS, some script_directory, w)
  md_json_read_http := script_read_http
  md_json_writep := fun _ => "json"
  md_jws_sign := fun _ _ _ => (APR_SUCCESS, some (md_json_t.obj []))

/-- The answer of a CA that rejects the nonce of a signed request. -/
def badnonce_response : md_http_response_t :=
  { rv := APR_SUCCESS, status := 400,
    headers := some [("content-type", some "application/problem+json"),
                     ("Replay-Nonce", some "n2")],
    body := some "problem:urn:ietf:params:acme:error:badNonce" }

/-- A 2xx answer with a JSON body and a fresh nonce. -/
def ok_response (nonce : String) : md_http_response_t :=
  { rv := APR_SUCCESS, status := 200,
    headers := some [("content-type", some "application/json"), ("Replay-Nonce", some nonce)],
    body := some "ok" }

/-- The answer to `HEAD`: no body, a fresh nonce. -/
def head_response (nonce : String) : md_http_response_t :=
  { rv := APR_SUCCESS, status := 200, headers := some [("Replay-Nonce", some nonce)],
    body := none }

/-- A CA that rejects the nonce of every `POST` and hands out the nonce `n1`
on every other request. -/
def badnonce_http : Http Unit where
  md_http_create := fun w => (APR_SUCCESS, w)
  perform := fun r w => if r.method = "POST" then (badnonce_response, w) else (head_response "n1", w)
  md_json_http_get := fun _ w => (APR_SUCCESS, some script_directory, w)
  md_json_read_http := script_read_http
  md_json_writep := fun _ => "json"
  md_jws_sign := fun _ _ _ => (APR_SUCCESS, some (md_json_t.obj []))

/-- The ACME record that `md_acme_create` makes for the scripted CA. -/
def fresh_acme : md_acme_t := { url := "https://ca.test/dir", pkey_bits := 4096 }

/-- An `on_init` callback that signs an empty payload. -/
def sign_empty {W : Type} (http : Http W) : md_acme_req_init_cb W Unit :=
  fun req _ b w =>
    let r := md_acme_req_body_init http req (md_json_t.obj []) none
    (r.1, r.2, b, w)

/-- A success callback that fails with `APR_EINVAL`. -/
def failing_on_success : md_acme_req_success_cb (List md_http_response_t) Unit :=
  fun _ _ _ b w => (APR_EINVAL, b, w)

/-- The ACME record after `md_acme_setup` against the scripted CA. -/
def script_acme (nonce : Option String) : md_acme_t :=
  { url := "https://ca.test/dir", new_authz := some "https://ca.test/new-authz",
    new_cert := some "https://ca.test/new-cert", new_reg := some "https://ca.test/new-reg",
    revoke_cert := some "https://ca.test/revoke-cert", nonce := nonce, pkey_bits := 4096 }

def script_state (nonce : Option String) (answers : List md_http_response_t) :
    St (List md_http_response_t) Unit :=
  { acme := script_acme nonce, baton := (), world := answers, log := [] }

/-! ### Classifying the events of the log -/

def is_on_init : Event → Bool
  | Event.on_init _ _ => true
  | _ => false

def is_post : Event → Bool
  | Event.http_POST _ _ => true
  | _ => false

def is_response : Event → Bool
  | Event.http_response _ => true
  | _ => false

/-! ### A mock CA and store used to evaluate the driver -/

/-- Position of the first authorization for `domain`. -/
def mock_set_get : List md_acme_authz_t → String → Option Nat
  | [], _ => none
  | a :: rest, domain =>
    if a.domain = domain then some 0 else (mock_set_get rest domain).map (· + 1)

/-- The certificate of the mock CA travels as the body `CERT`; without it
`*pcert` is left as it is. -/
def mock_cert_read_http (cert : Option md_cert_t) (res : md_http_response_t) :
    apr_status_t × Option md_cert_t :=
  if res.body = some "CERT" then (APR_SUCCESS, some { id := 7 }) else (APR_ENOENT, cert)

/-- A mock CA with an empty store.  There is no account yet and registration
succeeds; a new authorization is pending, and valid once the challenge was
answered; there is no key yet; `new-cert` answers 201 with a `Location`, and
with the certificate in the body when `cert_in_body` is set; a `GET` of the
certificate URL yields the certificate. -/
def mock_ext (cert_in_body : Bool) : Ext Unit where
  md_http_create := fun w => (APR_SUCCESS, w)
  perform := fun _ w => (head_response "n1", w)
  md_json_http_get := fun _ w => (APR_SUCCESS, some script_directory, w)
  md_json_read_http := script_read_http
  md_json_writep := fun _ => "json"
  md_jws_sign := fun _ _ _ => (APR_SUCCESS, some (md_json_t.obj []))
  md_acme_acct_validate := fun _ _ w => (APR_SUCCESS, w)
  md_acme_acct_disable := fun _ w => (APR_SUCCESS, w)
  md_acme_acct_load := fun _ w => (APR_ENOENT, none, w)
  md_acme_acct_find := fun _ w => (APR_ENOENT, none, w)
  md_acme_register := fun _ _ _ w => (APR_SUCCESS, some { id := "1" }, w)
  md_acme_acct_check_agreement := fun _ _ _ w => (APR_SUCCESS, w)
  md_reg_update := fun _ _ _ w => (APR_SUCCESS, w)
  md_acme_authz_set_load := fun _ w => (APR_ENOENT, none, w)
  md_acme_authz_set_create := fun id => { account_id := id, authzs := [] }
  md_acme_authz_set_get := fun set domain => mock_set_get set.authzs domain
  md_acme_authz_set_remove := fun set domain =>
    { set with authzs := set.authzs.filter (fun a => a.domain ≠ domain) }
  md_acme_authz_set_add := fun set authz =>
    match authz with
    | some a => (APR_SUCCESS, { set with authzs := set.authzs ++ [a] })
    | none => (APR_EINVAL, set)
  md_acme_authz_set_save := fun _ _ _ w => (APR_SUCCESS, w)
  md_acme_authz_update := fun a _ _ w =>
    if a.location = some "answered" then
      (APR_SUCCESS, { a with state := md_acme_authz_state_t.MD_ACME_AUTHZ_S_VALID }, w)
    else (APR_SUCCESS, a, w)
  md_acme_authz_register := fun _ domain _ w =>
    (APR_SUCCESS,
      some { domain := domain, state := md_acme_authz_state_t.MD_ACME_AUTHZ_S_PENDING }, w)
  md_acme_authz_respond := fun a _ _ _ _ w => (APR_SUCCESS, { a with location := some "answered" }, w)
  md_cert_read_http := mock_cert_read_http
  md_pkey_load := fun _ w => (APR_ENOENT, none, w)
  md_pkey_gen_rsa := fun _ w => (APR_SUCCESS, some { id := 1 }, w)
  md_pkey_save := fun _ _ _ w => (APR_SUCCESS, w)
  md_cert_req_create := fun _ _ w => (APR_SUCCESS, some "csr", w)
  md_store_save := fun _ _ _ _ _ _ w => (APR_SUCCESS, w)
  acme_answer := fun method _ w =>
    if method = "POST" then
      (acme_answer.response
        { rv := APR_SUCCESS, status := 201,
          headers := some [("location", some "https://ca.test/cert/7")],
          body := if cert_in_body then some "CERT" else none }, w)
    else
      (acme_answer.response
        { rv := APR_SUCCESS, status := 200, headers := some [], body := some "CERT" }, w)
  retries_within := fun _ _ => 3

/-- The managed domain of scenario S1 of the specification. -/
def mock_md (cert_url : Option String) : md_t :=
  { name := "a", domains := ["a.test"], contacts := some ["mailto:o@a.test"],
    ca_url := some "https://ca.test/dir", cert_url := cert_url }

/-- The state after `acme_driver_init` for `mock_md` and `md_acme_setup`. -/
def mock_state (cert_url : Option String) : DSt Unit :=
  { acme := script_acme none, world := (), log := [],
    baton := (acme_driver_init (mock_ext false) (mock_md cert_url) ()).2.1 }

/-! ### The trace of `acme_drive_cert` -/

/-- The results of the calls of `acme_drive_cert` that the log recorded, in order. -/
def returns_of (log : List Event) : List (Phase × apr_status_t) :=
  log.filterMap fun e =>
    match e with
    | Event.returned p rv => some (p, rv)
    | _ => none

/-- A recorded call failed: its status is not `APR_SUCCESS`, and it is not the
one-shot poll answering `APR_ENOENT`. -/
def failed (e : Phase × apr_status_t) : Bool :=
  e.2 != APR_SUCCESS && !(e.1 == Phase.ad_cert_poll_once && APR_STATUS_IS_ENOENT e.2)

/-- The events that fetch, request or save a certificate. -/
def is_cert_event : Event → Bool
  | Event.md_acme_GET _ => true
  | Event.md_acme_POST _ => true
  | Event.md_store_save _ _ _ _ => true
  | _ => false

/-- The events of an order at the CA: the one-shot poll and its result, the
registration of an authorization, the answer to a challenge, a `POST`. -/
def is_order_event : Event → Bool
  | Event.md_acme_GET _ => true
  | Event.returned Phase.ad_cert_poll_once _ => true
  | Event.md_acme_authz_register _ => true
  | Event.md_acme_authz_respond _ => true
  | Event.md_acme_POST _ => true
  | _ => false

/-! ### The problem map: the type as the table sees it -/

/-- The string that the loop of `problem_status_get` compares with the table:
`type` behind one leading `urn:ietf:params:` or else one leading `urn:`. -/
def type_without_urn (type : String) : String :=
  if strstr_at_start type "urn:ietf:params:" then str_advance type (strlen "urn:ietf:params:")
  else if strstr_at_start type "urn:" then str_advance type (strlen "urn:")
  else type

/-! ### An error answer that is no problem document -/

/-- A non-2xx answer of a proxy in front of the CA: an HTML page, no nonce. -/
def plain_error_response (status : Int) : md_http_response_t :=
  { rv := APR_SUCCESS, status := status, headers := some [("content-type", some "text/html")],
    body := some "<html>error</html>" }

/-! ### Variants of the mock CA -/

/-- The mock CA when it does not know the account of the store any more:
validation is answered `unauthorized`. -/
def mock_ext_denied : Ext Unit :=
  { mock_ext false with md_acme_acct_validate := fun _ _ w => (APR_EACCES, w) }

/-- The state after `acme_driver_init` for the managed domain `md` and `md_acme_setup`. -/
def mock_state_md (md : md_t) : DSt Unit :=
  { acme := script_acme none, world := (), log := [],
    baton := (acme_driver_init (mock_ext false) md ()).2.1 }

/-- The mock CA and a store that fails to write the managed domain. -/
def mock_ext_reg_update_fails : Ext Unit :=
  { mock_ext false with md_reg_update := fun _ _ _ w => (APR_EGENERAL, w) }

/-! ### Classifying the events of the account setup -/

/-- The calls with which `ad_set_acct` looks for an account it knows. -/
def is_acct_lookup : Event → Bool
  | Event.md_acme_acct_load _ _ => true
  | Event.md_acme_acct_validate _ _ => true
  | Event.md_acme_acct_disable _ _ => true
  | Event.md_acme_acct_find _ => true
  | _ => false

/-- A log of rounds of the account search in each of which `md_acme_acct_find`
returned an account, its validation failed with `APR_ENOENT` or `APR_EACCES`,
and `md_acme_acct_disable` was called on it.  The status of that call is
free: the loop of `ad_set_acct` overwrites it with the status of the next
`md_acme_acct_find`, so that a round whose disable failed is passed like one
whose disable succeeded. -/
def disable_called_rounds : List Event → Bool
  | [] => true
  | Event.md_acme_acct_find rv :: Event.md_acme_acct_validate id v ::
      Event.md_acme_acct_disable id1 _ :: rest =>
    decide (rv = APR_SUCCESS) && (decide (v = APR_ENOENT) || decide (v = APR_EACCES)) &&
      id.isSome && decide (id1 = id) && disable_called_rounds rest
  | _ => false

/-! ### The account setup up to the registration -/

/-- In `ad_set_acct`, everything before the block "2.2 No local account
exists, create a new one": `rv` and `acct` as they stand there. -/
def ad_set_acct_lookup {W : Type} (ext : Ext W) (fuel : Nat) (s : DSt W) :
    Option (apr_status_t × Option md_acme_acct_t × DSt W) :=
  let s := set_phase "choose account" s
  let s := { s with baton := { s.baton with acct := none } }
  let (rv, acct, s) := ad_set_acct_previous ext s
  ad_set_acct_search ext fuel rv acct s

/-- The state in which `ad_set_acct` leaves `mock_state none` at the mock CA:
the account `1` is registered and recorded at the managed domain. -/
def mock_state_acct : DSt Unit :=
  { mock_state none with
    baton := { (mock_state none).baton with
      phase := some "choose account"
      acct := some { id := "1" }
      md := { mock_md none with ca_account := some "1" } }
    log := [Event.phase "choose account", Event.md_acme_acct_find APR_ENOENT,
      Event.md_acme_register APR_SUCCESS,
      Event.md_reg_update "a" md_upd_fields.MD_UPD_CA_ACCOUNT] }

/-- A mock CA over a store of accounts, the world.  The CA knows none of the
accounts of the store: every validation is answered `unauthorized`.  Disabling
an account takes it out of the store, `md_acme_acct_find` hands out the first
account of the store, and registration adds the account `new`.  Everything
else is as at `mock_ext`. -/
def store_ext : Ext (List md_acme_acct_t) where
  md_http_create := fun w => (APR_SUCCESS, w)
  perform := fun _ w => (head_response "n1", w)
  md_json_http_get := fun _ w => (APR_SUCCESS, some script_directory, w)
  md_json_read_http := script_read_http
  md_json_writep := fun _ => "json"
  md_jws_sign := fun _ _ _ => (APR_SUCCESS, some (md_json_t.obj []))
  md_acme_acct_validate := fun _ _ w => (APR_EACCES, w)
  md_acme_acct_disable := fun acct w => (APR_SUCCESS, w.filter (fun a => some a ≠ acct))
  md_acme_acct_load := fun id w =>
    match w.find? (fun a => a.id = id) with
    | some a => (APR_SUCCESS, some a, w)
    | none => (APR_ENOENT, none, w)
  md_acme_acct_find := fun _ w =>
    match w with
    | a :: _ => (APR_SUCCESS, some a, w)
    | [] => (APR_ENOENT, none, w)
  md_acme_register := fun _ _ _ w => (APR_SUCCESS, some { id := "new" }, w ++ [{ id := "new" }])
  md_acme_acct_check_agreement := fun _ _ _ w => (APR_SUCCESS, w)
  md_reg_update := fun _ _ _ w => (APR_SUCCESS, w)
  md_acme_authz_set_load := fun _ w => (APR_ENOENT, none, w)
  md_acme_authz_set_create := (mock_ext false).md_acme_authz_set_create
  md_acme_authz_set_get := (mock_ext false).md_acme_authz_set_get
  md_acme_authz_set_remove := (mock_ext false).md_acme_authz_set_remove
  md_acme_authz_set_add := (mock_ext false).md_acme_authz_set_add
  md_acme_authz_set_save := fun _ _ _ w => (APR_SUCCESS, w)
  md_acme_authz_update := fun a _ _ w => (APR_SUCCESS, a, w)
  md_acme_authz_register := fun _ domain _ w =>
    (APR_SUCCESS,
      some { domain := domain, state := md_acme_authz_state_t.MD_ACME_AUTHZ_S_PENDING }, w)
  md_acme_authz_respond := fun a _ _ _ _ w => (APR_SUCCESS, a, w)
  md_cert_read_http := mock_cert_read_http
  md_pkey_load := fun _ w => (APR_ENOENT, none, w)
  md_pkey_gen_rsa := fun _ w => (APR_SUCCESS, some { id := 1 }, w)
  md_pkey_save := fun _ _ _ w => (APR_SUCCESS, w)
  md_cert_req_create := fun _ _ w => (APR_SUCCESS, some "csr", w)
  md_store_save := fun _ _ _ _ _ _ w => (APR_SUCCESS, w)
  acme_answer := fun _ _ w => (acme_answer.failed APR_EGENERAL, w)
  retries_within := fun _ _ => 3

/-- The managed domain of `mock_md` after a run that chose the account `old`;
the store holds that account and the account `other`. -/
def store_state : DSt (List md_acme_acct_t) :=
  { acme := script_acme none, world := [{ id := "old" }, { id := "other" }], log := [],
    baton := (acme_driver_init (mock_ext false)
      { mock_md none with ca_account := some "old" } ()).2.1 }

/-- In a round of the loop of `ad_setup_authz`, everything before the block
`if (APR_SUCCESS == rv && changed)`: `rv` and `changed` as they stand there. -/
def ad_setup_authz_before_save {W : Type} (ext : Ext W) (domain : String) (s : DSt W) :
    apr_status_t × Bool × DSt W :=
  let (rv, authz, changed, s) := ad_setup_authz_check ext domain s
  if authz.isNone then ad_setup_authz_create ext domain changed s else (rv, changed, s)

/-! ### Classifying the events of the authorization setup -/

/-- A call that changes the authorization set in memory. -/
def is_set_change : Event → Bool
  | Event.md_acme_authz_set_remove _ => true
  | Event.md_acme_authz_set_add _ => true
  | _ => false

def is_set_save : Event → Bool
  | Event.md_acme_authz_set_save _ => true
  | _ => false

/-- Every change of the set in the log has a `md_acme_authz_set_save` later in the log. -/
def changes_saved : List Event → Bool
  | [] => true
  | e :: rest => (!is_set_change e || rest.any is_set_save) && changes_saved rest

/-- The calls before a registration for `domain` end with a
`md_acme_authz_set_get` for it that found nothing, or with one that found an
entry, the failed update of that entry and its removal. -/
def allows_register (domain : String) (before : List Event) : Bool :=
  match before.reverse with
  | Event.md_acme_authz_set_get d false :: _ => decide (d = domain)
  | Event.md_acme_authz_set_remove d :: Event.md_acme_authz_update d1 rv ::
      Event.md_acme_authz_set_get d2 true :: _ =>
    decide (d = domain) && decide (d1 = domain) && decide (d2 = domain) &&
      decide (rv ≠ APR_SUCCESS)
  | _ => false

/-- Every `md_acme_authz_register` of the log comes after calls that allow it;
`before` are the calls before the log. -/
def registers_allowed (before : List Event) : List Event → Bool
  | [] => true
  | e :: rest =>
    (match e with
      | Event.md_acme_authz_register d => allows_register d before
      | _ => true) && registers_allowed (before ++ [e]) rest

/-- In `ad_setup_authz`, everything before the `for` loop: the asserts, the
phase, and the load or creation of the set. -/
def ad_setup_authz_load {W : Type} (ext : Ext W) (s : DSt W) : apr_status_t × DSt W :=
  let md := s.baton.md
  let s := c_assert s.baton.acct.isSome "ad->acct" s
  let s := set_phase "check authz" s
  let (rv, set, w) := ext.md_acme_authz_set_load md.name s.world
  let s := { s with world := w, baton := { s.baton with authz_set := set } }.note
    (Event.md_acme_authz_set_load md.name)
  if rv = APR_ENOENT then
    (APR_SUCCESS,
      put_authz_set (ext.md_acme_authz_set_create (s.baton.acct.map md_acme_acct_t.id)) s)
  else (rv, s)

/-- The mock CA when the authorization stored for `a.test` is gone at the CA and
a new one is refused: the update of the stored entry and the registration fail. -/
def mock_ext_authz_gone : Ext Unit :=
  { mock_ext false with
    md_acme_authz_set_load := fun _ w =>
      (APR_SUCCESS,
        some { account_id := some "1",
               authzs := [{ domain := "a.test", location := some "https://ca.test/authz/1" }] },
        w)
    md_acme_authz_update := fun a _ _ w => (APR_ENOENT, a, w)
    md_acme_authz_register := fun _ _ _ w => (APR_EGENERAL, none, w) }

/-! ## `md_acme_order.c`: monitoring the authorizations of an order -/

namespace md_acme_order

/-- The record `md_acme_order_t` (declared in `md_acme_order.h`, which is not
among the sources) with the fields that `md_acme_order.c` uses: the URL, which
`apr_pcalloc` leaves `NULL`, and the arrays that `md_acme_order_create` sets up. -/
structure md_acme_order_t where
  url : Option String := none
  authz_urls : List String := []
  challenge_dirs : List String := []
deriving DecidableEq, Repr

/-- The record `order_ctx_t`, without its pool. -/
structure order_ctx_t where
  order : md_acme_order_t
  acme : md_acme_t
  md : md_t

/-- The `for` loop of `check_challenges` over the remaining URLs.  The first
argument is `md_acme_authz_retrieve(acme, p, url, &authz)` of `md_acme_authz.c`,
which is not among the sources: it returns its status, `*pauthz` (which the
loop reads on success only) and the world. -/
def check_challenges_loop {W : Type}
    (md_acme_authz_retrieve : md_acme_t → String → W → apr_status_t × md_acme_authz_t × W)
    (ctx : order_ctx_t) : List String → apr_status_t → W → apr_status_t × W
  | [], rv, w => (rv, w)
  | url :: rest, rv, w =>
    if rv = APR_SUCCESS then
      let (rv, authz, w) := md_acme_authz_retrieve ctx.acme url w
      let rv :=
        if rv = APR_SUCCESS then
          match authz.state with
          | md_acme_authz_state_t.MD_ACME_AUTHZ_S_VALID => rv
          | md_acme_authz_state_t.MD_ACME_AUTHZ_S_PENDING => APR_EAGAIN
          | _ => APR_EINVAL
        else rv
      check_challenges_loop md_acme_authz_retrieve ctx rest rv w
    else (rv, w)

def check_challenges {W : Type}
    (md_acme_authz_retrieve : md_acme_t → String → W → apr_status_t × md_acme_authz_t × W)
    (ctx : order_ctx_t) (_attempt : Nat) (w : W) : apr_status_t × W :=
  check_challenges_loop md_acme_authz_retrieve ctx ctx.order.authz_urls APR_SUCCESS w

end md_acme_order

/-! ### Worlds for the monitoring of authorizations -/

/-- The status of the first state of the list that is not `valid`:
`APR_EAGAIN` when it is `pending`, `APR_EINVAL` otherwise, and `APR_SUCCESS`
when every state is `valid`. -/
def first_not_valid : List md_acme_authz_state_t → apr_status_t
  | [] => APR_SUCCESS
  | md_acme_authz_state_t.MD_ACME_AUTHZ_S_VALID :: rest => first_not_valid rest
  | md_acme_authz_state_t.MD_ACME_AUTHZ_S_PENDING :: _ => APR_EAGAIN
  | _ :: _ => APR_EINVAL

/-- A CA that answers the retrieval of an authorization URL with the state
that `table` has for it. -/
def table_retrieve (table : List (String × md_acme_authz_state_t)) :
    md_acme_t → String → Unit → apr_status_t × md_acme_authz_t × Unit :=
  fun _ url w =>
    match table.lookup url with
    | some st => (APR_SUCCESS, { domain := url, location := some url, state := st }, w)
    | none => (APR_ENOENT, { domain := url }, w)

/-- A CA at which every authorization of the table is in the state of the table. -/
def table_state (table : List (String × md_acme_authz_state_t)) (url : String) :
    md_acme_authz_state_t :=
  (table.lookup url).getD md_acme_authz_state_t.MD_ACME_AUTHZ_S_UNKNOWN

/-- An order for `a.test` and `b.test`. -/
def two_order_ctx : md_acme_order.order_ctx_t :=
  { order := { authz_urls := ["https://ca.test/authz/a", "https://ca.test/authz/b"] },
    acme := script_acme none,
    md := { name := "a", domains := ["a.test", "b.test"] } }

/-- The authorization of `a.test` is still pending, that of `b.test` has
become invalid. -/
def pending_then_invalid : List (String × md_acme_authz_state_t) :=
  [("https://ca.test/authz/a", md_acme_authz_state_t.MD_ACME_AUTHZ_S_PENDING),
   ("https://ca.test/authz/b", md_acme_authz_state_t.MD_ACME_AUTHZ_S_INVALID)]

/-- The driver state with an authorization set in the states of
`pending_then_invalid`. -/
def two_authz_state : DSt (List md_acme_acct_t) :=
  { store_state with
    baton := { store_state.baton with
      authz_set := some
        { account_id := some "old",
          authzs := [{ domain := "a.test",
                       state := md_acme_authz_state_t.MD_ACME_AUTHZ_S_PENDING },
                     { domain := "b.test",
                       state := md_acme_authz_state_t.MD_ACME_AUTHZ_S_INVALID }] } } }

/-! ### Worlds with an authorization in a terminal state -/

/-- The authorization of `a.test` is valid, that of `b.test` has become invalid. -/
def valid_then_invalid : List (String × md_acme_authz_state_t) :=
  [("https://ca.test/authz/a", md_acme_authz_state_t.MD_ACME_AUTHZ_S_VALID),
   ("https://ca.test/authz/b", md_acme_authz_state_t.MD_ACME_AUTHZ_S_INVALID)]

/-- The driver state with an authorization set in the states of
`valid_then_invalid`. -/
def terminal_authz_state : DSt (List md_acme_acct_t) :=
  { store_state with
    baton := { store_state.baton with
      authz_set := some
        { account_id := some "old",
          authzs := [{ domain := "a.test",
                       state := md_acme_authz_state_t.MD_ACME_AUTHZ_S_VALID },
                     { domain := "b.test",
                       state := md_acme_authz_state_t.MD_ACME_AUTHZ_S_INVALID }] } } }

/-! ### The order part of `acme_drive_cert` -/

/-- In `acme_drive_cert`, the last `if`: the chain
`APR_SUCCESS == rv && APR_SUCCESS == (rv = ad_setup_authz(d)) && ...` that
obtains the authorizations and the certificate. -/
def acme_drive_cert_order {W : Type} (ext : Ext W) (r : apr_status_t × DSt W) :
    apr_status_t × DSt W :=
  let r := and_then Phase.ad_setup_authz (ad_setup_authz ext) r
  let r := and_then Phase.ad_start_challenges (ad_start_challenges ext) r
  let r := and_then Phase.ad_monitor_challenges (ad_monitor_challenges ext) r
  and_then Phase.ad_setup_certificate (ad_setup_certificate ext) r

/-- The mock CA when it does not know the certificate URL any more: a `GET`
fails with `APR_ENOENT`. -/
def mock_ext_cert_gone : Ext Unit :=
  { mock_ext false with
    acme_answer := fun method url w =>
      if method = "GET" then (acme_answer.failed APR_ENOENT, w)
      else (mock_ext false).acme_answer method url w }

/-! ## Functions of `md_json.c` and `md_util.c` that `md_acme_order.c` calls -/

/-- Modelled from the spec: `md_json_create(p)` of `md_json.c`, which is not
among the sources: a new, empty JSON object ("all metadata as UTF-8 JSON"). -/
def md_json_create : md_json_t := md_json_t.obj []

/-- The member `key` of an object gets the value `val`: in place when the
object has the member, at the end otherwise. -/
def json_object_set : List (String × md_json_t) → String → md_json_t → List (String × md_json_t)
  | [], key, val => [(key, val)]
  | m :: rest, key, val =>
    if m.1 == key then (key, val) :: rest else m :: json_object_set rest key val

/-- Modelled from the spec: `md_json_sets(s, json, key, NULL)` of `md_json.c`,
which is not among the sources: the member `key` of the object becomes the
string `s` (the persisted field `url`). -/
def md_json_sets (s : String) (json : md_json_t) (key : String) : md_json_t :=
  match json with
  | md_json_t.obj members => md_json_t.obj (json_object_set members key (md_json_t.str s))
  | j => j

/-- Modelled from the spec: `md_json_setsa(a, json, key, NULL)` of `md_json.c`,
which is not among the sources: the member `key` of the object becomes the
array of the strings of `a` (the persisted fields `authorizations` and
`challenge-dirs`). -/
def md_json_setsa (a : List String) (json : md_json_t) (key : String) : md_json_t :=
  match json with
  | md_json_t.obj members =>
    md_json_t.obj (json_object_set members key (md_json_t.arr (a.map md_json_t.str)))
  | j => j

/-- The strings among the items of a JSON array. -/
def json_strings : List md_json_t → List String
  | [] => []
  | md_json_t.str s :: rest => s :: json_strings rest
  | _ :: rest => json_strings rest

/-- Modelled from the spec: `md_json_getsa(a, json, key, NULL)` of `md_json.c`,
which is not among the sources: when the member `key` of the object is an
array, `a` becomes the list of its strings; otherwise `a` stays as it is. -/
def md_json_getsa (a : List String) (json : md_json_t) (key : String) : List String :=
  match json with
  | md_json_t.obj members =>
    match members.find? (fun m => m.1 == key) with
    | some (_, md_json_t.arr items) => json_strings items
    | _ => a
  | _ => a

/-- Modelled from the spec: `md_util_pool_vdo(cb, baton, p, ...)` of
`md_util.c`, which is not among the sources: it runs `cb` with the baton and
the arguments on a temporary pool and returns its status.  The callback comes
with its arguments and the pools are left out, so that only the state is
passed. -/
def md_util_pool_vdo {S R : Type} (cb : S → R) (s : S) : R := cb s

/-- Modelled from the spec: `md_array_str_index(array, s, start, case_sensitive)`
of `md_util.c`, which is not among the sources: the index of the first element
from `start` on that equals `s` (compared case-sensitively, or with
`apr_strnatcasecmp` otherwise), and -1 when there is none. -/
def md_array_str_index (array : List String) (s : String) (start : Nat)
    (case_sensitive : Bool) : Int :=
  match (array.drop start).findIdx? (fun p =>
      if case_sensitive then p == s else apr_strnatcasecmp p s == 0) with
  | some i => ((start + i : Nat) : Int)
  | none => -1

/-- Modelled from the spec: `md_array_str_remove(p, src, exclude, case_sensitive)`
of `md_util.c`, which is not among the sources: a new array with the elements
of `src` that do not equal `exclude`, in their order. -/
def md_array_str_remove (src : List String) (exclude : String) (case_sensitive : Bool) :
    List String :=
  src.filter (fun p => !(if case_sensitive then p == exclude else apr_strnatcasecmp p exclude == 0))

/-! ## `md_acme_order.c`: the order record and its persistence -/

namespace md_acme_order

/-- Modelled from the spec: the macro `MD_KEY_URL` of `md.h`, which is not among
the sources; the persisted JSON names the field `url`. -/
def MD_KEY_URL : String := "url"

def MD_KEY_AUTHZS : String := "authorizations"

def MD_KEY_CHALLENGE_DIRS : String := "challenge-dirs"

/-- Modelled from the spec: the macro `MD_FN_ORDER` of `md.h`, which is not
among the sources; the aspects of the store name the order `order.json`. -/
def MD_FN_ORDER : String := "order.json"

def md_acme_order_create : md_acme_order_t :=
  { url := none, authz_urls := [], challenge_dirs := [] }

def md_acme_order_to_json (order : md_acme_order_t) : md_json_t :=
  let json := md_json_create
  let json :=
    match order.url with
    | some url => md_json_sets url json MD_KEY_URL
    | none => json
  let json := md_json_setsa order.authz_urls json MD_KEY_AUTHZS
  md_json_setsa order.challenge_dirs json MD_KEY_CHALLENGE_DIRS

def md_acme_order_from_json (json : md_json_t) : md_acme_order_t :=
  let order := md_acme_order_create
  let order := { order with url := md_json_gets json MD_KEY_URL }
  let order := { order with authz_urls := md_json_getsa order.authz_urls json MD_KEY_AUTHZS }
  { order with
    challenge_dirs := md_json_getsa order.challenge_dirs json MD_KEY_CHALLENGE_DIRS }

/-- The parameter `authz_url` is asserted not to be `NULL`: it is a string. -/
def md_acme_order_add (order : md_acme_order_t) (authz_url : String) :
    apr_status_t × md_acme_order_t :=
  if md_array_str_index order.authz_urls authz_url 0 true < 0 then
    (APR_SUCCESS, { order with authz_urls := order.authz_urls ++ [authz_url] })
  else (APR_SUCCESS, order)

def md_acme_order_remove (order : md_acme_order_t) (authz_url : String) :
    apr_status_t × md_acme_order_t :=
  let i := md_array_str_index order.authz_urls authz_url 0 true
  if i ≥ 0 then
    (APR_SUCCESS,
      { order with authz_urls := md_array_str_remove order.authz_urls authz_url true })
  else (APR_ENOENT, order)

def md_acme_order_add_challenge_dir (order : md_acme_order_t) (dir : Option String) :
    apr_status_t × md_acme_order_t :=
  match dir with
  | some dir =>
    if md_array_str_index order.challenge_dirs dir 0 true < 0 then
      (APR_SUCCESS, { order with challenge_dirs := order.challenge_dirs ++ [dir] })
    else (APR_SUCCESS, order)
  | none => (APR_SUCCESS, order)

/-- The calls of `md_acme_order.c` into the store and the authorizations. -/
inductive Call where
  | md_store_load_json (group : md_store_group_t) (name aspect : String)
  /-- `md_store_save_json(store, ptemp, group, name, aspect, json, create)` returned `rv` -/
  | md_store_save_json (group : md_store_group_t) (name aspect : String) (create : Bool)
      (rv : apr_status_t)
  | md_store_purge (group : md_store_group_t) (name : String)
  | md_store_remove (group : md_store_group_t) (name aspect : String) (force : Bool)
  | md_acme_authz_retrieve (url : String)
  | md_acme_authz_respond (url : String)
deriving DecidableEq, Repr

/-- The functions that `md_acme_order.c` calls and that are no part of the
embedded sources, with the arguments of the calls in `md_acme_order.c` (the
pools left out).  Each takes the world and returns it next to its results. -/
structure OrderExt (W : Type) where
  md_store_load_json : md_store_group_t → String → String → W → apr_status_t × Option md_json_t × W
  md_store_save_json : md_store_group_t → String → String → md_json_t → Bool → W → apr_status_t × W
  md_store_purge : md_store_group_t → String → W → apr_status_t × W
  md_store_remove : md_store_group_t → String → String → Bool → W → apr_status_t × W
  md_acme_authz_retrieve : md_acme_t → String → W → apr_status_t × md_acme_authz_t × W
  /-- `md_acme_authz_respond(authz, acme, store, challenge_types, md->pkey_spec, p)`; it
  returns the authorization as it leaves it -/
  md_acme_authz_respond :
    md_acme_authz_t → md_acme_t → List String → W → apr_status_t × md_acme_authz_t × W

/-- The state of a call of `md_acme_order.c`: the world and the ghost log of the calls. -/
structure OSt (W : Type) where
  world : W
  log : List Call

def OSt.note {W : Type} (s : OSt W) (c : Call) : OSt W := { s with log := s.log ++ [c] }

/-- The result is the status and `*pauthz_set`. -/
def md_acme_order_load {W : Type} (x : OrderExt W) (group : md_store_group_t)
    (md_name : String) (s : OSt W) : apr_status_t × Option md_acme_order_t × OSt W :=
  let (rv, json, w) := x.md_store_load_json group md_name MD_FN_ORDER s.world
  let s := { s with world := w }.note (Call.md_store_load_json group md_name MD_FN_ORDER)
  if rv = APR_SUCCESS then
    (rv, some (md_acme_order_from_json (json.getD md_json_t.null)), s)
  else (rv, none, s)

def p_save {W : Type} (x : OrderExt W) (group : md_store_group_t) (md_name : String)
    (set : md_acme_order_t) (create : Bool) (s : OSt W) : apr_status_t × OSt W :=
  let json := md_acme_order_to_json set
  let (rv, w) := x.md_store_save_json group md_name MD_FN_ORDER json create s.world
  (rv, { s with world := w }.note (Call.md_store_save_json group md_name MD_FN_ORDER create rv))

def md_acme_order_save {W : Type} (x : OrderExt W) (group : md_store_group_t)
    (md_name : String) (authz_set : md_acme_order_t) (create : Bool) (s : OSt W) :
    apr_status_t × OSt W :=
  md_util_pool_vdo (p_save x group md_name authz_set create) s

/-- The `for` loop of `p_purge` over the remaining challenge directories. -/
def p_purge_loop {W : Type} (x : OrderExt W) : List String → OSt W → OSt W
  | [], s => s
  | dir :: rest, s =>
    let (_, w) := x.md_store_purge md_store_group_t.MD_SG_CHALLENGES dir s.world
    p_purge_loop x rest
      ({ s with world := w }.note (Call.md_store_purge md_store_group_t.MD_SG_CHALLENGES dir))

def p_purge {W : Type} (x : OrderExt W) (group : md_store_group_t) (md_name : String)
    (s : OSt W) : apr_status_t × OSt W :=
  let (rv, order, s) := md_acme_order_load x group md_name s
  let s :=
    if rv = APR_SUCCESS then
      p_purge_loop x (order.getD md_acme_order_create).challenge_dirs s
    else s
  let (rv, w) := x.md_store_remove group md_name MD_FN_ORDER true s.world
  (rv, { s with world := w }.note (Call.md_store_remove group md_name MD_FN_ORDER true))

def md_acme_order_purge {W : Type} (x : OrderExt W) (group : md_store_group_t)
    (md_name : String) (s : OSt W) : apr_status_t × OSt W :=
  md_util_pool_vdo (p_purge x group md_name) s

/-- The `for` loop of `md_acme_order_start_challenges` over the remaining URLs
of `order->authz_urls`; a `goto out` ends it with the status at hand. -/
def start_challenges_loop {W : Type} (x : OrderExt W) (acme : md_acme_t)
    (challenge_types : List String) (md : md_t) :
    List String → apr_status_t → md_acme_order_t → OSt W →
      apr_status_t × md_acme_order_t × OSt W
  | [], rv, order, s => (rv, order, s)
  | url :: rest, _, order, s =>
    let (rv, authz, w) := x.md_acme_authz_retrieve acme url s.world
    let s := { s with world := w }.note (Call.md_acme_authz_retrieve url)
    if rv ≠ APR_SUCCESS then (rv, order, s)
    else
      match authz.state with
      | md_acme_authz_state_t.MD_ACME_AUTHZ_S_VALID =>
        start_challenges_loop x acme challenge_types md rest rv order s
      | md_acme_authz_state_t.MD_ACME_AUTHZ_S_PENDING =>
        let (rv, authz, w) := x.md_acme_authz_respond authz acme challenge_types s.world
        let s := { s with world := w }.note (Call.md_acme_authz_respond url)
        if rv ≠ APR_SUCCESS then (rv, order, s)
        else
          let order := (md_acme_order_add_challenge_dir order authz.dir).2
          let s := (md_acme_order_save x md_store_group_t.MD_SG_STAGING md.name order false s).2
          start_challenges_loop x acme challenge_types md rest rv order s
      | _ => (APR_EINVAL, order, s)

def md_acme_order_start_challenges {W : Type} (x : OrderExt W) (order : md_acme_order_t)
    (acme : md_acme_t) (challenge_types : List String) (md : md_t) (s : OSt W) :
    apr_status_t × md_acme_order_t × OSt W :=
  start_challenges_loop x acme challenge_types md order.authz_urls APR_SUCCESS order s

end md_acme_order

/-! ### Sequences of changes of an order -/

namespace md_acme_order

/-- A call of one of the three functions that change the lists of an order. -/
inductive order_op where
  | add (authz_url : String)
  | remove (authz_url : String)
  | add_challenge_dir (dir : Option String)
deriving DecidableEq, Repr

/-- The order after the call. -/
def apply_op (order : md_acme_order_t) : order_op → md_acme_order_t
  | order_op.add authz_url => (md_acme_order_add order authz_url).2
  | order_op.remove authz_url => (md_acme_order_remove order authz_url).2
  | order_op.add_challenge_dir dir => (md_acme_order_add_challenge_dir order dir).2

/-- The order that a sequence of calls makes of the one of `md_acme_order_create`. -/
def apply_ops (ops : List order_op) : md_acme_order_t :=
  ops.foldl apply_op md_acme_order_create

end md_acme_order

/-! ### A store in memory used to evaluate `md_acme_order.c` -/

/-- A store that holds the JSON documents of the aspect `order.json` by group
and name.  A forced remove succeeds on a missing document.  Every
authorization of the CA is pending, and the answer to its challenge is put
into the directory `http-01/` followed by the URL. -/
def mem_store : md_acme_order.OrderExt (List ((md_store_group_t × String) × md_json_t)) where
  md_store_load_json := fun g n _ w =>
    match w.lookup (g, n) with
    | some j => (APR_SUCCESS, some j, w)
    | none => (APR_ENOENT, none, w)
  md_store_save_json := fun g n _ j _ w =>
    (APR_SUCCESS, ((g, n), j) :: w.filter (fun e => e.1 ≠ (g, n)))
  md_store_purge := fun g n w => (APR_SUCCESS, w.filter (fun e => e.1 ≠ (g, n)))
  md_store_remove := fun g n _ force w =>
    if (w.lookup (g, n)).isSome ∨ force then (APR_SUCCESS, w.filter (fun e => e.1 ≠ (g, n)))
    else (APR_ENOENT, w)
  md_acme_authz_retrieve := fun _ url w =>
    (APR_SUCCESS,
      { domain := url, location := some url,
        state := md_acme_authz_state_t.MD_ACME_AUTHZ_S_PENDING }, w)
  md_acme_authz_respond := fun a _ _ w =>
    (APR_SUCCESS, { a with dir := some ("http-01/" ++ a.domain) }, w)

/-- The store `mem_store` when it cannot be written: every save fails. -/
def read_only_store : md_acme_order.OrderExt (List ((md_store_group_t × String) × md_json_t)) :=
  { mem_store with md_store_save_json := fun _ _ _ _ _ w => (APR_EACCES, w) }

/-- The order stored for `a` in the staging area, with two challenge directories. -/
def stored_order : md_acme_order.md_acme_order_t :=
  { url := none, authz_urls := ["https://ca.test/authz/a"],
    challenge_dirs := ["http-01/a.test", "http-01/b.test"] }

/-- The state of a call on a store that holds `stored_order`. -/
def stored_order_state : md_acme_order.OSt (List ((md_store_group_t × String) × md_json_t)) :=
  { world := [((md_store_group_t.MD_SG_STAGING, "a"),
      md_acme_order.md_acme_order_to_json stored_order)],
    log := [] }

/-! ### The certificate setup up to the poll -/

/-- In `ad_setup_certificate`, everything before the last `if`: the key, the
CSR and its submission. -/
def ad_setup_certificate_submit {W : Type} (ext : Ext W) (s : DSt W) : apr_status_t × DSt W :=
  let s := set_phase "setup cert pkey" s
  let (rv, pkey, s) := ad_setup_cert_pkey ext s
  let (rv, s) := if rv = APR_SUCCESS then ad_setup_csr ext pkey s else (rv, s)
  if rv = APR_SUCCESS then ad_submit_csr ext s else (rv, s)

/-- The mock CA and a store that holds the authorizations of an earlier list of
names: one for `a.test` and one for `old.test`, both valid. -/
def mock_ext_stale_set : Ext Unit :=
  { mock_ext false with
    md_acme_authz_set_load := fun _ w =>
      (APR_SUCCESS,
        some { account_id := some "1",
               authzs := [{ domain := "a.test",
                            state := md_acme_authz_state_t.MD_ACME_AUTHZ_S_VALID },
                          { domain := "old.test",
                            state := md_acme_authz_state_t.MD_ACME_AUTHZ_S_VALID }] },
        w) }

def is_assert_failed : Event → Bool
  | Event.assert_failed _ => true
  | _ => false

/-! ### The names of the phases -/

/-- The values that `ad->phase` takes in a call of `acme_drive_cert`. -/
def phase_names : Phase → List String
  | Phase.ad_set_acct => ["choose account"]
  | Phase.md_acme_acct_check_agreement => ["check agreement"]
  | Phase.ad_cert_poll_once => ["poll certificate"]
  | Phase.md_reg_update_cert_url => ["poll certificate"]
  | Phase.ad_setup_authz => ["check authz"]
  | Phase.ad_start_challenges => ["start challenges"]
  | Phase.ad_monitor_challenges => ["monitor challenges"]
  | Phase.ad_setup_certificate =>
    ["setup cert pkey", "setup csr", "submit csr", "poll certificate"]

/-- The mock CA when its directory cannot be read. -/
def mock_ext_no_directory : Ext Unit :=
  { mock_ext false with md_json_http_get := fun _ w => (APR_EGENERAL, none, w) }

/-- The mock CA when the account has not agreed to the current terms of service. -/
def mock_ext_no_agreement : Ext Unit :=
  { mock_ext false with md_acme_acct_check_agreement := fun _ _ _ w => (APR_EACCES, w) }

/-- The log ends with the return of a call of `acme_drive_cert` with the status
at hand, and `ad->phase` is one of the names of that call. -/
def phase_of_last_call {W : Type} (r : apr_status_t × DSt W) : Prop :=
  ∃ p, r.2.log.getLast? = some (Event.returned p r.1) ∧
    ∃ n ∈ phase_names p, r.2.baton.phase = some n

/-- The state in which `acme_driver_run` leaves `mock_state none` when the
directory of the CA cannot be read. -/
def mock_state_no_directory : DSt Unit :=
  { mock_state none with
    baton := { (mock_state none).baton with phase := some "ACME setup" }
    log := [Event.phase "ACME setup", Event.http_GET "https://ca.test/dir"] }

/-! ## Lemmas on the log of a signed request -/

theorem split_unique {α : Type} (P : α → Prop) :
    ∀ (A pre : List α) (B post : List α) (e e0 : α),
      (∀ x ∈ A, ¬ P x) → (∀ x ∈ B, ¬ P x) → P e → P e0 →
      pre ++ e :: post = A ++ e0 :: B → pre = A ∧ e = e0 ∧ post = B := by
  intro A
  induction A with
  | nil =>
    intro pre B post e e0 _ hB he _ h
    cases pre with
    | nil =>
      simp only [List.nil_append, List.cons.injEq] at h
      exact ⟨rfl, h.1, h.2⟩
    | cons x pre =>
      simp only [List.nil_append, List.cons_append, List.cons.injEq] at h
      exact absurd he (hB e (by rw [← h.2]; simp))
  | cons a A ih =>
    intro pre B post e e0 hA hB he he0 h
    cases pre with
    | nil =>
      simp only [List.nil_append, List.cons_append, List.cons.injEq] at h
      exact absurd (h.1 ▸ he) (hA a (by simp))
    | cons x pre =>
      simp only [List.cons_append, List.cons.injEq] at h
      obtain ⟨h1, h2, h3⟩ := ih pre B post e e0 (fun y hy => hA y (by simp [hy])) hB he he0 h.2
      exact ⟨by rw [h.1, h1], h2, h3⟩

theorem md_acme_setup_log {W B : Type} (http : Http W) (s : St W B) :
    (md_acme_setup http s).2.log = s.log ++ [Event.http_GET s.acme.url] ∧
    (md_acme_setup http s).2.acme.nonce = s.acme.nonce := by
  unfold md_acme_setup
  simp only [St.note]
  split_ifs <;> simp

theorem http_update_nonce_spec {W B : Type} (res : md_http_response_t) (s : St W B) :
    (http_update_nonce res s).2.log = s.log ∧
    (http_update_nonce res s).2.acme.nonce =
      ((res.headers.bind (apr_table_get · "Replay-Nonce")).orElse fun _ => s.acme.nonce) := by
  unfold http_update_nonce
  cases hh : res.headers with
  | none => simp
  | some hdrs =>
    cases hn : apr_table_get hdrs "Replay-Nonce" with
    | none => simp [hn]
    | some n => simp [hn]

theorem md_acme_new_nonce_spec {W B : Type} (http : Http W) (s : St W B) :
    ∃ rn, (md_acme_new_nonce http s).2.log =
        s.log ++ [Event.http_HEAD s.acme.new_reg, Event.http_response rn] ∧
      (md_acme_new_nonce http s).2.acme.nonce = (rn.orElse fun _ => s.acme.nonce) := by
  unfold md_acme_new_nonce md_http_HEAD
  rcases hp : http.perform { method := "HEAD", url := s.acme.new_reg, ctype := none, body := none }
    s.world with ⟨res, w⟩
  refine ⟨res.headers.bind (apr_table_get · "Replay-Nonce"), ?_, ?_⟩
  · simp only []
    rw [(http_update_nonce_spec _ _).1]
    simp [St.note]
  · simp only []
    rw [(http_update_nonce_spec _ _).2]
    simp only [St.note]

theorem on_response_spec {W B : Type} (http : Http W)
    (on_success : Option (md_acme_req_success_cb W B)) (res : md_http_response_t)
    (req : md_acme_req_t) (s : St W B) :
    ∃ tail, (on_response http on_success res req s).2.2.log = s.log ++ tail ∧
      (∀ e ∈ tail, ¬ is_on_init e ∧ ¬ is_response e ∧ ¬ is_post e) ∧
      ((on_response http on_success res req s).2.2.acme.nonce = s.acme.nonce ∨
       (on_response http on_success res req s).2.2.acme.nonce =
         res.headers.bind (apr_table_get · "Replay-Nonce")) := by
  unfold on_response
  by_cases hrv : res.rv = APR_SUCCESS
  · simp only [hrv, ne_eq, not_true_eq_false, if_false]
    have hn : (req_update_nonce { req with resp_hdrs := res.headers } s).acme.nonce = s.acme.nonce ∨
        (req_update_nonce { req with resp_hdrs := res.headers } s).acme.nonce =
          res.headers.bind (apr_table_get · "Replay-Nonce") := by
      unfold req_update_nonce
      cases hh : res.headers with
      | none => simp
      | some hdrs =>
        cases hn : apr_table_get hdrs "Replay-Nonce" with
        | none => simp [hn]
        | some n => simp [hn]
    have hl : (req_update_nonce { req with resp_hdrs := res.headers } s).log = s.log := by
      unfold req_update_nonce
      cases hh : res.headers with
      | none => simp
      | some hdrs =>
        cases hn : apr_table_get hdrs "Replay-Nonce" with
        | none => simp [hn]
        | some n => simp [hn]
    generalize req_update_nonce { req with resp_hdrs := res.headers } s = s1 at hn hl
    by_cases h2 : 200 ≤ res.status ∧ res.status < 300
    · simp only [h2, and_self, if_true]
      by_cases hj : (http.md_json_read_http res).1 = APR_SUCCESS
      · simp only [hj, not_true_eq_false, if_false]
        cases on_success with
        | none => exact ⟨[], by simp [hl], by simp, hn⟩
        | some cb =>
          refine ⟨[Event.on_success (cb s1.acme res.headers (http.md_json_read_http res).2
            s1.baton s1.world).1], by simp [St.note, hl], ?_, hn⟩
          intro e he
          simp only [List.mem_singleton] at he
          subst he
          simp [is_on_init, is_response, is_post]
      · simp only [hj, not_false_eq_true, if_true]
        exact ⟨[], by simp [hl], by simp, hn⟩
    · simp only [h2, if_false]
      exact ⟨[], by simp [hl], by simp, hn⟩
  · simp only [hrv, ne_eq, not_false_eq_true, if_true]
    refine ⟨[], ?_, ?_, ?_⟩ <;> simp


theorem apr_table_get_set (t : apr_table_t) (key : String) (val : Option String) :
    apr_table_get (apr_table_set t key val) key = val := by
  induction t with
  | nil => simp [apr_table_set, apr_table_get, key_eq]
  | cons e rest ih =>
    unfold apr_table_set
    by_cases h : key_eq e.1 key = true
    · simp [h, apr_table_get]
    · simp only [h]
      unfold apr_table_get at ih ⊢
      simpa [List.find?, h] using ih

theorem md_acme_req_send_shape {W B : Type} (http : Http W) (on_init : md_acme_req_init_cb W B)
    (on_success : Option (md_acme_req_success_cb W B)) (req : md_acme_req_t) (s : St W B) :
    ∃ A C, (md_acme_req_send http on_init on_success req s).2.log = s.log ++ (A ++ C) ∧
      (∀ e ∈ A, ¬ is_on_init e ∧ ¬ is_post e) ∧
      (C = [] ∨ ∃ h0 C', C = Event.on_init h0 none :: C' ∧
        (∀ e ∈ C', ¬ is_on_init e) ∧
        (C' = [] ∨ ∃ u h1 rn T, C' = Event.http_POST u h1 :: Event.http_response rn :: T ∧
          (∀ e ∈ T, ¬ is_post e) ∧
          ∃ r w reqi s3, r.method = "POST" ∧
            (md_acme_req_send http on_init on_success req s).1 =
              (on_response http on_success (http.perform r w).1 reqi s3).1) ∧
        (∀ n, s.acme.nonce = some n → h0 = some n) ∧
        (s.acme.nonce = none → Event.http_response h0 ∈ A) ∧
        (∀ n, (md_acme_req_send http on_init on_success req s).2.acme.nonce = some n →
          Event.http_response (some n) ∈ C')) := by
  unfold md_acme_req_send
  -- the directory
  have h1 : ∃ A1, (if s.acme.new_authz.isNone = true then md_acme_setup http s
        else (APR_SUCCESS, s)).2.log = s.log ++ A1 ∧
      (∀ e ∈ A1, ¬ is_on_init e ∧ ¬ is_post e ∧ ¬ is_response e) ∧
      (if s.acme.new_authz.isNone = true then md_acme_setup http s
        else (APR_SUCCESS, s)).2.acme.nonce = s.acme.nonce := by
    split_ifs
    · refine ⟨[Event.http_GET s.acme.url], (md_acme_setup_log http s).1, ?_,
        (md_acme_setup_log http s).2⟩
      intro e he
      simp only [List.mem_singleton] at he
      subst he
      simp [is_on_init, is_post, is_response]
    · exact ⟨[], by simp, by simp, rfl⟩
  generalize (if s.acme.new_authz.isNone = true then md_acme_setup http s
    else (APR_SUCCESS, s)) = p1 at h1
  obtain ⟨rv1, s1⟩ := p1
  obtain ⟨A1, hl1, hA1, hn1⟩ := h1
  simp only [] at hl1 hn1 ⊢
  by_cases hrv1 : rv1 = APR_SUCCESS
  swap
  · simp only [ne_eq, hrv1, not_false_eq_true, if_true]
    exact ⟨A1, [], by simp [hl1], fun e he => ⟨(hA1 e he).1, (hA1 e he).2.1⟩, Or.inl rfl⟩
  simp only [ne_eq, hrv1, not_true_eq_false, if_false]
  -- the nonce
  have h2 : ∃ A2, (if s1.acme.nonce.isNone = true then md_acme_new_nonce http s1
        else (APR_SUCCESS, s1)).2.log = s1.log ++ A2 ∧
      (∀ e ∈ A2, ¬ is_on_init e ∧ ¬ is_post e) ∧
      (∀ n, s1.acme.nonce = some n → (if s1.acme.nonce.isNone = true then md_acme_new_nonce http s1
        else (APR_SUCCESS, s1)).2.acme.nonce = some n) ∧
      (s1.acme.nonce = none → Event.http_response (if s1.acme.nonce.isNone = true then
        md_acme_new_nonce http s1 else (APR_SUCCESS, s1)).2.acme.nonce ∈ A2) := by
    cases hs1 : s1.acme.nonce with
    | some n => exact ⟨[], by simp, by simp, by simp [hs1], by simp⟩
    | none =>
      obtain ⟨rn, hl, hn⟩ := md_acme_new_nonce_spec http s1
      refine ⟨_, by simpa using hl, ?_, by simp, ?_⟩
      · intro e he
        simp only [List.mem_cons, List.mem_singleton, List.not_mem_nil, or_false] at he
        rcases he with he | he <;> subst he <;> simp [is_on_init, is_post]
      · intro _
        simp only [Option.isNone_none, if_true, hn, hs1]
        cases rn <;> simp
  generalize (if s1.acme.nonce.isNone = true then md_acme_new_nonce http s1
    else (APR_SUCCESS, s1)) = p2 at h2
  obtain ⟨rv2, s2⟩ := p2
  obtain ⟨A2, hl2, hA2, hn2, hr2⟩ := h2
  simp only [] at hl2 hn2 hr2 ⊢
  have hA : ∀ e ∈ A1 ++ A2, ¬ is_on_init e ∧ ¬ is_post e := by
    intro e he
    rcases List.mem_append.1 he with he | he
    · exact ⟨(hA1 e he).1, (hA1 e he).2.1⟩
    · exact hA2 e he
  by_cases hrv2 : rv2 = APR_SUCCESS
  swap
  · simp only [hrv2, not_false_eq_true, if_true]
    exact ⟨A1 ++ A2, [], by simp [hl2, hl1], hA, Or.inl rfl⟩
  simp only [hrv2, not_true_eq_false, if_false, apr_table_get_set, St.note]
  have hc : ∀ n, s.acme.nonce = some n → s2.acme.nonce = some n :=
    fun n hn => hn2 n (hn1.trans hn)
  have hh : s.acme.nonce = none → Event.http_response s2.acme.nonce ∈ A1 ++ A2 :=
    fun hn => List.mem_append.2 (Or.inr (hr2 (hn1.trans hn)))
  generalize on_init { req with prot_hdrs := apr_table_set req.prot_hdrs "nonce" s2.acme.nonce }
    { s2.acme with nonce := none } s2.baton s2.world = oi
  obtain ⟨rvi, reqi, bi, wi⟩ := oi
  simp only []
  by_cases hrvi : rvi = APR_SUCCESS
  swap
  · simp only [hrvi, if_false]
    refine ⟨A1 ++ A2, [Event.on_init s2.acme.nonce none], by simp [hl2, hl1], hA, Or.inr ?_⟩
    exact ⟨_, [], rfl, by simp, Or.inl rfl, hc, hh, by simp⟩
  simp only [hrvi, if_true]
  unfold md_http_POSTd
  generalize hp : http.perform
    { method := "POST", url := reqi.url, ctype := some "application/json",
      body := Option.map http.md_json_writep reqi.req_json } wi = pr
  obtain ⟨res, w⟩ := pr
  simp only [St.note]
  obtain ⟨tail, htl, htc, htn⟩ := on_response_spec http on_success res reqi
    { acme := { s2.acme with nonce := none }, baton := bi, world := w,
      log := s2.log ++ [Event.on_init s2.acme.nonce none] ++
        [Event.http_POST reqi.url (apr_table_get reqi.prot_hdrs "nonce")] ++
        [Event.http_response (res.headers.bind fun x => apr_table_get x "Replay-Nonce")] }
  refine ⟨A1 ++ A2, Event.on_init s2.acme.nonce none ::
    Event.http_POST reqi.url (apr_table_get reqi.prot_hdrs "nonce") ::
    Event.http_response (res.headers.bind fun x => apr_table_get x "Replay-Nonce") :: tail,
    by rw [htl]; simp [hl2, hl1], hA, Or.inr ?_⟩
  refine ⟨_, _, rfl, ?_, Or.inr ⟨_, _, _, _, rfl, ?_, ?_⟩, hc, hh, ?_⟩
  · intro e he
    simp only [List.mem_cons] at he
    rcases he with he | he | he
    · subst he; simp [is_on_init]
    · subst he; simp [is_on_init]
    · exact (htc e he).1
  · exact fun e he => (htc e he).2.2
  · refine ⟨
      { method := "POST", url := reqi.url, ctype := some "application/json",
        body := Option.map http.md_json_writep reqi.req_json },
      wi, reqi,
      { acme := { s2.acme with nonce := none }, baton := bi, world := w,
        log := s2.log ++ [Event.on_init s2.acme.nonce none] ++
          [Event.http_POST reqi.url (apr_table_get reqi.prot_hdrs "nonce")] ++
          [Event.http_response (res.headers.bind fun x => apr_table_get x "Replay-Nonce")] },
      rfl, ?_⟩
    rw [hp]
  · intro n hn
    simp only [] at htn
    rcases htn with h | h
    · rw [h] at hn; simp at hn
    · rw [h] at hn
      simp [hn]


theorem on_response_problem {W B : Type} (http : Http W)
    (on_success : Option (md_acme_req_success_cb W B)) (res : md_http_response_t)
    (req : md_acme_req_t) (s : St W B) (hdrs : apr_table_t) (p : md_json_t) (t : String)
    (hrv : res.rv = APR_SUCCESS) (hst : ¬ (200 ≤ res.status ∧ res.status < 300))
    (hh : res.headers = some hdrs)
    (hct : apr_table_get hdrs "content-type" = some "application/problem+json")
    (hp : (http.md_json_read_http res).2 = some p) (ht : md_json_gets p "type" = some t) :
    (on_response http on_success res req s).1 = problem_status_get t := by
  unfold on_response inspect_problem
  simp [hrv, hst, hh, hct, hp, ht, problem_status_of]

/-! ## Lemmas on the trace of the driver -/

theorem returns_of_append (l1 l2 : List Event) :
    returns_of (l1 ++ l2) = returns_of l1 ++ returns_of l2 := by
  simp [returns_of, List.filterMap_append]

theorem returns_of_note {W B : Type} (s : St W B) (e : Event) :
    returns_of (s.note e).log = returns_of s.log ++ returns_of [e] := by
  simp [St.note, returns_of_append]

theorem put_authz_set_log {W : Type} (set : md_acme_authz_set_t) (s : DSt W) :
    (put_authz_set set s).log = s.log := rfl

theorem on_response_plain_error {W B : Type} (http : Http W)
    (on_success : Option (md_acme_req_success_cb W B)) (res : md_http_response_t)
    (req : md_acme_req_t) (s : St W B)
    (hrv : res.rv = APR_SUCCESS) (hst : ¬ (200 ≤ res.status ∧ res.status < 300))
    (hct : res.headers.bind (apr_table_get · "content-type") ≠ some "application/problem+json") :
    on_response http on_success res req s =
      (APR_EGENERAL, { req with resp_hdrs := res.headers, rv := APR_SUCCESS },
        req_update_nonce { req with resp_hdrs := res.headers } s) := by
  unfold on_response inspect_problem
  simp [hrv, hst, hct, APR_SUCCESS]

/-! ## Lemmas on the account setup -/

theorem ad_acct_validate_cases {W : Type} (ext : Ext W) (pacct : Option md_acme_acct_t)
    (s : DSt W) :
    (ad_acct_validate ext pacct s).2.2.baton = s.baton ∧
    (ad_acct_validate ext pacct s).2.2.acme = s.acme ∧
    ∃ v, v = (ext.md_acme_acct_validate s.acme pacct s.world).1 ∧
      (((v = APR_ENOENT ∨ v = APR_EACCES) ∧ (ad_acct_validate ext pacct s).2.1 = none ∧
          (ad_acct_validate ext pacct s).2.2.log = s.log ++
            [Event.md_acme_acct_validate (pacct.map md_acme_acct_t.id) v,
              Event.md_acme_acct_disable (pacct.map md_acme_acct_t.id)
                (ad_acct_validate ext pacct s).1]) ∨
        (¬ (v = APR_ENOENT ∨ v = APR_EACCES) ∧ (ad_acct_validate ext pacct s).1 = v ∧
          (ad_acct_validate ext pacct s).2.1 = pacct ∧
          (ad_acct_validate ext pacct s).2.2.log = s.log ++
            [Event.md_acme_acct_validate (pacct.map md_acme_acct_t.id) v])) := by
  unfold ad_acct_validate
  simp only [St.note]
  split_ifs with h1 h2
  · exact ⟨rfl, rfl, _, rfl, Or.inl ⟨h2, rfl, by simp⟩⟩
  · exact ⟨rfl, rfl, _, rfl, Or.inr ⟨h2, rfl, rfl, rfl⟩⟩
  · refine ⟨rfl, rfl, _, rfl, Or.inr ⟨?_, rfl, rfl, rfl⟩⟩
    simp only [not_not] at h1
    rw [h1]; decide

theorem ad_acct_validate_frame {W : Type} (ext : Ext W) (pacct : Option md_acme_acct_t)
    (s : DSt W) :
    (ad_acct_validate ext pacct s).2.2.baton = s.baton ∧
    (ad_acct_validate ext pacct s).2.2.acme = s.acme ∧
    ∃ a, (ad_acct_validate ext pacct s).2.2.log = s.log ++ a ∧
      ∀ e ∈ a, is_acct_lookup e = true := by
  obtain ⟨hb, ha, v, -, h | h⟩ := ad_acct_validate_cases ext pacct s
  · exact ⟨hb, ha, _, h.2.2, by simp [is_acct_lookup]⟩
  · exact ⟨hb, ha, _, h.2.2.2, by simp [is_acct_lookup]⟩

theorem ad_set_acct_find_frame {W : Type} (ext : Ext W) :
    ∀ (fuel : Nat) (s : DSt W) (r : apr_status_t × Option md_acme_acct_t × DSt W),
      ad_set_acct_find ext fuel s = some r →
      r.2.2.baton = s.baton ∧ r.2.2.acme = s.acme ∧
      ∃ a, r.2.2.log = s.log ++ a ∧ ∀ e ∈ a, is_acct_lookup e = true := by
  intro fuel
  induction fuel with
  | zero => intro s r h; simp [ad_set_acct_find] at h
  | succ fuel ih =>
    intro s r h
    unfold ad_set_acct_find at h
    simp only [St.note] at h
    split_ifs at h with h1 h2
    · obtain ⟨hb, ha, a, hl, hall⟩ := ih _ _ h
      obtain ⟨hb1, ha1, a1, hl1, hall1⟩ := ad_acct_validate_frame ext
        (ext.md_acme_acct_find s.acme s.world).2.1
        { s with world := (ext.md_acme_acct_find s.acme s.world).2.2,
                 log := s.log ++ [Event.md_acme_acct_find
                   (ext.md_acme_acct_find s.acme s.world).1] }
      refine ⟨hb.trans hb1, ha.trans ha1,
        Event.md_acme_acct_find (ext.md_acme_acct_find s.acme s.world).1 :: (a1 ++ a), ?_, ?_⟩
      · rw [hl, hl1]; simp
      · intro e he
        simp only [List.mem_cons, List.mem_append] at he
        rcases he with he | he | he
        · subst he; rfl
        · exact hall1 e he
        · exact hall e he
    · obtain ⟨hb1, ha1, a1, hl1, hall1⟩ := ad_acct_validate_frame ext
        (ext.md_acme_acct_find s.acme s.world).2.1
        { s with world := (ext.md_acme_acct_find s.acme s.world).2.2,
                 log := s.log ++ [Event.md_acme_acct_find
                   (ext.md_acme_acct_find s.acme s.world).1] }
      simp only [Option.some.injEq] at h
      subst h
      refine ⟨hb1, ha1,
        Event.md_acme_acct_find (ext.md_acme_acct_find s.acme s.world).1 :: a1, ?_, ?_⟩
      · rw [hl1]; simp
      · intro e he
        simp only [List.mem_cons] at he
        rcases he with he | he
        · subst he; rfl
        · exact hall1 e he
    · simp only [Option.some.injEq] at h
      subst h
      exact ⟨rfl, rfl, [_], rfl, by simp [is_acct_lookup]⟩

theorem ad_set_acct_previous_frame {W : Type} (ext : Ext W) (s : DSt W) :
    (ad_set_acct_previous ext s).2.2.baton = s.baton ∧
    (ad_set_acct_previous ext s).2.2.acme = s.acme ∧
    ∃ a, (ad_set_acct_previous ext s).2.2.log = s.log ++ a ∧
      ∀ e ∈ a, is_acct_lookup e = true := by
  unfold ad_set_acct_previous
  split
  · rename_i id hid
    simp only [St.note]
    split_ifs with h1 h2
    · obtain ⟨hb1, ha1, a1, hl1, hall1⟩ := ad_acct_validate_frame ext
        (ext.md_acme_acct_load id s.world).2.1
        { s with world := (ext.md_acme_acct_load id s.world).2.2,
                 log := s.log ++ [Event.md_acme_acct_load id
                   (ext.md_acme_acct_load id s.world).1] }
      refine ⟨hb1, ha1,
        Event.md_acme_acct_load id (ext.md_acme_acct_load id s.world).1 :: a1, ?_, ?_⟩
      · rw [hl1]; simp
      · intro e he
        simp only [List.mem_cons] at he
        rcases he with he | he
        · subst he; rfl
        · exact hall1 e he
    · exact ⟨rfl, rfl, [_], rfl, by simp [is_acct_lookup]⟩
    · exact ⟨rfl, rfl, [_], rfl, by simp [is_acct_lookup]⟩
  · exact ⟨rfl, rfl, [], by simp, by simp⟩

theorem ad_set_acct_search_frame {W : Type} (ext : Ext W) (fuel : Nat) (rv : apr_status_t)
    (acct : Option md_acme_acct_t) (s : DSt W)
    (r : apr_status_t × Option md_acme_acct_t × DSt W)
    (h : ad_set_acct_search ext fuel rv acct s = some r) :
    r.2.2.baton = s.baton ∧ r.2.2.acme = s.acme ∧
    ∃ a, r.2.2.log = s.log ++ a ∧ ∀ e ∈ a, is_acct_lookup e = true := by
  unfold ad_set_acct_search at h
  split_ifs at h with h1
  · split at h
    · rename_i rv1 acct1 s1 hf
      have hfr := ad_set_acct_find_frame ext fuel s _ hf
      split_ifs at h <;>
      · simp only [Option.some.injEq] at h
        subst h
        exact hfr
    · simp at h
  · simp only [Option.some.injEq] at h
    subst h
    exact ⟨rfl, rfl, [], by simp, by simp⟩

theorem ad_set_acct_lookup_frame {W : Type} (ext : Ext W) (fuel : Nat) (s : DSt W)
    (r : apr_status_t × Option md_acme_acct_t × DSt W)
    (h : ad_set_acct_lookup ext fuel s = some r) :
    r.2.2.baton = { s.baton with phase := some "choose account", acct := none } ∧
    r.2.2.acme = s.acme ∧
    ∃ a, r.2.2.log = s.log ++ Event.phase "choose account" :: a ∧
      ∀ e ∈ a, is_acct_lookup e = true := by
  unfold ad_set_acct_lookup at h
  simp only [set_phase, St.note] at h
  obtain ⟨hb, ha, a, hl, hall⟩ := ad_set_acct_search_frame ext fuel _ _ _ r h
  obtain ⟨hb1, ha1, a1, hl1, hall1⟩ := ad_set_acct_previous_frame ext
    { s with baton := { s.baton with phase := some "choose account", acct := none },
             log := s.log ++ [Event.phase "choose account"] }
  refine ⟨hb.trans hb1, ha.trans ha1, a1 ++ a, ?_, ?_⟩
  · rw [hl, hl1]; simp
  · intro e he
    simp only [List.mem_append] at he
    rcases he with he | he
    · exact hall1 e he
    · exact hall e he

theorem ad_set_acct_eq {W : Type} (ext : Ext W) (fuel : Nat) (s : DSt W) :
    ad_set_acct ext fuel s =
      (ad_set_acct_lookup ext fuel s).map (fun r => ad_set_acct_register ext r.1 r.2.1 r.2.2) := by
  unfold ad_set_acct ad_set_acct_lookup
  simp only []
  split <;> simp_all

theorem ad_set_acct_register_spec {W : Type} (ext : Ext W)
    (hreg : ∀ acme c a w, (ext.md_acme_register acme c a w).1 = APR_SUCCESS →
      (ext.md_acme_register acme c a w).2.1.isSome = true)
    (rv1 : apr_status_t) (acct1 : Option md_acme_acct_t) (s1 : DSt W)
    (hacct : s1.baton.acct = none) :
    ∃ b, (ad_set_acct_register ext rv1 acct1 s1).2.log = s1.log ++ b ∧
      (∀ e ∈ b, is_acct_lookup e = false) ∧
      ((ad_set_acct_register ext rv1 acct1 s1).1 = APR_SUCCESS →
        ∃ a, (ad_set_acct_register ext rv1 acct1 s1).2.baton.acct = some a ∧
          (ad_set_acct_register ext rv1 acct1 s1).2.baton.md.ca_account = some a.id ∧
          (Event.md_reg_update s1.baton.md.name md_upd_fields.MD_UPD_CA_ACCOUNT ∈ b ↔
            s1.baton.md.ca_account ≠ some a.id)) ∧
      ((ad_set_acct_register ext rv1 acct1 s1).1 ≠ APR_SUCCESS →
        ((ad_set_acct_register ext rv1 acct1 s1).2.baton.acct = none ↔
          ∀ name fields, Event.md_reg_update name fields ∉ b)) := by
  have hR1 := hreg s1.acme s1.baton.md.contacts s1.baton.md.ca_agreement s1.world
  unfold ad_set_acct_register
  simp only [St.note]
  generalize hR : ext.md_acme_register s1.acme s1.baton.md.contacts s1.baton.md.ca_agreement
    s1.world = R
  rw [hR] at hR1 
  simp only [hR]
  obtain ⟨rv2, acct2, w2⟩ := R
  simp only at hR1 ⊢
  split_ifs with h1 h2 h3 h4 h5 h6
  · exact ⟨[], by simp, by simp, by simp [APR_EINVAL, APR_SUCCESS], by simp [hacct]⟩
  · obtain ⟨a, ha⟩ := Option.isSome_iff_exists.mp (hR1 h3)
    subst ha
    refine ⟨[Event.md_acme_register rv2,
      Event.md_reg_update s1.baton.md.name md_upd_fields.MD_UPD_CA_ACCOUNT], by simp,
      by simp [is_acct_lookup], ?_, ?_⟩
    · intro _
      refine ⟨a, rfl, rfl, ?_⟩
      simp only [Option.map_some'] at h4
      rcases h4 with h4 | h4
      · simp [Option.isNone_iff_eq_none.mp h4]
      · simp [h4]
    · intro _
      simp
  · simp only [not_or, not_not] at h4
    obtain ⟨hn, he⟩ := h4
    rcases acct2 with _ | a
    · simp [he] at hn
    · refine ⟨[Event.md_acme_register rv2], by simp, by simp [is_acct_lookup], ?_, ?_⟩
      · intro _
        exact ⟨a, rfl, he, by simp [he]⟩
      · intro h; exact absurd h3 h
  · exact ⟨[Event.md_acme_register rv2], by simp, by simp [is_acct_lookup],
      fun h => absurd h h3, fun _ => by simp [hacct]⟩
  · simp only at h5
    subst h5
    rcases acct1 with _ | a
    · simp at h2
    · refine ⟨[Event.md_reg_update s1.baton.md.name md_upd_fields.MD_UPD_CA_ACCOUNT], by simp,
        by simp [is_acct_lookup], ?_, ?_⟩
      · intro _
        refine ⟨a, rfl, rfl, ?_⟩
        simp only [Option.map_some'] at h6
        rcases h6 with h6 | h6
        · simp [Option.isNone_iff_eq_none.mp h6]
        · simp [h6]
      · intro _
        simp
  · simp only [not_or, not_not] at h6
    obtain ⟨hn, he⟩ := h6
    rcases acct1 with _ | a
    · simp [he] at hn
    · refine ⟨[], by simp, by simp, ?_, ?_⟩
      · intro _
        exact ⟨a, rfl, he, by simp [he]⟩
      · intro h; exact absurd h5 h
  · exact ⟨[], by simp, by simp, fun h => absurd h h5, fun _ => by simp [hacct]⟩
theorem ad_set_acct_find_succ {W : Type} (ext : Ext W) (fuel : Nat) (s : DSt W) :
    ad_set_acct_find ext (fuel + 1) s =
      if (ext.md_acme_acct_find s.acme s.world).1 = APR_SUCCESS then
        if (ad_acct_validate ext (ext.md_acme_acct_find s.acme s.world).2.1
            { s with world := (ext.md_acme_acct_find s.acme s.world).2.2,
                     log := s.log ++ [Event.md_acme_acct_find
                       (ext.md_acme_acct_find s.acme s.world).1] }).2.1.isNone then
          ad_set_acct_find ext fuel
            (ad_acct_validate ext (ext.md_acme_acct_find s.acme s.world).2.1
              { s with world := (ext.md_acme_acct_find s.acme s.world).2.2,
                       log := s.log ++ [Event.md_acme_acct_find
                         (ext.md_acme_acct_find s.acme s.world).1] }).2.2
        else
          some (ad_acct_validate ext (ext.md_acme_acct_find s.acme s.world).2.1
            { s with world := (ext.md_acme_acct_find s.acme s.world).2.2,
                     log := s.log ++ [Event.md_acme_acct_find
                       (ext.md_acme_acct_find s.acme s.world).1] })
      else
        some ((ext.md_acme_acct_find s.acme s.world).1, (ext.md_acme_acct_find s.acme s.world).2.1,
          { s with world := (ext.md_acme_acct_find s.acme s.world).2.2,
                   log := s.log ++ [Event.md_acme_acct_find
                     (ext.md_acme_acct_find s.acme s.world).1] }) := rfl

theorem ad_set_acct_find_shape {W : Type} (ext : Ext W)
    (hfind : ∀ acme w, (ext.md_acme_acct_find acme w).1 = APR_SUCCESS →
      (ext.md_acme_acct_find acme w).2.1.isSome = true) :
    ∀ (fuel : Nat) (s : DSt W) (r : apr_status_t × Option md_acme_acct_t × DSt W),
      ad_set_acct_find ext fuel s = some r →
      ∃ rounds tail, r.2.2.log = s.log ++ (rounds ++ tail) ∧ disable_called_rounds rounds = true ∧
        ((r.1 ≠ APR_SUCCESS ∧ tail = [Event.md_acme_acct_find r.1]) ∨
          (∃ a, r.2.1 = some a ∧
            tail = [Event.md_acme_acct_find APR_SUCCESS,
              Event.md_acme_acct_validate (some a.id) r.1])) := by
  intro fuel
  induction fuel with
  | zero => intro s r h; simp [ad_set_acct_find] at h
  | succ fuel ih =>
    intro s r h
    have hF := hfind s.acme s.world
    rw [ad_set_acct_find_succ] at h
    generalize ext.md_acme_acct_find s.acme s.world = fr at h hF
    obtain ⟨rv0, acct0, w0⟩ := fr
    simp only at h hF
    split_ifs at h with h1 h2
    · subst h1
      obtain ⟨a0, ha0⟩ := Option.isSome_iff_exists.mp (hF rfl)
      subst ha0
      obtain ⟨rounds, tail, hl, hr, ht⟩ := ih _ _ h
      obtain ⟨-, -, v, -, hc | hc⟩ := ad_acct_validate_cases ext (some a0)
        { s with world := w0, log := s.log ++ [Event.md_acme_acct_find APR_SUCCESS] }
      · obtain ⟨hv, -, hlog⟩ := hc
        refine ⟨Event.md_acme_acct_find APR_SUCCESS ::
          Event.md_acme_acct_validate (some a0.id) v ::
          Event.md_acme_acct_disable (some a0.id)
            (ad_acct_validate ext (some a0)
              { s with world := w0, log := s.log ++ [Event.md_acme_acct_find APR_SUCCESS] }).1 ::
          rounds, tail, ?_, ?_, ht⟩
        · rw [hl, hlog]; simp
        · simp only [disable_called_rounds, hr]
          rcases hv with hv | hv <;> simp [hv]
      · obtain ⟨-, -, hacct, -⟩ := hc
        rw [hacct] at h2
        simp at h2
    · subst h1
      obtain ⟨a0, ha0⟩ := Option.isSome_iff_exists.mp (hF rfl)
      subst ha0
      obtain ⟨-, -, v, -, hc | hc⟩ := ad_acct_validate_cases ext (some a0)
        { s with world := w0, log := s.log ++ [Event.md_acme_acct_find APR_SUCCESS] }
      · obtain ⟨-, hacct, -⟩ := hc
        rw [hacct] at h2
        simp at h2
      · obtain ⟨-, hrv, hacct, hlog⟩ := hc
        simp only [Option.some.injEq] at h
        subst h
        refine ⟨[], _, ?_, rfl, Or.inr ⟨a0, hacct, rfl⟩⟩
        rw [hlog, hrv]
        simp
    · simp only [Option.some.injEq] at h
      subst h
      exact ⟨[], _, by simp, rfl, Or.inl ⟨h1, rfl⟩⟩

theorem ad_set_acct_previous_eq {W : Type} (ext : Ext W) (s : DSt W) (id : String)
    (hid : s.baton.md.ca_account = some id) :
    ad_set_acct_previous ext s =
      if (ext.md_acme_acct_load id s.world).1 = APR_SUCCESS then
        ad_acct_validate ext (ext.md_acme_acct_load id s.world).2.1
          { s with world := (ext.md_acme_acct_load id s.world).2.2,
                   log := s.log ++ [Event.md_acme_acct_load id
                     (ext.md_acme_acct_load id s.world).1] }
      else if (ext.md_acme_acct_load id s.world).1 = APR_ENOENT then
        (APR_SUCCESS, (ext.md_acme_acct_load id s.world).2.1,
          { s with world := (ext.md_acme_acct_load id s.world).2.2,
                   log := s.log ++ [Event.md_acme_acct_load id
                     (ext.md_acme_acct_load id s.world).1] })
      else
        ((ext.md_acme_acct_load id s.world).1, (ext.md_acme_acct_load id s.world).2.1,
          { s with world := (ext.md_acme_acct_load id s.world).2.2,
                   log := s.log ++ [Event.md_acme_acct_load id
                     (ext.md_acme_acct_load id s.world).1] }) := by
  unfold ad_set_acct_previous
  rw [hid]
  rfl

theorem ad_set_acct_previous_shape {W : Type} (ext : Ext W)
    (hload : ∀ id w, (ext.md_acme_acct_load id w).1 = APR_SUCCESS →
      (ext.md_acme_acct_load id w).2.1.isSome = true)
    (s : DSt W) (h1 : (ad_set_acct_previous ext s).1 = APR_SUCCESS)
    (h2 : (ad_set_acct_previous ext s).2.1 = none) :
    ∃ pre, (ad_set_acct_previous ext s).2.2.log = s.log ++ pre ∧
      ((s.baton.md.ca_account = none ∧ pre = []) ∨
        ∃ id, s.baton.md.ca_account = some id ∧
          (pre = [Event.md_acme_acct_load id APR_ENOENT] ∨
            ∃ x v, (v = APR_ENOENT ∨ v = APR_EACCES) ∧
              pre = [Event.md_acme_acct_load id APR_SUCCESS,
                Event.md_acme_acct_validate (some x) v,
                Event.md_acme_acct_disable (some x) APR_SUCCESS])) := by
  rcases hid : s.baton.md.ca_account with _ | id
  · refine ⟨[], ?_, Or.inl ⟨rfl, rfl⟩⟩
    unfold ad_set_acct_previous
    rw [hid]
    simp
  · have hL := hload id s.world
    rw [ad_set_acct_previous_eq ext s id hid] at h1 h2 ⊢
    generalize ext.md_acme_acct_load id s.world = lr at h1 h2 hL ⊢
    obtain ⟨rv0, acct0, w0⟩ := lr
    simp only at h1 h2 hL ⊢
    split_ifs at h1 h2 ⊢ with h3 h4
    · subst h3
      obtain ⟨a0, ha0⟩ := Option.isSome_iff_exists.mp (hL rfl)
      subst ha0
      obtain ⟨-, -, v, -, hc | hc⟩ := ad_acct_validate_cases ext (some a0)
        { s with world := w0, log := s.log ++ [Event.md_acme_acct_load id APR_SUCCESS] }
      · obtain ⟨hv, -, hlog⟩ := hc
        rw [h1] at hlog
        refine ⟨_, ?_, Or.inr ⟨id, rfl, Or.inr ⟨a0.id, v, hv, rfl⟩⟩⟩
        rw [hlog]; simp
      · obtain ⟨-, -, hacct, -⟩ := hc
        rw [hacct] at h2
        simp at h2
    · subst h4
      exact ⟨_, rfl, Or.inr ⟨id, rfl, Or.inl rfl⟩⟩
    · exact absurd h1 h3

theorem ad_set_acct_lookup_shape {W : Type} (ext : Ext W)
    (hload : ∀ id w, (ext.md_acme_acct_load id w).1 = APR_SUCCESS →
      (ext.md_acme_acct_load id w).2.1.isSome = true)
    (hfind : ∀ acme w, (ext.md_acme_acct_find acme w).1 = APR_SUCCESS →
      (ext.md_acme_acct_find acme w).2.1.isSome = true)
    (fuel : Nat) (s s2 : DSt W)
    (h : ad_set_acct_lookup ext fuel s = some (APR_SUCCESS, none, s2)) :
    ∃ pre rounds, s2.log = s.log ++ Event.phase "choose account" ::
        (pre ++ rounds ++ [Event.md_acme_acct_find APR_ENOENT]) ∧
      disable_called_rounds rounds = true ∧
      ((s.baton.md.ca_account = none ∧ pre = []) ∨
        ∃ id, s.baton.md.ca_account = some id ∧
          (pre = [Event.md_acme_acct_load id APR_ENOENT] ∨
            ∃ x v, (v = APR_ENOENT ∨ v = APR_EACCES) ∧
              pre = [Event.md_acme_acct_load id APR_SUCCESS,
                Event.md_acme_acct_validate (some x) v,
                Event.md_acme_acct_disable (some x) APR_SUCCESS])) := by
  unfold ad_set_acct_lookup at h
  simp only [set_phase, St.note] at h
  unfold ad_set_acct_search at h
  split_ifs at h with h1
  · obtain ⟨hp1, hp2⟩ := h1
    obtain ⟨pre, hpre, hshape⟩ := ad_set_acct_previous_shape ext hload _ hp1
      (Option.isNone_iff_eq_none.mp hp2)
    split at h
    · rename_i rv1 acct1 s1 hf
      obtain ⟨rounds, tail, hl, hr, ht⟩ := ad_set_acct_find_shape ext hfind fuel _ _ hf
      simp only at hl ht
      split_ifs at h with h3
      · simp only [Option.some.injEq, Prod.mk.injEq] at h
        obtain ⟨-, hacct, hs⟩ := h
        subst hs
        subst hacct
        rcases ht with ⟨-, htail⟩ | ⟨a, ha, -⟩
        · refine ⟨pre, rounds, ?_, hr, hshape⟩
          rw [hl, hpre, htail, h3.2]
          simp
        · simp at ha
      · simp only [Option.some.injEq, Prod.mk.injEq] at h
        obtain ⟨hrv, hacct, -⟩ := h
        subst hrv hacct
        rcases ht with ⟨hne, -⟩ | ⟨a, ha, -⟩
        · exact absurd rfl hne
        · simp at ha
    · simp at h
  · simp only [Option.some.injEq, Prod.mk.injEq] at h
    exact absurd ⟨h.1, by rw [h.2.1]; rfl⟩ h1

theorem ad_set_acct_register_log {W : Type} (ext : Ext W) (rv1 : apr_status_t)
    (acct1 : Option md_acme_acct_t) (s1 : DSt W) (r : apr_status_t)
    (h : Event.md_acme_register r ∈
      (ad_set_acct_register ext rv1 acct1 s1).2.log.drop s1.log.length) :
    rv1 = APR_SUCCESS ∧ acct1 = none ∧
      ∃ tail, (ad_set_acct_register ext rv1 acct1 s1).2.log =
        s1.log ++ Event.md_acme_register r :: tail := by
  unfold ad_set_acct_register at h ⊢
  simp only [St.note] at h ⊢
  split_ifs at h ⊢ with h1 h2 h3 h4 h5 h6
  · simp at h
  · simp at h
    subst h
    exact ⟨h2.1, Option.isNone_iff_eq_none.mp h2.2,
      [Event.md_reg_update s1.baton.md.name md_upd_fields.MD_UPD_CA_ACCOUNT], by simp⟩
  · simp at h
    subst h
    exact ⟨h2.1, Option.isNone_iff_eq_none.mp h2.2, [], by simp⟩
  · simp at h
    subst h
    exact ⟨h2.1, Option.isNone_iff_eq_none.mp h2.2, [], by simp⟩
  · simp at h
  · simp at h
  · simp at h

theorem ad_set_acct_register_appends {W : Type} (ext : Ext W) (rv1 : apr_status_t)
    (acct1 : Option md_acme_acct_t) (s1 : DSt W) :
    ∃ b, (ad_set_acct_register ext rv1 acct1 s1).2.log = s1.log ++ b := by
  unfold ad_set_acct_register
  simp only [St.note]
  split_ifs
  · exact ⟨[], (List.append_nil _).symm⟩
  · exact ⟨_, List.append_assoc _ _ _⟩
  · exact ⟨_, rfl⟩
  · exact ⟨_, rfl⟩
  · exact ⟨_, rfl⟩
  · exact ⟨[], (List.append_nil _).symm⟩
  · exact ⟨[], (List.append_nil _).symm⟩

theorem ad_set_acct_register_found {W : Type} (ext : Ext W) (a : md_acme_acct_t)
    (s1 : DSt W) :
    (ad_set_acct_register ext APR_SUCCESS (some a) s1).2.baton.acct = some a ∧
    ∃ b, (ad_set_acct_register ext APR_SUCCESS (some a) s1).2.log = s1.log ++ b ∧
      ∀ e ∈ b, ∀ r, e ≠ Event.md_acme_acct_find r ∧ e ≠ Event.md_acme_register r := by
  unfold ad_set_acct_register
  simp only [St.note]
  split_ifs with h1 h2 h3 h4 h5 h6
  · simp at h1
  · simp at h2
  · simp at h2
  · simp at h2
  · exact ⟨rfl, _, rfl, by simp⟩
  · exact ⟨rfl, [], (List.append_nil _).symm, by simp⟩
  · simp at h5

theorem ad_setup_authz_check_log {W : Type} (ext : Ext W) (domain : String) (s : DSt W) :
    ((ad_setup_authz_check ext domain s).1 = APR_SUCCESS ∧
      (ad_setup_authz_check ext domain s).2.1 = none ∧
      (ad_setup_authz_check ext domain s).2.2.1 = false ∧
      (ad_setup_authz_check ext domain s).2.2.2.log =
        s.log ++ [Event.md_acme_authz_set_get domain false]) ∨
    ((ad_setup_authz_check ext domain s).1 = APR_SUCCESS ∧
      (ad_setup_authz_check ext domain s).2.1.isSome = true ∧
      (ad_setup_authz_check ext domain s).2.2.1 = false ∧
      (ad_setup_authz_check ext domain s).2.2.2.log =
        s.log ++ [Event.md_acme_authz_set_get domain true,
          Event.md_acme_authz_update domain APR_SUCCESS]) ∨
    ((ad_setup_authz_check ext domain s).1 ≠ APR_SUCCESS ∧
      (ad_setup_authz_check ext domain s).2.1 = none ∧
      (ad_setup_authz_check ext domain s).2.2.1 = true ∧
      (ad_setup_authz_check ext domain s).2.2.2.log =
        s.log ++ [Event.md_acme_authz_set_get domain true,
          Event.md_acme_authz_update domain (ad_setup_authz_check ext domain s).1,
          Event.md_acme_authz_set_remove domain]) := by
  unfold ad_setup_authz_check
  simp only [St.note, put_authz_set]
  split
  · rename_i i authz hf
    split_ifs with h
    · right; right
      refine ⟨h, rfl, rfl, ?_⟩
      rw [hf]
      simp
    · right; left
      simp only [not_not] at h
      refine ⟨h, rfl, rfl, ?_⟩
      rw [hf, h]
      simp
  · rename_i hf
    left
    refine ⟨rfl, rfl, rfl, ?_⟩
    rw [hf]
    simp

theorem ad_setup_authz_create_log {W : Type} (ext : Ext W) (domain : String) (changed : Bool)
    (s : DSt W) :
    ((ad_setup_authz_create ext domain changed s).1 ≠ APR_SUCCESS ∧
      (ad_setup_authz_create ext domain changed s).2.1 = changed ∧
      (ad_setup_authz_create ext domain changed s).2.2.log =
        s.log ++ [Event.md_acme_authz_register domain]) ∨
    (∃ o, (ad_setup_authz_create ext domain changed s).2.1 = true ∧
      (ad_setup_authz_create ext domain changed s).2.2.log =
        s.log ++ [Event.md_acme_authz_register domain, Event.md_acme_authz_set_add o]) := by
  unfold ad_setup_authz_create
  simp only [St.note, put_authz_set]
  split_ifs with h
  · right
    exact ⟨_, rfl, List.append_assoc _ _ _⟩
  · left
    exact ⟨h, rfl, rfl⟩

theorem ad_setup_authz_domain_eq {W : Type} (ext : Ext W) (domain : String) (s : DSt W) :
    ad_setup_authz_domain ext domain s =
      if (ad_setup_authz_before_save ext domain s).1 = APR_SUCCESS ∧
          (ad_setup_authz_before_save ext domain s).2.1 = true then
        ((ext.md_acme_authz_set_save s.baton.md.name
            (the_authz_set (ad_setup_authz_before_save ext domain s).2.2) false
            (ad_setup_authz_before_save ext domain s).2.2.world).1,
          { (ad_setup_authz_before_save ext domain s).2.2 with
            world := (ext.md_acme_authz_set_save s.baton.md.name
              (the_authz_set (ad_setup_authz_before_save ext domain s).2.2) false
              (ad_setup_authz_before_save ext domain s).2.2.world).2
            log := (ad_setup_authz_before_save ext domain s).2.2.log ++
              [Event.md_acme_authz_set_save s.baton.md.name] })
      else
        ((ad_setup_authz_before_save ext domain s).1,
          (ad_setup_authz_before_save ext domain s).2.2) := rfl

/-- The calls of a round before a registration: the set has no entry for the
domain, or the update of its entry failed and the entry was removed. -/
theorem ad_setup_authz_before_save_log {W : Type} (ext : Ext W) (domain : String) (s : DSt W) :
    ((ad_setup_authz_before_save ext domain s).1 = APR_SUCCESS ∧
      (ad_setup_authz_before_save ext domain s).2.1 = false ∧
      (ad_setup_authz_before_save ext domain s).2.2.log =
        s.log ++ [Event.md_acme_authz_set_get domain true,
          Event.md_acme_authz_update domain APR_SUCCESS]) ∨
    ∃ J, (J = [Event.md_acme_authz_set_get domain false] ∨
        ∃ rv0, rv0 ≠ APR_SUCCESS ∧
          J = [Event.md_acme_authz_set_get domain true, Event.md_acme_authz_update domain rv0,
            Event.md_acme_authz_set_remove domain]) ∧
      (((ad_setup_authz_before_save ext domain s).1 ≠ APR_SUCCESS ∧
          (ad_setup_authz_before_save ext domain s).2.2.log =
            s.log ++ (J ++ [Event.md_acme_authz_register domain])) ∨
        ∃ o, (ad_setup_authz_before_save ext domain s).2.1 = true ∧
          (ad_setup_authz_before_save ext domain s).2.2.log =
            s.log ++ (J ++ [Event.md_acme_authz_register domain,
              Event.md_acme_authz_set_add o])) := by
  unfold ad_setup_authz_before_save
  simp only []
  rcases ad_setup_authz_check_log ext domain s with ⟨h1, h2, h3, h4⟩ | ⟨h1, h2, h3, h4⟩ |
    ⟨h1, h2, h3, h4⟩
  · right
    refine ⟨_, Or.inl rfl, ?_⟩
    rw [h2]
    simp only [Option.isNone_none, if_true]
    rcases ad_setup_authz_create_log ext domain (ad_setup_authz_check ext domain s).2.2.1
      (ad_setup_authz_check ext domain s).2.2.2 with ⟨k1, -, k3⟩ | ⟨o, k2, k3⟩
    · left
      refine ⟨k1, ?_⟩
      rw [k3, h4]; simp
    · right
      refine ⟨o, k2, ?_⟩
      rw [k3, h4]; simp
  · left
    obtain ⟨z, hz⟩ := Option.isSome_iff_exists.mp h2
    rw [hz]
    simp only [Option.isNone_some, Bool.false_eq_true, if_false]
    exact ⟨h1, h3, h4⟩
  · right
    refine ⟨_, Or.inr ⟨_, h1, rfl⟩, ?_⟩
    rw [h2]
    simp only [Option.isNone_none, if_true]
    rcases ad_setup_authz_create_log ext domain (ad_setup_authz_check ext domain s).2.2.1
      (ad_setup_authz_check ext domain s).2.2.2 with ⟨k1, -, k3⟩ | ⟨o, k2, k3⟩
    · left
      refine ⟨k1, ?_⟩
      rw [k3, h4]; simp
    · right
      refine ⟨o, k2, ?_⟩
      rw [k3, h4]; simp

theorem changes_saved_append (a b : List Event) (ha : changes_saved a = true)
    (hb : changes_saved b = true) : changes_saved (a ++ b) = true := by
  induction a with
  | nil => simpa using hb
  | cons e rest ih =>
    simp only [changes_saved, Bool.and_eq_true, Bool.or_eq_true, List.cons_append,
      List.any_append] at ha ⊢
    refine ⟨?_, ih ha.2⟩
    rcases ha.1 with h | h
    · exact Or.inl h
    · right
      show (rest ++ b).any is_set_save = true
      simp only [List.any_append, h, Bool.true_or]

theorem changes_saved_spec (l : List Event) (h : changes_saved l = true) :
    ∀ pre e post, l = pre ++ e :: post → is_set_change e = true →
      ∃ x ∈ post, is_set_save x = true := by
  induction l with
  | nil => intro pre e post hl; simp at hl
  | cons x rest ih =>
    intro pre e post hl he
    simp only [changes_saved, Bool.and_eq_true, Bool.or_eq_true] at h
    rcases pre with _ | ⟨p, pre⟩
    · simp only [List.nil_append, List.cons.injEq] at hl
      obtain ⟨hx, hr⟩ := hl
      subst hx hr
      rcases h.1 with h1 | h1
      · simp [he] at h1
      · simpa using h1
    · simp only [List.cons_append, List.cons.injEq] at hl
      exact ih h.2 pre e post hl.2 he

theorem registers_allowed_append (a b before : List Event)
    (ha : registers_allowed before a = true) (hb : registers_allowed (before ++ a) b = true) :
    registers_allowed before (a ++ b) = true := by
  induction a generalizing before with
  | nil => simpa using hb
  | cons e rest ih =>
    simp only [registers_allowed, Bool.and_eq_true, List.cons_append] at ha ⊢
    refine ⟨ha.1, ih _ ha.2 ?_⟩
    simpa using hb

theorem registers_allowed_spec (l before : List Event) (h : registers_allowed before l = true) :
    ∀ pre d post, l = pre ++ Event.md_acme_authz_register d :: post →
      allows_register d (before ++ pre) = true := by
  induction l generalizing before with
  | nil => intro pre d post hl; simp at hl
  | cons x rest ih =>
    intro pre d post hl
    simp only [registers_allowed, Bool.and_eq_true] at h
    rcases pre with _ | ⟨p, pre⟩
    · simp only [List.nil_append, List.cons.injEq] at hl
      obtain ⟨hx, -⟩ := hl
      subst hx
      simpa using h.1
    · simp only [List.cons_append, List.cons.injEq] at hl
      obtain ⟨hx, hr⟩ := hl
      subst hx
      have := ih _ h.2 pre d post hr
      simpa using this

theorem allows_register_spec (d : String) (x : List Event) (h : allows_register d x = true) :
    (∃ p, x = p ++ [Event.md_acme_authz_set_get d false]) ∨
    ∃ p rv0, rv0 ≠ APR_SUCCESS ∧
      x = p ++ [Event.md_acme_authz_set_get d true, Event.md_acme_authz_update d rv0,
        Event.md_acme_authz_set_remove d] := by
  unfold allows_register at h
  split at h
  · rename_i d1 rest hr
    simp only [decide_eq_true_eq] at h
    subst h
    left
    refine ⟨rest.reverse, ?_⟩
    have := congrArg List.reverse hr
    simpa using this
  · rename_i d1 d2 rv d3 rest hr
    simp only [Bool.and_eq_true, decide_eq_true_eq] at h
    obtain ⟨⟨⟨h1, h2⟩, h3⟩, h4⟩ := h
    subst h1 h2 h3
    right
    refine ⟨rest.reverse, rv, h4, ?_⟩
    have := congrArg List.reverse hr
    simpa using this
  · simp at h

theorem ad_setup_authz_domain_log {W : Type} (ext : Ext W) (domain : String) (s : DSt W) :
    ∃ a, (ad_setup_authz_domain ext domain s).2.log = s.log ++ a ∧
      ((ad_setup_authz_domain ext domain s).1 = APR_SUCCESS → changes_saved a = true) ∧
      ∀ before, registers_allowed before a = true := by
  rw [ad_setup_authz_domain_eq]
  rcases ad_setup_authz_before_save_log ext domain s with ⟨h1, h2, h3⟩ |
    ⟨J, hJ, ⟨h1, h3⟩ | ⟨o, h2, h3⟩⟩
  · rw [if_neg (by rw [h2]; simp)]
    refine ⟨_, h3, fun _ => by simp [changes_saved, is_set_change], fun before => ?_⟩
    simp [registers_allowed]
  · rw [if_neg (fun h => h1 h.1)]
    refine ⟨_, h3, fun h => absurd h h1, fun before => ?_⟩
    rcases hJ with hJ | ⟨rv0, hrv0, hJ⟩
    · subst hJ; simp [registers_allowed, allows_register]
    · subst hJ; simp [registers_allowed, allows_register, hrv0]
  · split_ifs with h
    · refine ⟨J ++ [Event.md_acme_authz_register domain, Event.md_acme_authz_set_add o,
        Event.md_acme_authz_set_save s.baton.md.name], ?_, fun _ => ?_, fun before => ?_⟩
      · simp only []
        rw [h3]; simp
      · rcases hJ with hJ | ⟨rv0, hrv0, hJ⟩ <;> subst hJ <;>
          simp [changes_saved, is_set_change, is_set_save]
      · rcases hJ with hJ | ⟨rv0, hrv0, hJ⟩
        · subst hJ; simp [registers_allowed, allows_register]
        · subst hJ; simp [registers_allowed, allows_register, hrv0]
    · refine ⟨_, h3, fun hs => absurd ⟨hs, h2⟩ h, fun before => ?_⟩
      rcases hJ with hJ | ⟨rv0, hrv0, hJ⟩
      · subst hJ; simp [registers_allowed, allows_register]
      · subst hJ; simp [registers_allowed, allows_register, hrv0]

theorem ad_setup_authz_loop_cons {W : Type} (ext : Ext W) (d : String) (rest : List String)
    (rv : apr_status_t) (s : DSt W) :
    ad_setup_authz_loop ext (d :: rest) rv s =
      if rv = APR_SUCCESS then
        ad_setup_authz_loop ext rest (ad_setup_authz_domain ext d s).1
          (ad_setup_authz_domain ext d s).2
      else (rv, s) := rfl

theorem ad_setup_authz_loop_stops {W : Type} (ext : Ext W) (domains : List String)
    (rv : apr_status_t) (s : DSt W) (h : rv ≠ APR_SUCCESS) :
    ad_setup_authz_loop ext domains rv s = (rv, s) := by
  cases domains with
  | nil => rfl
  | cons d rest => rw [ad_setup_authz_loop_cons, if_neg h]

theorem ad_setup_authz_loop_log {W : Type} (ext : Ext W) :
    ∀ (domains : List String) (rv : apr_status_t) (s : DSt W),
      ∃ a, (ad_setup_authz_loop ext domains rv s).2.log = s.log ++ a ∧
        ((ad_setup_authz_loop ext domains rv s).1 = APR_SUCCESS → changes_saved a = true) ∧
        ∀ before, registers_allowed before a = true := by
  intro domains
  induction domains with
  | nil =>
    intro rv s
    exact ⟨[], by simp [ad_setup_authz_loop], fun _ => rfl, fun _ => rfl⟩
  | cons d rest ih =>
    intro rv s
    rw [ad_setup_authz_loop_cons]
    split_ifs with h
    · obtain ⟨a1, hl1, hs1, hr1⟩ := ad_setup_authz_domain_log ext d s
      obtain ⟨a2, hl2, hs2, hr2⟩ := ih (ad_setup_authz_domain ext d s).1
        (ad_setup_authz_domain ext d s).2
      refine ⟨a1 ++ a2, ?_, ?_, ?_⟩
      · rw [hl2, hl1]; simp
      · intro hs
        refine changes_saved_append _ _ (hs1 ?_) (hs2 hs)
        by_contra hne
        rw [ad_setup_authz_loop_stops ext rest _ _ hne] at hs
        exact hne hs
      · intro before
        exact registers_allowed_append _ _ _ (hr1 before) (hr2 _)
    · exact ⟨[], by simp, fun hs => absurd hs h, fun _ => rfl⟩

theorem c_assert_log {W B : Type} (cond : Bool) (what : String) (s : St W B) :
    (c_assert cond what s).log = s.log ++ (if cond then [] else [Event.assert_failed what]) := by
  unfold c_assert
  cases cond <;> simp [St.note]

theorem ad_setup_authz_eq {W : Type} (ext : Ext W) (s : DSt W) :
    ad_setup_authz ext s =
      ad_setup_authz_loop ext s.baton.md.domains (ad_setup_authz_load ext s).1
        (ad_setup_authz_load ext s).2 := rfl

theorem ad_setup_authz_load_log {W : Type} (ext : Ext W) (s : DSt W) :
    (ad_setup_authz_load ext s).2.log =
      s.log ++ ((if s.baton.acct.isSome then [] else [Event.assert_failed "ad->acct"]) ++
        [Event.phase "check authz", Event.md_acme_authz_set_load s.baton.md.name]) := by
  unfold ad_setup_authz_load
  simp only []
  split_ifs with h1 h2 h2 <;> simp [St.note, put_authz_set, set_phase, c_assert_log, h2]

theorem ad_setup_authz_log {W : Type} (ext : Ext W) (s : DSt W) :
    ∃ a, (ad_setup_authz ext s).2.log =
        s.log ++ ((if s.baton.acct.isSome then [] else [Event.assert_failed "ad->acct"]) ++
          Event.phase "check authz" :: Event.md_acme_authz_set_load s.baton.md.name :: a) ∧
      ((ad_setup_authz ext s).1 = APR_SUCCESS → changes_saved a = true) ∧
      ∀ before, registers_allowed before a = true := by
  rw [ad_setup_authz_eq]
  obtain ⟨a, hl, hs, hr⟩ := ad_setup_authz_loop_log ext s.baton.md.domains
    (ad_setup_authz_load ext s).1 (ad_setup_authz_load ext s).2
  refine ⟨a, ?_, hs, hr⟩
  rw [hl, ad_setup_authz_load_log]
  simp

theorem has_domain_set (l : List md_acme_authz_t) (i : Nat) (z z1 : md_acme_authz_t)
    (hz : l[i]? = some z) (hd : z1.domain = z.domain) (x : String)
    (h : ∃ y ∈ l, y.domain = x) : ∃ y ∈ l.set i z1, y.domain = x := by
  obtain ⟨y, hy, hyx⟩ := h
  obtain ⟨j, hj⟩ := List.mem_iff_getElem?.mp hy
  have hi : i < l.length := (List.getElem?_eq_some.mp hz).1
  by_cases hij : i = j
  · subst hij
    rw [hz] at hj
    simp only [Option.some.injEq] at hj
    subst hj
    exact ⟨z1, List.mem_iff_getElem?.mpr ⟨i, List.getElem?_set_self hi⟩, hd.trans hyx⟩
  · exact ⟨y, List.mem_iff_getElem?.mpr ⟨j, by rw [List.getElem?_set_ne hij]; exact hj⟩, hyx⟩

theorem the_authz_set_put {W : Type} (set : md_acme_authz_set_t) (s : DSt W) :
    the_authz_set (put_authz_set set s) = set := rfl

theorem ad_setup_authz_check_covers {W : Type} (ext : Ext W)
    (hget : ∀ set d i, ext.md_acme_authz_set_get set d = some i →
      ∃ z, set.authzs[i]? = some z ∧ z.domain = d)
    (hremove : ∀ set d, ∀ z ∈ set.authzs, z.domain ≠ d →
      ∃ y ∈ (ext.md_acme_authz_set_remove set d).authzs, y.domain = z.domain)
    (hupdate : ∀ z acme acct w, (ext.md_acme_authz_update z acme acct w).2.1.domain = z.domain)
    (domain : String) (s : DSt W) :
    (∀ x, (∃ z ∈ (the_authz_set s).authzs, z.domain = x) →
      (x ≠ domain ∨ (ad_setup_authz_check ext domain s).2.1.isSome = true) →
      ∃ z ∈ (the_authz_set (ad_setup_authz_check ext domain s).2.2.2).authzs, z.domain = x) ∧
    ((ad_setup_authz_check ext domain s).2.1.isSome = true →
      ∃ z ∈ (the_authz_set (ad_setup_authz_check ext domain s).2.2.2).authzs,
        z.domain = domain) := by
  unfold ad_setup_authz_check
  simp only [St.note]
  split
  · rename_i i z hf
    obtain ⟨i0, hi0, hz⟩ : ∃ i0, ext.md_acme_authz_set_get (the_authz_set s) domain = some i0 ∧
        (the_authz_set s).authzs[i]? = some z := by
      rcases hg : ext.md_acme_authz_set_get (the_authz_set s) domain with _ | i0
      · rw [hg] at hf; simp at hf
      · rw [hg] at hf
        simp only [Option.some_bind, Option.map_eq_some', Prod.mk.injEq] at hf
        obtain ⟨a, ha, hia, haz⟩ := hf
        subst hia haz
        exact ⟨i0, rfl, by simpa using ha⟩
    have hi : i0 = i := by
      rw [hi0] at hf
      simp only [Option.some_bind, Option.map_eq_some', Prod.mk.injEq] at hf
      obtain ⟨a, -, hia, -⟩ := hf
      exact hia
    subst hi
    obtain ⟨z0, hz0, hzd⟩ := hget _ _ _ hi0
    rw [hz] at hz0
    simp only [Option.some.injEq] at hz0
    subst hz0
    have hU := hupdate z s.acme s.baton.acct s.world
    split_ifs with h
    · refine ⟨?_, fun hs => (Bool.false_ne_true hs).elim⟩
      intro x hx hor
      rcases hor with hne | hs
      · obtain ⟨y, hy, hyx⟩ := has_domain_set _ i0 z _ hz (hU) x hx
        obtain ⟨y1, hy1, hy1d⟩ := hremove
          { account_id := (the_authz_set s).account_id,
            authzs := (the_authz_set s).authzs.set i0
              (ext.md_acme_authz_update z s.acme s.baton.acct s.world).2.1 }
          domain y hy (by rw [hyx]; exact hne)
        exact ⟨y1, hy1, hy1d.trans hyx⟩
      · exact (Bool.false_ne_true hs).elim
    · refine ⟨fun x hx _ => has_domain_set _ i0 z _ hz hU x hx, fun _ => ?_⟩
      exact has_domain_set _ i0 z _ hz hU domain ⟨z, List.mem_iff_getElem?.mpr ⟨i0, hz⟩, hzd⟩
  · refine ⟨fun x hx _ => hx, fun hs => (Bool.false_ne_true hs).elim⟩

theorem ad_setup_authz_create_covers {W : Type} (ext : Ext W)
    (hadd : ∀ set z, (ext.md_acme_authz_set_add set (some z)).1 = APR_SUCCESS →
      z ∈ (ext.md_acme_authz_set_add set (some z)).2.authzs ∧
      ∀ x ∈ set.authzs, x ∈ (ext.md_acme_authz_set_add set (some z)).2.authzs)
    (hregister : ∀ acme d acct w, (ext.md_acme_authz_register acme d acct w).1 = APR_SUCCESS →
      ∃ z, (ext.md_acme_authz_register acme d acct w).2.1 = some z ∧ z.domain = d)
    (domain : String) (changed : Bool) (s : DSt W)
    (h : (ad_setup_authz_create ext domain changed s).1 = APR_SUCCESS) :
    (∃ z ∈ (the_authz_set (ad_setup_authz_create ext domain changed s).2.2).authzs,
      z.domain = domain) ∧
    ∀ x ∈ (the_authz_set s).authzs,
      x ∈ (the_authz_set (ad_setup_authz_create ext domain changed s).2.2).authzs := by
  have hR := hregister s.acme domain s.baton.acct s.world
  unfold ad_setup_authz_create at h ⊢
  simp only [St.note] at h ⊢
  generalize hreg : ext.md_acme_authz_register s.acme domain s.baton.acct s.world = R at hR
  simp only [hreg] at h ⊢
  obtain ⟨rv, z, w⟩ := R
  simp only at hR h ⊢
  split_ifs at h ⊢ with h1
  · obtain ⟨z0, hz0, hzd⟩ := hR h1
    subst hz0
    simp only at h
    obtain ⟨hin, hall⟩ := hadd _ z0 h
    exact ⟨⟨z0, hin, hzd⟩, hall⟩
  · exact absurd h h1

theorem ad_setup_authz_before_save_covers {W : Type} (ext : Ext W)
    (hget : ∀ set d i, ext.md_acme_authz_set_get set d = some i →
      ∃ z, set.authzs[i]? = some z ∧ z.domain = d)
    (hremove : ∀ set d, ∀ z ∈ set.authzs, z.domain ≠ d →
      ∃ y ∈ (ext.md_acme_authz_set_remove set d).authzs, y.domain = z.domain)
    (hadd : ∀ set z, (ext.md_acme_authz_set_add set (some z)).1 = APR_SUCCESS →
      z ∈ (ext.md_acme_authz_set_add set (some z)).2.authzs ∧
      ∀ x ∈ set.authzs, x ∈ (ext.md_acme_authz_set_add set (some z)).2.authzs)
    (hupdate : ∀ z acme acct w, (ext.md_acme_authz_update z acme acct w).2.1.domain = z.domain)
    (hregister : ∀ acme d acct w, (ext.md_acme_authz_register acme d acct w).1 = APR_SUCCESS →
      ∃ z, (ext.md_acme_authz_register acme d acct w).2.1 = some z ∧ z.domain = d)
    (domain : String) (s : DSt W)
    (h : (ad_setup_authz_before_save ext domain s).1 = APR_SUCCESS) :
    ∀ x, (x = domain ∨ ∃ z ∈ (the_authz_set s).authzs, z.domain = x) →
      ∃ z ∈ (the_authz_set (ad_setup_authz_before_save ext domain s).2.2).authzs,
        z.domain = x := by
  obtain ⟨hc1, hc2⟩ := ad_setup_authz_check_covers ext hget hremove hupdate domain s
  unfold ad_setup_authz_before_save at h ⊢
  simp only [] at h ⊢
  split_ifs at h ⊢ with hn
  · obtain ⟨hk1, hk2⟩ := ad_setup_authz_create_covers ext hadd hregister domain _ _ h
    intro x hx
    by_cases hxd : x = domain
    · subst hxd; exact hk1
    · rcases hx with hx | hx
      · exact absurd hx hxd
      · obtain ⟨z, hz, hzx⟩ := hc1 x hx (Or.inl hxd)
        exact ⟨z, hk2 z hz, hzx⟩
  · have hs : (ad_setup_authz_check ext domain s).2.1.isSome = true := by
      cases hh : (ad_setup_authz_check ext domain s).2.1 with
      | none => rw [hh] at hn; simp at hn
      | some v => rfl
    intro x hx
    rcases hx with hx | hx
    · subst hx; exact hc2 hs
    · exact hc1 x hx (Or.inr hs)

theorem ad_setup_authz_domain_covers {W : Type} (ext : Ext W)
    (hget : ∀ set d i, ext.md_acme_authz_set_get set d = some i →
      ∃ z, set.authzs[i]? = some z ∧ z.domain = d)
    (hremove : ∀ set d, ∀ z ∈ set.authzs, z.domain ≠ d →
      ∃ y ∈ (ext.md_acme_authz_set_remove set d).authzs, y.domain = z.domain)
    (hadd : ∀ set z, (ext.md_acme_authz_set_add set (some z)).1 = APR_SUCCESS →
      z ∈ (ext.md_acme_authz_set_add set (some z)).2.authzs ∧
      ∀ x ∈ set.authzs, x ∈ (ext.md_acme_authz_set_add set (some z)).2.authzs)
    (hupdate : ∀ z acme acct w, (ext.md_acme_authz_update z acme acct w).2.1.domain = z.domain)
    (hregister : ∀ acme d acct w, (ext.md_acme_authz_register acme d acct w).1 = APR_SUCCESS →
      ∃ z, (ext.md_acme_authz_register acme d acct w).2.1 = some z ∧ z.domain = d)
    (domain : String) (s : DSt W)
    (h : (ad_setup_authz_domain ext domain s).1 = APR_SUCCESS) :
    ∀ x, (x = domain ∨ ∃ z ∈ (the_authz_set s).authzs, z.domain = x) →
      ∃ z ∈ (the_authz_set (ad_setup_authz_domain ext domain s).2).authzs, z.domain = x := by
  rw [ad_setup_authz_domain_eq] at h ⊢
  split_ifs at h ⊢ with hc
  · exact ad_setup_authz_before_save_covers ext hget hremove hadd hupdate hregister domain s hc.1
  · exact ad_setup_authz_before_save_covers ext hget hremove hadd hupdate hregister domain s h

theorem ad_setup_authz_loop_covers {W : Type} (ext : Ext W)
    (hget : ∀ set d i, ext.md_acme_authz_set_get set d = some i →
      ∃ z, set.authzs[i]? = some z ∧ z.domain = d)
    (hremove : ∀ set d, ∀ z ∈ set.authzs, z.domain ≠ d →
      ∃ y ∈ (ext.md_acme_authz_set_remove set d).authzs, y.domain = z.domain)
    (hadd : ∀ set z, (ext.md_acme_authz_set_add set (some z)).1 = APR_SUCCESS →
      z ∈ (ext.md_acme_authz_set_add set (some z)).2.authzs ∧
      ∀ x ∈ set.authzs, x ∈ (ext.md_acme_authz_set_add set (some z)).2.authzs)
    (hupdate : ∀ z acme acct w, (ext.md_acme_authz_update z acme acct w).2.1.domain = z.domain)
    (hregister : ∀ acme d acct w, (ext.md_acme_authz_register acme d acct w).1 = APR_SUCCESS →
      ∃ z, (ext.md_acme_authz_register acme d acct w).2.1 = some z ∧ z.domain = d) :
    ∀ (domains : List String) (rv : apr_status_t) (s : DSt W),
      rv = APR_SUCCESS → (ad_setup_authz_loop ext domains rv s).1 = APR_SUCCESS →
      ∀ x, (x ∈ domains ∨ ∃ z ∈ (the_authz_set s).authzs, z.domain = x) →
        ∃ z ∈ (the_authz_set (ad_setup_authz_loop ext domains rv s).2).authzs,
          z.domain = x := by
  intro domains
  induction domains with
  | nil =>
    intro rv s _ _ x hx
    rcases hx with hx | hx
    · simp at hx
    · exact hx
  | cons d rest ih =>
    intro rv s hrv h x hx
    rw [ad_setup_authz_loop_cons, if_pos hrv] at h ⊢
    have hround : (ad_setup_authz_domain ext d s).1 = APR_SUCCESS := by
      by_contra hne
      rw [ad_setup_authz_loop_stops ext rest _ _ hne] at h
      exact hne h
    have hcov := ad_setup_authz_domain_covers ext hget hremove hadd hupdate hregister d s hround
    refine ih _ _ hround h x ?_
    rcases hx with hx | hx
    · rcases List.mem_cons.mp hx with hx | hx
      · exact Or.inr (hcov x (Or.inl hx))
      · exact Or.inl hx
    · exact Or.inr (hcov x (Or.inr hx))

theorem ad_setup_authz_load_status {W : Type} (ext : Ext W) (s : DSt W) :
    (ad_setup_authz_load ext s).1 =
      if (ext.md_acme_authz_set_load s.baton.md.name s.world).1 = APR_ENOENT then APR_SUCCESS
      else (ext.md_acme_authz_set_load s.baton.md.name s.world).1 := by
  have hw : (set_phase "check authz" (c_assert s.baton.acct.isSome "ad->acct" s)).world
      = s.world := by
    unfold c_assert set_phase
    split_ifs <;> rfl
  unfold ad_setup_authz_load
  simp only [hw]
  split_ifs <;> rfl

theorem mock_set_get_sound (l : List md_acme_authz_t) (d : String) :
    ∀ i, mock_set_get l d = some i → ∃ z, l[i]? = some z ∧ z.domain = d := by
  induction l with
  | nil => intro i h; simp [mock_set_get] at h
  | cons a rest ih =>
    intro i h
    unfold mock_set_get at h
    split_ifs at h with hd
    · simp only [Option.some.injEq] at h
      subst h
      exact ⟨a, by simp, hd⟩
    · simp only [Option.map_eq_some'] at h
      obtain ⟨j, hj, hi⟩ := h
      subst hi
      obtain ⟨z, hz, hzd⟩ := ih j hj
      exact ⟨z, by simpa using hz, hzd⟩

theorem first_not_valid_success (l : List md_acme_authz_state_t) :
    first_not_valid l = APR_SUCCESS ↔
      ∀ x ∈ l, x = md_acme_authz_state_t.MD_ACME_AUTHZ_S_VALID := by
  induction l with
  | nil => simp [first_not_valid]
  | cons x rest ih =>
    cases x
    · simp [first_not_valid, APR_EINVAL, APR_SUCCESS]
    · simp [first_not_valid, APR_EAGAIN, APR_SUCCESS]
    · simp [first_not_valid, ih]
    · simp [first_not_valid, APR_EINVAL, APR_SUCCESS]

theorem first_not_valid_split (pre post : List md_acme_authz_state_t)
    (x : md_acme_authz_state_t)
    (hpre : ∀ y ∈ pre, y = md_acme_authz_state_t.MD_ACME_AUTHZ_S_VALID)
    (hx : x ≠ md_acme_authz_state_t.MD_ACME_AUTHZ_S_VALID) :
    first_not_valid (pre ++ x :: post) =
      if x = md_acme_authz_state_t.MD_ACME_AUTHZ_S_PENDING then APR_EAGAIN else APR_EINVAL := by
  induction pre with
  | nil => cases x <;> simp [first_not_valid] at hx ⊢
  | cons y rest ih =>
    have hy := hpre y (by simp)
    subst hy
    simp only [List.cons_append, first_not_valid]
    exact ih (fun z hz => hpre z (by simp [hz]))

theorem check_challenges_loop_stops {W : Type} (ext : Ext W) (l done : List md_acme_authz_t)
    (rv : apr_status_t) (s : DSt W) (h : rv ≠ APR_SUCCESS) :
    (check_challenges_loop ext l done rv s).1 = rv := by
  cases l with
  | nil => rfl
  | cons z rest =>
    unfold check_challenges_loop
    rw [if_neg h]

theorem check_challenges_loop_status {W : Type} (ext : Ext W) :
    ∀ (l done : List md_acme_authz_t) (s : DSt W),
      (∀ z ∈ l, ∀ acme acct w, (ext.md_acme_authz_update z acme acct w).1 = APR_SUCCESS ∧
        (ext.md_acme_authz_update z acme acct w).2.1.state = z.state) →
      (check_challenges_loop ext l done APR_SUCCESS s).1 =
        first_not_valid (l.map md_acme_authz_t.state) := by
  intro l
  induction l with
  | nil => intro done s _; rfl
  | cons z rest ih =>
    intro done s hupd
    obtain ⟨h1, h2⟩ := hupd z (by simp) s.acme s.baton.acct s.world
    have hrest : ∀ y ∈ rest, ∀ acme acct w,
        (ext.md_acme_authz_update y acme acct w).1 = APR_SUCCESS ∧
        (ext.md_acme_authz_update y acme acct w).2.1.state = y.state :=
      fun y hy => hupd y (by simp [hy])
    unfold check_challenges_loop
    simp only [St.note, if_true]
    generalize hu : ext.md_acme_authz_update z s.acme s.baton.acct s.world = U at h1 h2
    simp only [hu]
    obtain ⟨rv, z1, w⟩ := U
    simp only at h1 h2 ⊢
    subst h1
    simp only [if_true, List.map_cons]
    rw [← h2]
    cases hst : z1.state
    · simp only [first_not_valid]
      exact check_challenges_loop_stops ext _ _ _ _ (by decide)
    · simp only [first_not_valid]
      exact check_challenges_loop_stops ext _ _ _ _ (by decide)
    · simp only [first_not_valid]
      exact ih _ _ hrest
    · simp only [first_not_valid]
      exact check_challenges_loop_stops ext _ _ _ _ (by decide)

theorem order_check_challenges_loop_stops {W : Type}
    (retrieve : md_acme_t → String → W → apr_status_t × md_acme_authz_t × W)
    (ctx : md_acme_order.order_ctx_t) (l : List String) (rv : apr_status_t) (w : W)
    (h : rv ≠ APR_SUCCESS) :
    (md_acme_order.check_challenges_loop retrieve ctx l rv w).1 = rv := by
  cases l with
  | nil => rfl
  | cons z rest =>
    unfold md_acme_order.check_challenges_loop
    rw [if_neg h]

theorem order_check_challenges_loop_status {W : Type}
    (retrieve : md_acme_t → String → W → apr_status_t × md_acme_authz_t × W)
    (st : String → md_acme_authz_state_t)
    (ctx : md_acme_order.order_ctx_t) :
    ∀ (l : List String) (w : W),
      (∀ url ∈ l, ∀ acme w, (retrieve acme url w).1 = APR_SUCCESS ∧
        (retrieve acme url w).2.1.state = st url) →
      (md_acme_order.check_challenges_loop retrieve ctx l APR_SUCCESS w).1 =
        first_not_valid (l.map st) := by
  intro l
  induction l with
  | nil => intro w _; rfl
  | cons url rest ih =>
    intro w hret
    obtain ⟨h1, h2⟩ := hret url (by simp) ctx.acme w
    have hrest : ∀ y ∈ rest, ∀ acme w, (retrieve acme y w).1 = APR_SUCCESS ∧
        (retrieve acme y w).2.1.state = st y :=
      fun y hy => hret y (by simp [hy])
    unfold md_acme_order.check_challenges_loop
    simp only [if_true]
    generalize hu : retrieve ctx.acme url w = U at h1 h2
    obtain ⟨rv, z1, w1⟩ := U
    simp only at h1 h2 ⊢
    subst h1
    simp only [if_true, List.map_cons]
    rw [← h2]
    cases hst : z1.state
    · simp only [first_not_valid]
      exact order_check_challenges_loop_stops retrieve ctx _ _ _ (by decide)
    · simp only [first_not_valid]
      exact order_check_challenges_loop_stops retrieve ctx _ _ _ (by decide)
    · simp only [first_not_valid]
      exact ih _ hrest
    · simp only [first_not_valid]
      exact order_check_challenges_loop_stops retrieve ctx _ _ _ (by decide)

/-! ## Lemmas on the fields of the driver that the polling changes -/

theorem on_got_cert_baton {W : Type} (ext : Ext W) (res : md_http_response_t) (s : DSt W) :
    ∃ c, (on_got_cert ext res s).2.baton = { s.baton with cert := c } := by
  unfold on_got_cert
  simp only []
  split_ifs <;> exact ⟨_, rfl⟩

theorem md_acme_GET_baton {W : Type} (ext : Ext W) (url : Option String)
    (on_res : md_http_response_t → DSt W → apr_status_t × DSt W)
    (hres : ∀ res s, ∃ c, (on_res res s).2.baton = { s.baton with cert := c }) (s : DSt W) :
    ∃ c, (md_acme_GET ext url on_res s).2.baton = { s.baton with cert := c } := by
  unfold md_acme_GET
  simp only [St.note]
  split
  · exact ⟨s.baton.cert, rfl⟩
  · rename_i res _
    obtain ⟨c, hc⟩ := hres res
      { s with world := (ext.acme_answer "GET" url s.world).2,
               log := s.log ++ [Event.md_acme_GET url] }
    exact ⟨c, hc⟩

theorem get_cert_baton {W : Type} (ext : Ext W) (i : Nat) (s : DSt W) :
    ∃ c, (get_cert ext i s).2.baton = { s.baton with cert := c } := by
  unfold get_cert
  exact md_acme_GET_baton ext _ _ (on_got_cert_baton ext) s

theorem md_util_try_loop_baton {W : Type} (fn : Nat → DSt W → apr_status_t × DSt W)
    (hfn : ∀ i s, ∃ c, (fn i s).2.baton = { s.baton with cert := c }) (ignore_errs : Bool) :
    ∀ (left i : Nat) (s : DSt W),
      ∃ c, (md_util_try_loop fn ignore_errs left i s).2.baton = { s.baton with cert := c } := by
  intro left
  induction left with
  | zero =>
    intro i s
    unfold md_util_try_loop
    simp only []
    split_ifs <;> exact hfn i s
  | succ left ih =>
    intro i s
    unfold md_util_try_loop
    simp only []
    split_ifs
    · exact hfn i s
    · exact hfn i s
    · obtain ⟨c1, h1⟩ := hfn i s
      obtain ⟨c2, h2⟩ := ih (i + 1) (fn i s).2
      exact ⟨c2, by rw [h2, h1]⟩

theorem ad_cert_poll_baton {W : Type} (ext : Ext W) (only_once : Bool) (s : DSt W) :
    ∃ c, (ad_cert_poll ext only_once s).2.baton =
      { s.baton with phase := some "poll certificate", cert := c } := by
  have hb : (set_phase "poll certificate"
      (c_assert s.baton.md.cert_url.isSome "ad->md->cert_url" s)).baton =
      { s.baton with phase := some "poll certificate" } := by
    unfold c_assert set_phase
    split_ifs <;> rfl
  unfold ad_cert_poll
  simp only []
  split_ifs
  · obtain ⟨c, hc⟩ := get_cert_baton ext 0 (set_phase "poll certificate"
      (c_assert s.baton.md.cert_url.isSome "ad->md->cert_url" s))
    exact ⟨c, by rw [hc, hb]⟩
  · obtain ⟨c, hc⟩ := md_util_try_loop_baton (get_cert ext) (get_cert_baton ext) true
      (ext.retries_within (set_phase "poll certificate"
        (c_assert s.baton.md.cert_url.isSome "ad->md->cert_url" s)).baton.cert_poll_timeout
        (set_phase "poll certificate"
          (c_assert s.baton.md.cert_url.isSome "ad->md->cert_url" s)).world) 0
      (set_phase "poll certificate" (c_assert s.baton.md.cert_url.isSome "ad->md->cert_url" s))
    exact ⟨c, by unfold md_util_try; rw [hc, hb]⟩

theorem and_then_failed {W : Type} (p : Phase) (f : DSt W → apr_status_t × DSt W)
    (r : apr_status_t × DSt W) (h : r.1 ≠ APR_SUCCESS) : and_then p f r = r := by
  unfold and_then
  rw [if_neg h]

theorem acme_drive_cert_order_failed {W : Type} (ext : Ext W) (r : apr_status_t × DSt W)
    (h : r.1 ≠ APR_SUCCESS) : acme_drive_cert_order ext r = r := by
  unfold acme_drive_cert_order
  simp only [and_then_failed _ _ r h]

theorem acme_drive_cert_eq {W : Type} (ext : Ext W) (fuel : Nat) (s : DSt W)
    (h : s.baton.cert = none) :
    acme_drive_cert ext fuel s =
      (ad_set_acct ext fuel (set_phase "get certificate" s)).map (fun r =>
        acme_drive_cert_order ext (poll_known_cert ext
          (and_then Phase.md_acme_acct_check_agreement (check_agreement ext)
            (r.1, r.2.note (Event.returned Phase.ad_set_acct r.1))))) := by
  unfold acme_drive_cert
  simp only [h, Option.isSome_none, Bool.false_eq_true, if_false]
  split <;> simp_all [acme_drive_cert_order]

/-! ## Lemmas on the JSON form of an order -/

theorem json_strings_map (l : List String) : json_strings (l.map md_json_t.str) = l := by
  induction l with
  | nil => rfl
  | cons a rest ih => simp [json_strings, ih]

/-! ## Lemmas on the lists of an order -/

theorem md_array_str_index_neg (l : List String) (s : String) :
    md_array_str_index l s 0 true < 0 ↔ s ∉ l := by
  unfold md_array_str_index
  simp only [List.drop_zero, if_true]
  cases h : List.findIdx? (fun p => p == s) l with
  | none =>
    simp only [Int.reduceNeg, Int.reduceLT, true_iff]
    rw [List.findIdx?_eq_none_iff] at h
    intro hs
    have := h s hs
    simp at this
  | some i =>
    have hnn : ¬ (((0 + i : Nat) : Int) < 0) := by omega
    simp only [hnn, false_iff, not_not]
    by_contra hs
    have hnone : List.findIdx? (fun p => p == s) l = none := by
      rw [List.findIdx?_eq_none_iff]
      intro x hx
      by_contra hxs
      simp only [Bool.not_eq_false, beq_iff_eq] at hxs
      subst hxs
      exact hs hx
    rw [hnone] at h
    cases h

theorem md_array_str_remove_absent (l : List String) (s : String) (h : s ∉ l) :
    md_array_str_remove l s true = l := by
  unfold md_array_str_remove
  rw [List.filter_eq_self]
  intro a ha
  simp only [if_true, Bool.not_eq_true', beq_eq_false_iff_ne, ne_eq]
  intro hs
  subst hs
  exact h ha

theorem md_array_str_remove_eq (l : List String) (s : String) :
    md_array_str_remove l s true = l.filter (fun p => p ≠ s) := by
  unfold md_array_str_remove
  congr 1
  funext p
  by_cases h : p = s <;> simp [h]

theorem order_apply_op_nodup (o : md_acme_order.md_acme_order_t) (op : md_acme_order.order_op)
    (h1 : o.authz_urls.Nodup) (h2 : o.challenge_dirs.Nodup) :
    (md_acme_order.apply_op o op).authz_urls.Nodup ∧
    (md_acme_order.apply_op o op).challenge_dirs.Nodup := by
  cases op with
  | add url =>
    simp only [md_acme_order.apply_op, md_acme_order.md_acme_order_add]
    split_ifs with h
    · rw [md_array_str_index_neg] at h
      refine ⟨?_, h2⟩
      simp only []
      exact List.Nodup.append h1 (List.nodup_singleton _) (by simpa using h)
    · exact ⟨h1, h2⟩
  | remove url =>
    simp only [md_acme_order.apply_op, md_acme_order.md_acme_order_remove]
    split_ifs with h
    · refine ⟨?_, h2⟩
      simp only [md_array_str_remove]
      exact List.Nodup.filter _ h1
    · exact ⟨h1, h2⟩
  | add_challenge_dir dir =>
    cases dir with
    | none => exact ⟨h1, h2⟩
    | some d =>
      simp only [md_acme_order.apply_op, md_acme_order.md_acme_order_add_challenge_dir]
      split_ifs with h
      · rw [md_array_str_index_neg] at h
        refine ⟨h1, ?_⟩
        simp only []
        exact List.Nodup.append h2 (List.nodup_singleton _) (by simpa using h)
      · exact ⟨h1, h2⟩

theorem order_apply_ops_nodup (ops : List md_acme_order.order_op) :
    ∀ o : md_acme_order.md_acme_order_t, o.authz_urls.Nodup → o.challenge_dirs.Nodup →
      (ops.foldl md_acme_order.apply_op o).authz_urls.Nodup ∧
      (ops.foldl md_acme_order.apply_op o).challenge_dirs.Nodup := by
  induction ops with
  | nil => intro o h1 h2; exact ⟨h1, h2⟩
  | cons op rest ih =>
    intro o h1 h2
    obtain ⟨k1, k2⟩ := order_apply_op_nodup o op h1 h2
    exact ih _ k1 k2

/-! ## Lemmas on the purge of an order -/

theorem p_purge_loop_log {W : Type} (x : md_acme_order.OrderExt W) :
    ∀ (dirs : List String) (s : md_acme_order.OSt W),
      (md_acme_order.p_purge_loop x dirs s).log =
        s.log ++ dirs.map (md_acme_order.Call.md_store_purge md_store_group_t.MD_SG_CHALLENGES) := by
  intro dirs
  induction dirs with
  | nil => intro s; simp [md_acme_order.p_purge_loop]
  | cons d rest ih =>
    intro s
    unfold md_acme_order.p_purge_loop
    simp only [md_acme_order.OSt.note]
    rw [ih]
    simp

theorem ad_setup_certificate_eq {W : Type} (ext : Ext W) (s : DSt W) :
    ad_setup_certificate ext s =
      if (ad_setup_certificate_submit ext s).1 = APR_SUCCESS then
        if (ad_setup_certificate_submit ext s).2.baton.cert.isNone then
          ad_cert_poll ext false (ad_setup_certificate_submit ext s).2
        else ((ad_setup_certificate_submit ext s).1, (ad_setup_certificate_submit ext s).2)
      else ((ad_setup_certificate_submit ext s).1, (ad_setup_certificate_submit ext s).2) := rfl

theorem ad_set_acct_register_phase {W : Type} (ext : Ext W) (rv : apr_status_t)
    (acct : Option md_acme_acct_t) (s : DSt W) :
    (ad_set_acct_register ext rv acct s).2.baton.phase = s.baton.phase := by
  unfold ad_set_acct_register
  simp only [St.note]
  split_ifs <;> rfl

theorem ad_set_acct_phase {W : Type} (ext : Ext W) (fuel : Nat) (s : DSt W)
    (r : apr_status_t × DSt W) (h : ad_set_acct ext fuel s = some r) :
    r.2.baton.phase = some "choose account" := by
  rw [ad_set_acct_eq] at h
  rcases hl : ad_set_acct_lookup ext fuel s with _ | r0
  · rw [hl] at h; simp at h
  · rw [hl] at h
    simp only [Option.map_some', Option.some.injEq] at h
    obtain ⟨hb, -, -⟩ := ad_set_acct_lookup_frame ext fuel s r0 hl
    rw [← h, ad_set_acct_register_phase, hb]

theorem check_agreement_phase {W : Type} (ext : Ext W) (s : DSt W) :
    (check_agreement ext s).2.baton.phase = some "check agreement" := by
  unfold check_agreement set_phase
  rfl

theorem ad_cert_poll_phase {W : Type} (ext : Ext W) (only_once : Bool) (s : DSt W) :
    (ad_cert_poll ext only_once s).2.baton.phase = some "poll certificate" := by
  obtain ⟨c, hc⟩ := ad_cert_poll_baton ext only_once s
  rw [hc]

theorem ad_setup_authz_check_phase {W : Type} (ext : Ext W) (domain : String) (s : DSt W) :
    (ad_setup_authz_check ext domain s).2.2.2.baton.phase = s.baton.phase := by
  unfold ad_setup_authz_check
  simp only [St.note, put_authz_set]
  split
  · split_ifs <;> rfl
  · rfl

theorem ad_setup_authz_create_phase {W : Type} (ext : Ext W) (domain : String)
    (changed : Bool) (s : DSt W) :
    (ad_setup_authz_create ext domain changed s).2.2.baton.phase = s.baton.phase := by
  unfold ad_setup_authz_create
  simp only [St.note, put_authz_set]
  split_ifs <;> rfl

theorem ad_setup_authz_domain_phase {W : Type} (ext : Ext W) (domain : String) (s : DSt W) :
    (ad_setup_authz_domain ext domain s).2.baton.phase = s.baton.phase := by
  have hb : (ad_setup_authz_before_save ext domain s).2.2.baton.phase = s.baton.phase := by
    unfold ad_setup_authz_before_save
    simp only []
    split_ifs
    · rw [ad_setup_authz_create_phase, ad_setup_authz_check_phase]
    · exact ad_setup_authz_check_phase ext domain s
  rw [ad_setup_authz_domain_eq]
  split_ifs
  · exact hb
  · exact hb

theorem ad_setup_authz_loop_phase {W : Type} (ext : Ext W) :
    ∀ (domains : List String) (rv : apr_status_t) (s : DSt W),
      (ad_setup_authz_loop ext domains rv s).2.baton.phase = s.baton.phase := by
  intro domains
  induction domains with
  | nil => intro rv s; rfl
  | cons d rest ih =>
    intro rv s
    rw [ad_setup_authz_loop_cons]
    split_ifs
    · rw [ih, ad_setup_authz_domain_phase]
    · rfl

theorem ad_setup_authz_phase {W : Type} (ext : Ext W) (s : DSt W) :
    (ad_setup_authz ext s).2.baton.phase = some "check authz" := by
  rw [ad_setup_authz_eq, ad_setup_authz_loop_phase]
  unfold ad_setup_authz_load
  simp only [St.note, put_authz_set, set_phase]
  split_ifs <;> rfl

theorem ad_start_challenges_loop_baton {W : Type} (ext : Ext W) :
    ∀ (l done : List md_acme_authz_t) (rv : apr_status_t) (s : DSt W),
      (ad_start_challenges_loop ext l done rv s).2.2.baton = s.baton := by
  intro l
  induction l with
  | nil => intro done rv s; rfl
  | cons z rest ih =>
    intro done rv s
    unfold ad_start_challenges_loop
    simp only [St.note]
    split_ifs
    · rw [ih]
      split <;> rfl
    · rw [ih]
    · rfl

theorem ad_start_challenges_phase {W : Type} (ext : Ext W) (s : DSt W) :
    (ad_start_challenges ext s).2.baton.phase = some "start challenges" := by
  unfold ad_start_challenges
  simp only [ad_start_challenges_loop_baton]
  rfl

theorem check_challenges_loop_baton {W : Type} (ext : Ext W) :
    ∀ (l done : List md_acme_authz_t) (rv : apr_status_t) (s : DSt W),
      (check_challenges_loop ext l done rv s).2.2.baton = s.baton := by
  intro l
  induction l with
  | nil => intro done rv s; rfl
  | cons z rest ih =>
    intro done rv s
    unfold check_challenges_loop
    simp only [St.note]
    split_ifs
    · rw [ih]
    · rw [ih]
    · rfl

theorem check_challenges_phase {W : Type} (ext : Ext W) (i : Nat) (s : DSt W) :
    (check_challenges ext i s).2.baton.phase = s.baton.phase := by
  unfold check_challenges
  simp only [check_challenges_loop_baton]

theorem md_util_try_loop_phase {W : Type} (fn : Nat → DSt W → apr_status_t × DSt W)
    (hfn : ∀ i s, (fn i s).2.baton.phase = s.baton.phase) (ignore_errs : Bool) :
    ∀ (left i : Nat) (s : DSt W),
      (md_util_try_loop fn ignore_errs left i s).2.baton.phase = s.baton.phase := by
  intro left
  induction left with
  | zero =>
    intro i s
    unfold md_util_try_loop
    simp only []
    split_ifs <;> exact hfn i s
  | succ left ih =>
    intro i s
    unfold md_util_try_loop
    simp only []
    split_ifs
    · exact hfn i s
    · exact hfn i s
    · rw [ih, hfn]

theorem ad_monitor_challenges_phase {W : Type} (ext : Ext W) (s : DSt W) :
    (ad_monitor_challenges ext s).2.baton.phase = some "monitor challenges" := by
  unfold ad_monitor_challenges md_util_try
  simp only []
  rw [md_util_try_loop_phase _ (check_challenges_phase ext)]
  rfl

theorem csr_req_phase {W : Type} (ext : Ext W) (res : md_http_response_t) (s : DSt W) :
    (csr_req ext res s).2.baton.phase = s.baton.phase := by
  unfold csr_req
  simp only [St.note]
  split_ifs <;> rfl

theorem md_acme_POST_phase {W : Type} (ext : Ext W) (url : Option String)
    (on_init : md_acme_req_t → DSt W → apr_status_t × md_acme_req_t)
    (on_res : md_http_response_t → DSt W → apr_status_t × DSt W)
    (hres : ∀ res s, (on_res res s).2.baton.phase = s.baton.phase) (s : DSt W) :
    (md_acme_POST ext url on_init on_res s).2.baton.phase = s.baton.phase := by
  unfold md_acme_POST
  simp only [St.note]
  split_ifs
  · rfl
  · split
    · rfl
    · rw [hres]

theorem ad_setup_cert_pkey_phase {W : Type} (ext : Ext W) (s : DSt W) :
    (ad_setup_cert_pkey ext s).2.2.baton.phase = s.baton.phase := by
  unfold ad_setup_cert_pkey
  simp only [St.note]
  split_ifs <;> rfl

theorem ad_setup_certificate_phase {W : Type} (ext : Ext W) (s : DSt W) :
    ∃ n ∈ phase_names Phase.ad_setup_certificate,
      (ad_setup_certificate ext s).2.baton.phase = some n := by
  have hsub : ∃ n ∈ ["setup cert pkey", "setup csr", "submit csr"],
      (ad_setup_certificate_submit ext s).2.baton.phase = some n := by
    unfold ad_setup_certificate_submit
    simp only []
    split_ifs with h1 h2
    · refine ⟨"submit csr", by simp, ?_⟩
      unfold ad_submit_csr
      rw [md_acme_POST_phase _ _ _ _ (csr_req_phase ext)]
      rfl
    · refine ⟨"setup csr", by simp, ?_⟩
      unfold ad_setup_csr
      rfl
    · refine ⟨"setup cert pkey", by simp, ?_⟩
      rw [ad_setup_cert_pkey_phase]
      rfl
  rw [ad_setup_certificate_eq]
  split_ifs
  · exact ⟨"poll certificate", by simp [phase_names], ad_cert_poll_phase ext false _⟩
  · obtain ⟨n, hn, hp⟩ := hsub
    exact ⟨n, by simp only [phase_names]; simp at hn ⊢; tauto, hp⟩
  · obtain ⟨n, hn, hp⟩ := hsub
    exact ⟨n, by simp only [phase_names]; simp at hn ⊢; tauto, hp⟩

theorem and_then_phase {W : Type} (p : Phase) (f : DSt W → apr_status_t × DSt W)
    (r : apr_status_t × DSt W) (hr : phase_of_last_call r)
    (hf : ∀ s, ∃ n ∈ phase_names p, (f s).2.baton.phase = some n) :
    phase_of_last_call (and_then p f r) := by
  unfold and_then
  split_ifs
  · obtain ⟨n, hn, hp⟩ := hf r.2
    exact ⟨p, by simp [St.note], n, hn, hp⟩
  · exact hr

theorem poll_known_cert_phase {W : Type} (ext : Ext W) (r : apr_status_t × DSt W)
    (hr : phase_of_last_call r) : phase_of_last_call (poll_known_cert ext r) := by
  unfold poll_known_cert
  simp only [St.note]
  split_ifs
  · exact ⟨Phase.md_reg_update_cert_url, by simp, "poll certificate",
      by simp [phase_names], ad_cert_poll_phase ext true r.2⟩
  · exact ⟨Phase.ad_cert_poll_once, by simp, "poll certificate",
      by simp [phase_names], ad_cert_poll_phase ext true r.2⟩
  · exact hr

theorem acme_drive_cert_phase {W : Type} (ext : Ext W) (fuel : Nat) (s : DSt W)
    (r : apr_status_t × DSt W) (hc : s.baton.cert = none)
    (h : acme_drive_cert ext fuel s = some r) : phase_of_last_call r := by
  rw [acme_drive_cert_eq ext fuel s hc] at h
  rcases ha : ad_set_acct ext fuel (set_phase "get certificate" s) with _ | r0
  · rw [ha] at h; simp at h
  · rw [ha] at h
    simp only [Option.map_some', Option.some.injEq] at h
    have h0 : phase_of_last_call (r0.1, r0.2.note (Event.returned Phase.ad_set_acct r0.1)) :=
      ⟨Phase.ad_set_acct, by simp [St.note], "choose account", by simp [phase_names],
        ad_set_acct_phase ext fuel _ r0 ha⟩
    have h1 := and_then_phase Phase.md_acme_acct_check_agreement (check_agreement ext) _ h0
      (fun s => ⟨"check agreement", by simp [phase_names], check_agreement_phase ext s⟩)
    have h2 := poll_known_cert_phase ext _ h1
    rw [← h]
    unfold acme_drive_cert_order
    simp only []
    refine and_then_phase _ _ _ (and_then_phase _ _ _ (and_then_phase _ _ _
      (and_then_phase _ _ _ h2 ?_) ?_) ?_) ?_
    · exact fun s => ⟨"check authz", by simp [phase_names], ad_setup_authz_phase ext s⟩
    · exact fun s => ⟨"start challenges", by simp [phase_names],
        ad_start_challenges_phase ext s⟩
    · exact fun s => ⟨"monitor challenges", by simp [phase_names],
        ad_monitor_challenges_phase ext s⟩
    · exact fun s => ad_setup_certificate_phase ext s

theorem md_acme_setup_baton {W B : Type} (http : Http W) (s : St W B) :
    (md_acme_setup http s).2.baton = s.baton := by
  unfold md_acme_setup
  simp only [St.note]
  split_ifs <;> rfl

theorem phase_names_not_completed (p : Phase) : "completed" ∉ phase_names p := by
  cases p <;> decide

theorem phase_names_known (p : Phase) (n : String) (h : n ∈ phase_names p) :
    n ∈ ["ACME setup", "choose account", "check agreement", "poll certificate", "check authz",
      "start challenges", "monitor challenges", "setup cert pkey", "setup csr", "submit csr",
      "completed"] := by
  cases p <;> simp [phase_names] at h ⊢ <;> tauto

/-- The calls of `ad_set_acct` before a registration, for a store whose
`md_acme_acct_load` and `md_acme_acct_find` hand out an account whenever they
succeed.  If `ad_set_acct` called `md_acme_register`, then its calls up to
there were: the lookup of `md->ca_account`, which was unset, or not found by
`md_acme_acct_load`, or loaded, failed its validation with `APR_ENOENT` or
`APR_EACCES` and was disabled with success; then rounds of the search in each
of which the account that `md_acme_acct_find` returned failed its validation
and `md_acme_acct_disable` was called on it, with whatever status; then a
`md_acme_acct_find` that returned `APR_ENOENT`.  If the account named by
`md->ca_account` loads and validates, `ad_set_acct` returns, `ad->acct` is
that account, and neither `md_acme_acct_find` nor `md_acme_register` was
called. -/
theorem ad_set_acct_register_only_after_lookup {W : Type} (ext : Ext W) (fuel : Nat) (s : DSt W)
    (hload : ∀ id w, (ext.md_acme_acct_load id w).1 = APR_SUCCESS →
      (ext.md_acme_acct_load id w).2.1.isSome = true)
    (hfind : ∀ acme w, (ext.md_acme_acct_find acme w).1 = APR_SUCCESS →
      (ext.md_acme_acct_find acme w).2.1.isSome = true) :
    (∀ rv s1 r, ad_set_acct ext fuel s = some (rv, s1) →
      Event.md_acme_register r ∈ s1.log.drop s.log.length →
      ∃ pre rounds tail,
        s1.log = s.log ++ Event.phase "choose account" ::
          (pre ++ rounds ++
            Event.md_acme_acct_find APR_ENOENT :: Event.md_acme_register r :: tail) ∧
        disable_called_rounds rounds = true ∧
        ((s.baton.md.ca_account = none ∧ pre = []) ∨
          ∃ id, s.baton.md.ca_account = some id ∧
            (pre = [Event.md_acme_acct_load id APR_ENOENT] ∨
              ∃ x v, (v = APR_ENOENT ∨ v = APR_EACCES) ∧
                pre = [Event.md_acme_acct_load id APR_SUCCESS,
                  Event.md_acme_acct_validate (some x) v,
                  Event.md_acme_acct_disable (some x) APR_SUCCESS]))) ∧
    (∀ id a w1 w2, s.baton.md.ca_account = some id →
      ext.md_acme_acct_load id s.world = (APR_SUCCESS, some a, w1) →
      ext.md_acme_acct_validate s.acme (some a) w1 = (APR_SUCCESS, w2) →
      ∃ rv s1, ad_set_acct ext fuel s = some (rv, s1) ∧ s1.baton.acct = some a ∧
        ∀ e ∈ s1.log.drop s.log.length, ∀ r,
          e ≠ Event.md_acme_acct_find r ∧ e ≠ Event.md_acme_register r) := by
  constructor
  · intro rv s1 r h hmem
    rw [ad_set_acct_eq] at h
    rcases hl : ad_set_acct_lookup ext fuel s with _ | ⟨rv0, acct0, s0⟩
    · rw [hl] at h; simp at h
    · rw [hl] at h
      simp only [Option.map_some', Option.some.injEq] at h
      obtain ⟨-, -, a, hlog, hall⟩ := ad_set_acct_lookup_frame ext fuel s _ hl
      simp only at hlog
      obtain ⟨b, hlb⟩ := ad_set_acct_register_appends ext rv0 acct0 s0
      have hmem2 : Event.md_acme_register r ∈
          (ad_set_acct_register ext rv0 acct0 s0).2.log.drop s0.log.length := by
        rw [h] at hlb ⊢
        simp only at hlb ⊢
        rw [hlb, hlog] at hmem
        simp only [List.append_assoc, List.cons_append, List.drop_left, List.mem_cons,
          List.mem_append] at hmem
        rw [hlb]
        simp only [List.drop_left]
        rcases hmem with hm | hm | hm
        · simp at hm
        · have := hall _ hm
          simp [is_acct_lookup] at this
        · exact hm
      obtain ⟨hrv0, hacct0, tail, htail⟩ := ad_set_acct_register_log ext rv0 acct0 s0 r hmem2
      subst hrv0 hacct0
      obtain ⟨pre, rounds, hs0, hr, hshape⟩ := ad_set_acct_lookup_shape ext hload hfind fuel s s0 hl
      refine ⟨pre, rounds, tail, ?_, hr, hshape⟩
      rw [h] at htail
      simp only at htail
      rw [htail, hs0]
      simp
  · intro id a w1 w2 hid hl hv
    have hprev : ad_set_acct_previous ext
        { s with baton := { s.baton with phase := some "choose account", acct := none },
                 log := s.log ++ [Event.phase "choose account"] } =
        (APR_SUCCESS, some a,
          { s with baton := { s.baton with phase := some "choose account", acct := none },
                   world := w2,
                   log := s.log ++ [Event.phase "choose account",
                     Event.md_acme_acct_load id APR_SUCCESS,
                     Event.md_acme_acct_validate (some a.id) APR_SUCCESS] }) := by
      rw [ad_set_acct_previous_eq ext
        { s with baton := { s.baton with phase := some "choose account", acct := none },
                 log := s.log ++ [Event.phase "choose account"] } id hid]
      simp only [hl]
      unfold ad_acct_validate
      simp only [St.note, hv]
      simp
    have hlook : ad_set_acct_lookup ext fuel s = some (APR_SUCCESS, some a,
          { s with baton := { s.baton with phase := some "choose account", acct := none },
                   world := w2,
                   log := s.log ++ [Event.phase "choose account",
                     Event.md_acme_acct_load id APR_SUCCESS,
                     Event.md_acme_acct_validate (some a.id) APR_SUCCESS] }) := by
      unfold ad_set_acct_lookup
      simp only [set_phase, St.note]
      rw [hprev]
      unfold ad_set_acct_search
      simp
    rw [ad_set_acct_eq, hlook]
    simp only [Option.map_some']
    obtain ⟨hacct, b, hb, hall⟩ := ad_set_acct_register_found ext a
      { s with baton := { s.baton with phase := some "choose account", acct := none },
               world := w2,
               log := s.log ++ [Event.phase "choose account",
                 Event.md_acme_acct_load id APR_SUCCESS,
                 Event.md_acme_acct_validate (some a.id) APR_SUCCESS] }
    refine ⟨_, _, rfl, hacct, ?_⟩
    intro e he r
    change e ∈ List.drop s.log.length (ad_set_acct_register ext APR_SUCCESS (some a) _).2.log
      at he
    rw [hb] at he
    simp only [List.append_assoc, List.drop_left, List.mem_cons, List.mem_append,
      List.cons_append, List.nil_append] at he
    rcases he with he | he | he | he
    · subst he; simp
    · subst he; simp
    · subst he; simp
    · exact hall e he r

/-! ## Properties -/

/-- C2: a run against the mock CA whose `new-cert` answers with a `Location`
and no certificate, so that the certificate comes from polling that URL.
`acme_driver_run` returns `APR_SUCCESS` with the certificate in `ad->cert`,
and nothing was saved to the store; when the certificate comes in the body of
the `new-cert` response the leaf is saved as `cert.pem` and no chain is.  The
claim has leaf and chain saved on both paths. -/
theorem C2_polled_certificate_is_not_saved :
    (acme_driver_run (mock_ext false) 1 (mock_state none)).map
        (fun r => (r.1, r.2.baton.cert, r.2.log.filter is_cert_event)) =
      some (APR_SUCCESS, some { id := 7 },
        [Event.md_acme_POST (some "https://ca.test/new-cert"),
         Event.md_acme_GET (some "https://ca.test/cert/7")]) ∧
    (acme_driver_run (mock_ext true) 1 (mock_state none)).map
        (fun r => (r.1, r.2.baton.cert, r.2.log.filter is_cert_event)) =
      some (APR_SUCCESS, some { id := 7 },
        [Event.md_acme_POST (some "https://ca.test/new-cert"),
         Event.md_store_save md_store_group_t.MD_SG_DOMAINS "a" "cert.pem"
           md_store_vtype_t.MD_SV_CERT]) := by
  decide!

/-- C3: `md->cert_url` is set on entry and the one-shot poll yields the
certificate.  `acme_drive_cert` goes on: it registers an authorization for
`a.test`, answers its challenge and sends a new CSR to `new-cert`; the claim
has it complete without any of the three. -/
theorem C3_poll_success_still_orders :
    (acme_drive_cert (mock_ext false) 1 (mock_state (some "https://ca.test/cert/7"))).map
        (fun r => (r.1, r.2.log.filter is_order_event)) =
      some (APR_SUCCESS,
        [Event.md_acme_GET (some "https://ca.test/cert/7"),
         Event.returned Phase.ad_cert_poll_once APR_SUCCESS,
         Event.md_acme_authz_register "a.test",
         Event.md_acme_authz_respond "a.test",
         Event.md_acme_POST (some "https://ca.test/new-cert")]) := by
  decide!

/-- C4, refuted: the CA answers the first `POST` with a `badNonce` problem and
would answer a second one with 200.  `md_acme_req_do`, on the record that
`md_acme_create` made (`max_retries` is 0, not 3), sends one `POST`, returns
`APR_EGENERAL` and leaves the second answer unused. -/
theorem C4_badNonce_is_not_retried :
    (md_acme_create script_http (some "https://ca.test/dir") []).2.1 = some fresh_acme ∧
    fresh_acme.max_retries = 0 ∧
    (md_acme_req_do script_http (some "https://ca.test/new-authz") (sign_empty script_http) none
        { acme := fresh_acme, baton := (), log := [],
          world := [head_response "n1", badnonce_response, ok_response "n3"] }).1
      = APR_EGENERAL ∧
    (md_acme_req_do script_http (some "https://ca.test/new-authz") (sign_empty script_http) none
        { acme := fresh_acme, baton := (), log := [],
          world := [head_response "n1", badnonce_response, ok_response "n3"] }).2.log
      = [Event.http_GET "https://ca.test/dir",
         Event.http_HEAD (some "https://ca.test/new-reg"),
         Event.http_response (some "n1"),
         Event.on_init (some "n1") none,
         Event.http_POST (some "https://ca.test/new-authz") (some "n1"),
         Event.http_response (some "n2")] ∧
    (md_acme_req_do script_http (some "https://ca.test/new-authz") (sign_empty script_http) none
        { acme := fresh_acme, baton := (), log := [],
          world := [head_response "n1", badnonce_response, ok_response "n3"] }).2.world.length
      = 1 := by
  decide!

/-- C4, as the code has it: a call of `md_acme_req_do` appends at most one
`POST` and at most one `on_init` to the log, whatever the CA answers; when the
`POST` is answered with an `application/problem+json` document of type `t`,
the call returns `problem_status_get t` at once, which for
`urn:ietf:params:acme:error:badNonce` is `APR_EGENERAL`; `md_acme_create`
leaves `max_retries` at zero. -/
theorem C4_req_do_sends_once {W B : Type} (http : Http W) (url : Option String)
    (on_init : md_acme_req_init_cb W B) (on_success : Option (md_acme_req_success_cb W B))
    (s : St W B) :
    (∃ added, (md_acme_req_do http url on_init on_success s).2.log = s.log ++ added ∧
      added.countP is_post ≤ 1 ∧ added.countP is_on_init ≤ 1) ∧
    (∀ res hdrs p t added,
      (∀ r w, r.method = "POST" → (http.perform r w).1 = res) →
      res.rv = APR_SUCCESS → ¬ (200 ≤ res.status ∧ res.status < 300) →
      res.headers = some hdrs →
      apr_table_get hdrs "content-type" = some "application/problem+json" →
      (http.md_json_read_http res).2 = some p → md_json_gets p "type" = some t →
      (md_acme_req_do http url on_init on_success s).2.log = s.log ++ added →
      (∃ e ∈ added, is_post e = true) →
      (md_acme_req_do http url on_init on_success s).1 = problem_status_get t) ∧
    problem_status_get "urn:ietf:params:acme:error:badNonce" = APR_EGENERAL ∧
    (∀ u w, (md_acme_create http (some u) w).2.1.map md_acme_t.max_retries = some 0) := by
  unfold md_acme_req_do
  obtain ⟨A, C, hlog, hA, hC⟩ :=
    md_acme_req_send_shape http on_init on_success (md_acme_req_create url) s
  have hAp : A.countP is_post = 0 := by
    rw [List.countP_eq_zero]
    exact fun e he => (hA e he).2
  have hAi : A.countP is_on_init = 0 := by
    rw [List.countP_eq_zero]
    exact fun e he => (hA e he).1
  refine ⟨⟨A ++ C, hlog, ?_, ?_⟩, ?_, by decide, ?_⟩
  · rw [List.countP_append, hAp]
    rcases hC with hC | ⟨h0, C', hC, _, hC', _⟩
    · simp [hC]
    · rcases hC' with hC' | ⟨u, h1, rn, T, hC', hT, _⟩
      · simp [hC, hC', is_post]
      · have hTp : T.countP is_post = 0 := by
          rw [List.countP_eq_zero]
          exact fun e he => hT e he
        simp [hC, hC', List.countP_cons, is_post, hTp]
  · rw [List.countP_append, hAi]
    rcases hC with hC | ⟨h0, C', hC, hC'i, _⟩
    · simp [hC]
    · have hCp : C'.countP is_on_init = 0 := by
        rw [List.countP_eq_zero]
        exact fun e he => hC'i e he
      simp [hC, List.countP_cons, is_on_init, hCp]
  · intro res hdrs p t added hpost hrv hst hh hct hp ht hadd hex
    rw [hlog] at hadd
    have hadd := List.append_cancel_left hadd
    subst hadd
    obtain ⟨e, he, hep⟩ := hex
    rcases hC with hC | ⟨h0, C', hC, _, hC', _⟩
    · rw [hC, List.append_nil] at he
      exact absurd hep (hA e he).2
    · rcases hC' with hC' | ⟨u, h1, rn, T, hC', hT, r, w, reqi, s3, hr, hrv'⟩
      · rw [hC, hC'] at he
        rcases List.mem_append.1 he with he | he
        · exact absurd hep (hA e he).2
        · simp only [List.mem_singleton] at he
          subst he
          simp [is_post] at hep
      · rw [hrv', hpost r w hr]
        exact on_response_problem http on_success res reqi s3 hdrs p t hrv hst hh hct hp ht
  · intro u w
    simp [md_acme_create]

/-- C4, as the code has it, at the CA that rejects every nonce. -/
theorem C4_req_do_sends_once_witness :
    (md_acme_req_do badnonce_http (some "https://ca.test/new-authz") (sign_empty badnonce_http)
        none { acme := fresh_acme, baton := (), log := [], world := () }).1
      = problem_status_get "urn:ietf:params:acme:error:badNonce" :=
  (C4_req_do_sends_once badnonce_http (some "https://ca.test/new-authz")
      (sign_empty badnonce_http) none
      { acme := fresh_acme, baton := (), log := [], world := () }).2.1
    badnonce_response
    [("content-type", some "application/problem+json"), ("Replay-Nonce", some "n2")]
    (md_json_t.obj [("type", md_json_t.str "urn:ietf:params:acme:error:badNonce")])
    "urn:ietf:params:acme:error:badNonce"
    [Event.http_GET "https://ca.test/dir",
     Event.http_HEAD (some "https://ca.test/new-reg"),
     Event.http_response (some "n1"),
     Event.on_init (some "n1") none,
     Event.http_POST (some "https://ca.test/new-authz") (some "n1"),
     Event.http_response (some "n2")]
    (by intro r w h; simp [badnonce_http, h])
    rfl (by decide) rfl (by decide) rfl (by decide) (by decide)
    ⟨Event.http_POST (some "https://ca.test/new-authz") (some "n1"), by decide, rfl⟩

/-- C5: the log of `md_acme_req_send` grows, and wherever it shows `on_init`,
`acme->nonce` is empty at that moment and the entry `nonce` of the protected
headers is the value the cache held on entry, or, with an empty cache, the
`Replay-Nonce` of a response received before (the `HEAD`).  A nonce that the
cache holds when the send returns came with a response received after
`on_init`. -/
theorem C5_on_init_sees_consumed_nonce {W B : Type} (http : Http W)
    (on_init : md_acme_req_init_cb W B) (on_success : Option (md_acme_req_success_cb W B))
    (req : md_acme_req_t) (s : St W B) :
    (∃ added, (md_acme_req_send http on_init on_success req s).2.log = s.log ++ added) ∧
    ∀ pre h c post,
      (md_acme_req_send http on_init on_success req s).2.log =
        s.log ++ (pre ++ Event.on_init h c :: post) →
      c = none ∧
      (∀ n, s.acme.nonce = some n → h = some n) ∧
      (s.acme.nonce = none → Event.http_response h ∈ pre) ∧
      (∀ n, (md_acme_req_send http on_init on_success req s).2.acme.nonce = some n →
        Event.http_response (some n) ∈ post) := by
  obtain ⟨A, C, hlog, hA, hC⟩ := md_acme_req_send_shape http on_init on_success req s
  refine ⟨⟨A ++ C, hlog⟩, ?_⟩
  intro pre h c post hsplit
  rw [hlog] at hsplit
  have hsplit := (List.append_cancel_left hsplit).symm
  rcases hC with hC | ⟨h0, C', hC, hC'i, _, hc, hh, hn⟩
  · rw [hC, List.append_nil] at hsplit
    have : Event.on_init h c ∈ A := by rw [← hsplit]; simp
    exact absurd rfl (hA _ this).1
  · rw [hC] at hsplit
    obtain ⟨h1, h2, h3⟩ := split_unique (fun e => is_on_init e = true) A pre C' post
      (Event.on_init h c) (Event.on_init h0 none) (fun e he => (hA e he).1) hC'i rfl rfl hsplit
    simp only [Event.on_init.injEq] at h2
    obtain ⟨h2a, h2b⟩ := h2
    subst h1 h2a h2b h3
    exact ⟨rfl, hc, hh, hn⟩

/-- C5, at a send with the cached nonce `n1` that the CA answers with 200
and the nonce `n2`. -/
theorem C5_on_init_sees_consumed_nonce_witness :
    (none : Option String) = none ∧
    (∀ n, (script_state (some "n1") [ok_response "n2"]).acme.nonce = some n → some "n1" = some n) ∧
    ((script_state (some "n1") [ok_response "n2"]).acme.nonce = none →
      Event.http_response (some "n1") ∈ ([] : List Event)) ∧
    (∀ n, (md_acme_req_send script_http (sign_empty script_http) none
          (md_acme_req_create (some "https://ca.test/new-authz"))
          (script_state (some "n1") [ok_response "n2"])).2.acme.nonce = some n →
      Event.http_response (some n) ∈
        [Event.http_POST (some "https://ca.test/new-authz") (some "n1"),
         Event.http_response (some "n2")]) :=
  (C5_on_init_sees_consumed_nonce script_http (sign_empty script_http) none
      (md_acme_req_create (some "https://ca.test/new-authz"))
      (script_state (some "n1") [ok_response "n2"])).2
    [] (some "n1") none
    [Event.http_POST (some "https://ca.test/new-authz") (some "n1"),
     Event.http_response (some "n2")]
    (by decide)

/-- C6: a response that reaches `on_response` with transport status
`APR_SUCCESS` and a header `Replay-Nonce` of value `n` leaves `acme->nonce`
equal to `n`, for every HTTP status, every outcome of reading the body and
every `on_success` callback; a response without the header leaves
`acme->nonce` as it was. -/
theorem C6_on_response_replenishes_nonce {W B : Type} (http : Http W)
    (on_success : Option (md_acme_req_success_cb W B)) (res : md_http_response_t)
    (req : md_acme_req_t) (s : St W B) (hdrs : apr_table_t)
    (hrv : res.rv = APR_SUCCESS) (hh : res.headers = some hdrs) :
    (∀ n, apr_table_get hdrs "Replay-Nonce" = some n →
      (on_response http on_success res req s).2.2.acme.nonce = some n) ∧
    (apr_table_get hdrs "Replay-Nonce" = none →
      (on_response http on_success res req s).2.2.acme.nonce = s.acme.nonce) := by
  constructor
  · intro n hn
    unfold on_response
    simp only [hrv, hh, req_update_nonce, hn]
    cases on_success <;> simp <;> split_ifs <;> simp [St.note]
  · intro hn
    unfold on_response
    simp only [hrv, hh, req_update_nonce, hn]
    cases on_success <;> simp <;> split_ifs <;> simp [St.note]

/-- C6, at a response with status 400 and the header `Replay-Nonce: n1`. -/
theorem C6_on_response_replenishes_nonce_witness :
    (on_response script_http none
        { rv := APR_SUCCESS, status := 400, headers := some [("Replay-Nonce", some "n1")],
          body := none }
        (md_acme_req_create none) (script_state none [])).2.2.acme.nonce = some "n1" :=
  (C6_on_response_replenishes_nonce script_http none
      { rv := APR_SUCCESS, status := 400, headers := some [("Replay-Nonce", some "n1")],
        body := none }
      (md_acme_req_create none) (script_state none []) [("Replay-Nonce", some "n1")]
      rfl rfl).1 "n1" (by decide)

/-- C7: the nonce cache is empty and the `HEAD` request succeeds with a
response that carries no `Replay-Nonce` header.  `md_acme_req_send` goes on:
it invokes `on_init` with an empty `nonce` entry in the protected headers and
sends the `POST`; the claim has the send fail before either. -/
theorem C7_req_send_without_nonce :
    (md_acme_req_send script_http (sign_empty script_http) none
        (md_acme_req_create (some "https://ca.test/new-authz"))
        (script_state none
          [{ rv := APR_SUCCESS, status := 200, headers := some [("Server", some "ca")],
             body := none },
           { rv := APR_SUCCESS, status := 200,
             headers := some [("content-type", some "application/json")],
             body := some "ok" }])).2.log =
      [Event.http_HEAD (some "https://ca.test/new-reg"),
       Event.http_response none,
       Event.on_init none none,
       Event.http_POST (some "https://ca.test/new-authz") none,
       Event.http_response none] := by
  decide!

/-- C8: a 2xx response with a JSON body whose `on_success` callback returns
`APR_EINVAL`.  `on_response` stores that status in `req->rv` and returns
`APR_SUCCESS`, and so does the signed request; the claim has both return the
status of the callback. -/
theorem C8_on_response_drops_callback_status :
    (failing_on_success (script_acme none) none none () []).1 = APR_EINVAL ∧
    (on_response script_http (some failing_on_success)
        { rv := APR_SUCCESS, status := 200,
          headers := some [("content-type", some "application/json")], body := some "ok" }
        (md_acme_req_create (some "https://ca.test/new-authz"))
        (script_state none [])).1 = APR_SUCCESS ∧
    (on_response script_http (some failing_on_success)
        { rv := APR_SUCCESS, status := 200,
          headers := some [("content-type", some "application/json")], body := some "ok" }
        (md_acme_req_create (some "https://ca.test/new-authz"))
        (script_state none [])).2.1.rv = APR_EINVAL ∧
    (md_acme_req_do script_http (some "https://ca.test/new-authz") (sign_empty script_http)
        (some failing_on_success)
        (script_state (some "n1")
          [{ rv := APR_SUCCESS, status := 200,
             headers := some [("content-type", some "application/json")],
             body := some "ok" }])).1 = APR_SUCCESS := by
  decide!

/-- C9: when the directory `GET` succeeds with a JSON document `j`,
`md_acme_setup` returns `APR_SUCCESS` if and only if `j` has string members
`new-authz`, `new-cert`, `new-reg` and `revoke-cert`, and `APR_EINVAL`
otherwise, which is the status of the problem map for `acme:error:malformed`;
when the `GET` fails, `md_acme_setup` returns the status of the `GET`. -/
theorem C9_md_acme_setup_status {W B : Type} (http : Http W) (s : St W B) :
    (∀ j, (http.md_json_http_get s.acme.url s.world).1 = APR_SUCCESS →
        (http.md_json_http_get s.acme.url s.world).2.1 = some j →
        ((md_acme_setup http s).1 = APR_SUCCESS ↔
          ((md_json_gets j "new-authz").isSome ∧ (md_json_gets j "new-cert").isSome ∧
           (md_json_gets j "new-reg").isSome ∧ (md_json_gets j "revoke-cert").isSome)) ∧
        ((md_acme_setup http s).1 = APR_SUCCESS ∨ (md_acme_setup http s).1 = APR_EINVAL)) ∧
    problem_status_get "acme:error:malformed" = APR_EINVAL ∧
    ((http.md_json_http_get s.acme.url s.world).1 ≠ APR_SUCCESS →
      (md_acme_setup http s).1 = (http.md_json_http_get s.acme.url s.world).1) := by
  refine ⟨?_, by decide, ?_⟩
  · intro j hrv hj
    unfold md_acme_setup
    simp only [hrv, hj, if_true, Option.bind_some, St.note]
    constructor
    · constructor
      · intro h
        split_ifs at h with h4
        · simpa [Bool.and_eq_true, and_assoc] using h4
        · simp [APR_EINVAL, APR_SUCCESS] at h
      · intro h
        rw [if_pos (by simpa [Bool.and_eq_true, and_assoc] using h)]
    · split_ifs
      · exact Or.inl rfl
      · exact Or.inr rfl
  · intro hrv
    unfold md_acme_setup
    simp only [hrv, if_false]

/-- C9, at the directory of the scripted CA. -/
theorem C9_md_acme_setup_status_witness :
    (md_acme_setup script_http (script_state none [])).1 = APR_SUCCESS :=
  ((C9_md_acme_setup_status script_http (script_state none [])).1 script_directory
      rfl rfl).1.mpr (by decide)

/-- C10: for every problem type `t` of the table `Problems`,
`problem_status_get` returns the same status for `t`, for `urn:` followed by
`t`, and for `urn:ietf:params:` followed by `t`. -/
theorem C10_problem_status_get_urn_forms :
    ∀ e ∈ Problems,
      problem_status_get ("urn:" ++ e.type) = problem_status_get e.type ∧
      problem_status_get ("urn:ietf:params:" ++ e.type) = problem_status_get e.type := by
  decide!

/-- C10, at the entry `acme:error:badNonce` of the table. -/
theorem C10_problem_status_get_urn_forms_witness :
    problem_status_get ("urn:" ++ "acme:error:badNonce") =
      problem_status_get "acme:error:badNonce" ∧
    problem_status_get ("urn:ietf:params:" ++ "acme:error:badNonce") =
      problem_status_get "acme:error:badNonce" :=
  C10_problem_status_get_urn_forms { type := "acme:error:badNonce", rv := APR_EGENERAL }
    (by decide)

/-- C11: a type that, behind one leading `urn:ietf:params:` or `urn:`, compares
equal under `apr_strnatcasecmp` to no entry of `Problems` gets the status
`APR_EGENERAL` from `problem_status_get`. -/
theorem C11_unknown_type_is_general (type : String)
    (h : ∀ e ∈ Problems, apr_strnatcasecmp (type_without_urn type) e.type ≠ 0) :
    problem_status_get type = APR_EGENERAL := by
  have hscan : ∀ (l : List acme_problem_status_t) (t : String),
      (∀ e ∈ l, apr_strnatcasecmp t e.type ≠ 0) → problem_status_scan t l = APR_EGENERAL := by
    intro l
    induction l with
    | nil => intro t _; rfl
    | cons e rest ih =>
      intro t ht
      unfold problem_status_scan
      rw [if_neg (ht e (by simp))]
      exact ih t (fun e1 he1 => ht e1 (by simp [he1]))
  exact hscan Problems (type_without_urn type) h

/-- C11, at the type `urn:acme:error:noSuchProblem`. -/
theorem C11_unknown_type_is_general_witness :
    problem_status_get "urn:acme:error:noSuchProblem" = APR_EGENERAL :=
  C11_unknown_type_is_general "urn:acme:error:noSuchProblem" (by decide!)

/-- C12, refuted: types of different kinds share a status (`badNonce` and
`serverInternal`, `malformed` and `badCSR`, `rateLimited` and
`invalidContact`), and the listed type `badNonce` has the status of a type
that is not listed. -/
theorem C12_kinds_share_statuses :
    problem_status_get "acme:error:badNonce" = problem_status_get "acme:error:serverInternal" ∧
    problem_status_get "acme:error:malformed" = problem_status_get "acme:error:badCSR" ∧
    problem_status_get "acme:error:rateLimited" = problem_status_get "acme:error:invalidContact" ∧
    (∀ e ∈ Problems, apr_strnatcasecmp "acme:error:noSuchProblem" e.type ≠ 0) ∧
    problem_status_get "acme:error:badNonce" = problem_status_get "acme:error:noSuchProblem" := by
  decide!

/-- C12, as the code has it: every listed type gets the status of its table
entry, one of the five statuses `APR_EINVAL`, `APR_EGENERAL`, `APR_BADARG`,
`APR_EACCES`, `APR_EAGAIN`, which differ from each other; two listed types get
the same status exactly when their entries name the same status;
`APR_EACCES` goes to `unauthorized` alone and `APR_EAGAIN` to
`userActionRequired` alone. -/
theorem C12_status_groups :
    (∀ e ∈ Problems, problem_status_get e.type = e.rv ∧
      (e.rv = APR_EINVAL ∨ e.rv = APR_EGENERAL ∨ e.rv = APR_BADARG ∨ e.rv = APR_EACCES ∨
        e.rv = APR_EAGAIN)) ∧
    [APR_EINVAL, APR_EGENERAL, APR_BADARG, APR_EACCES, APR_EAGAIN].Nodup ∧
    (∀ e1 ∈ Problems, ∀ e2 ∈ Problems,
      (problem_status_get e1.type = problem_status_get e2.type ↔ e1.rv = e2.rv)) ∧
    (∀ e ∈ Problems,
      (problem_status_get e.type = APR_EACCES ↔ e.type = "acme:error:unauthorized") ∧
      (problem_status_get e.type = APR_EAGAIN ↔ e.type = "acme:error:userActionRequired")) := by
  decide!

/-- C12, as the code has it, at the entry `acme:error:unauthorized`. -/
theorem C12_status_groups_witness :
    problem_status_get "acme:error:unauthorized" = APR_EACCES ∧
    (APR_EACCES = APR_EINVAL ∨ APR_EACCES = APR_EGENERAL ∨ APR_EACCES = APR_BADARG ∨
      APR_EACCES = APR_EACCES ∨ APR_EACCES = APR_EAGAIN) :=
  C12_status_groups.1 { type := "acme:error:unauthorized", rv := APR_EACCES } (by decide)

/-- C13, refuted: a signed request answered with status 404 and one answered
with status 500, both with an HTML body, end with the same status, the same
ACME record and the same log: nothing that the caller gets back tells the two
status codes apart. -/
theorem C13_status_code_is_not_carried :
    (plain_error_response 404).status ≠ (plain_error_response 500).status ∧
    (md_acme_req_do script_http (some "https://ca.test/acct/1") (sign_empty script_http) none
        (script_state (some "n0") [plain_error_response 404])).1 = APR_EGENERAL ∧
    md_acme_req_do script_http (some "https://ca.test/acct/1") (sign_empty script_http) none
        (script_state (some "n0") [plain_error_response 404]) =
      md_acme_req_do script_http (some "https://ca.test/acct/1") (sign_empty script_http) none
        (script_state (some "n0") [plain_error_response 500]) := by
  refine ⟨by decide, by decide!, ?_⟩
  rfl

/-- C13, as the code has it: a response that arrived, has a status outside
200..299 and a content type other than `application/problem+json` makes
`on_response` return `APR_EGENERAL`, the status that the problem map gives
`acme:error:incorrectResponse` and unknown types; the status, the request and
the state that result are the same for every such status code. -/
theorem C13_plain_error_is_general {W B : Type} (http : Http W)
    (on_success : Option (md_acme_req_success_cb W B)) (res : md_http_response_t)
    (req : md_acme_req_t) (s : St W B)
    (hrv : res.rv = APR_SUCCESS) (hst : ¬ (200 ≤ res.status ∧ res.status < 300))
    (hct : res.headers.bind (apr_table_get · "content-type") ≠ some "application/problem+json") :
    (on_response http on_success res req s).1 = APR_EGENERAL ∧
    problem_status_get "acme:error:incorrectResponse" = APR_EGENERAL ∧
    ∀ status : Int, ¬ (200 ≤ status ∧ status < 300) →
      on_response http on_success { res with status := status } req s =
        on_response http on_success res req s := by
  refine ⟨?_, by decide!, ?_⟩
  · rw [on_response_plain_error http on_success res req s hrv hst hct]
  · intro status hs
    rw [on_response_plain_error http on_success res req s hrv hst hct,
      on_response_plain_error http on_success { res with status := status } req s hrv hs hct]

/-- C13, as the code has it, at an HTML answer with status 404. -/
theorem C13_plain_error_is_general_witness :
    (on_response script_http none (plain_error_response 404)
        (md_acme_req_create (some "https://ca.test/acct/1")) (script_state none [])).1
      = APR_EGENERAL ∧
    problem_status_get "acme:error:incorrectResponse" = APR_EGENERAL ∧
    ∀ status : Int, ¬ (200 ≤ status ∧ status < 300) →
      on_response script_http none { plain_error_response 404 with status := status }
          (md_acme_req_create (some "https://ca.test/acct/1")) (script_state none []) =
        on_response script_http none (plain_error_response 404)
          (md_acme_req_create (some "https://ca.test/acct/1")) (script_state none []) :=
  C13_plain_error_is_general script_http none (plain_error_response 404)
    (md_acme_req_create (some "https://ca.test/acct/1")) (script_state none [])
    rfl (by decide) (by decide!)

/-- C14: `ad_acct_validate` calls `md_acme_acct_disable` on the account exactly
when `md_acme_acct_validate` returned `APR_EACCES` or `APR_ENOENT`; then the
account reference of the caller is cleared and the result is the status of the
disable.  When the validation succeeds the account is kept and the result is
`APR_SUCCESS`; on every other status that status is the result, the account is
kept and nothing is disabled.  `v` is what the validation returns, `d` what
the disable returns after it. -/
theorem C14_ad_acct_validate_disables {W : Type} (ext : Ext W)
    (pacct : Option md_acme_acct_t) (s : DSt W) (v d : apr_status_t × W)
    (hv : v = ext.md_acme_acct_validate s.acme pacct s.world)
    (hd : d = ext.md_acme_acct_disable pacct v.2) :
    (v.1 = APR_EACCES ∨ v.1 = APR_ENOENT →
      ad_acct_validate ext pacct s =
        (d.1, none, { s with
          world := d.2
          log := s.log ++ [Event.md_acme_acct_validate (pacct.map md_acme_acct_t.id) v.1,
            Event.md_acme_acct_disable (pacct.map md_acme_acct_t.id) d.1] })) ∧
    (v.1 = APR_SUCCESS →
      ad_acct_validate ext pacct s =
        (APR_SUCCESS, pacct, { s with
          world := v.2
          log := s.log ++ [Event.md_acme_acct_validate (pacct.map md_acme_acct_t.id) v.1] })) ∧
    (v.1 ≠ APR_SUCCESS → v.1 ≠ APR_EACCES → v.1 ≠ APR_ENOENT →
      ad_acct_validate ext pacct s =
        (v.1, pacct, { s with
          world := v.2
          log := s.log ++ [Event.md_acme_acct_validate (pacct.map md_acme_acct_t.id) v.1] })) ∧
    ((∃ id rv, Event.md_acme_acct_disable id rv ∈
        (ad_acct_validate ext pacct s).2.2.log.drop s.log.length) ↔
      (v.1 = APR_EACCES ∨ v.1 = APR_ENOENT)) := by
  subst hv hd
  have h1 : (ext.md_acme_acct_validate s.acme pacct s.world).1 = APR_EACCES ∨
      (ext.md_acme_acct_validate s.acme pacct s.world).1 = APR_ENOENT →
      ad_acct_validate ext pacct s =
        ((ext.md_acme_acct_disable pacct (ext.md_acme_acct_validate s.acme pacct s.world).2).1,
          none, { s with
          world := (ext.md_acme_acct_disable pacct
            (ext.md_acme_acct_validate s.acme pacct s.world).2).2
          log := s.log ++ [Event.md_acme_acct_validate (pacct.map md_acme_acct_t.id)
              (ext.md_acme_acct_validate s.acme pacct s.world).1,
            Event.md_acme_acct_disable (pacct.map md_acme_acct_t.id)
              (ext.md_acme_acct_disable pacct
                (ext.md_acme_acct_validate s.acme pacct s.world).2).1] }) := by
    intro h
    unfold ad_acct_validate
    rcases h with h | h <;> simp [St.note, h, APR_EACCES, APR_ENOENT, APR_SUCCESS]
  have h2 : ¬ ((ext.md_acme_acct_validate s.acme pacct s.world).1 = APR_EACCES ∨
      (ext.md_acme_acct_validate s.acme pacct s.world).1 = APR_ENOENT) →
      ad_acct_validate ext pacct s =
        ((ext.md_acme_acct_validate s.acme pacct s.world).1, pacct, { s with
          world := (ext.md_acme_acct_validate s.acme pacct s.world).2
          log := s.log ++ [Event.md_acme_acct_validate (pacct.map md_acme_acct_t.id)
            (ext.md_acme_acct_validate s.acme pacct s.world).1] }) := by
    intro h
    unfold ad_acct_validate
    simp only [St.note]
    split_ifs with h3 h4
    · exact absurd (Or.symm h4) h
    · rfl
    · rfl
  refine ⟨h1, ?_, ?_, ?_⟩
  · intro h
    rw [h2 (by rw [h]; decide), h]
  · intro h3 h4 h5
    exact h2 (by tauto)
  · by_cases h : (ext.md_acme_acct_validate s.acme pacct s.world).1 = APR_EACCES ∨
        (ext.md_acme_acct_validate s.acme pacct s.world).1 = APR_ENOENT
    · rw [h1 h]
      simp [h]
    · rw [h2 h]
      simp [h]

/-- C14, at the account `1` when the CA answers its validation `unauthorized`. -/
theorem C14_ad_acct_validate_disables_witness :
    ad_acct_validate mock_ext_denied (some { id := "1" }) (mock_state none) =
      (APR_SUCCESS, none, { mock_state none with
        world := ()
        log := (mock_state none).log ++ [Event.md_acme_acct_validate (some "1") APR_EACCES,
          Event.md_acme_acct_disable (some "1") APR_SUCCESS] }) :=
  (C14_ad_acct_validate_disables mock_ext_denied (some { id := "1" }) (mock_state none)
    (APR_EACCES, ()) (APR_SUCCESS, ()) rfl rfl).1 (Or.inl rfl)

/-- C15, refuted: for a managed domain without contacts and a store without
accounts, `ad_set_acct` reaches the registration and fails with `APR_EINVAL`;
the problem map gives `acme:error:invalidContact` the status `APR_BADARG`. -/
theorem C15_no_contacts_is_not_invalidContact :
    (ad_set_acct_lookup (mock_ext false) 1
        (mock_state_md { mock_md none with contacts := none })).map (fun r => (r.1, r.2.1))
      = some (APR_SUCCESS, none) ∧
    (ad_set_acct (mock_ext false) 1
        (mock_state_md { mock_md none with contacts := none })).map (fun r => r.1)
      = some APR_EINVAL ∧
    problem_status_get "acme:error:invalidContact" = APR_BADARG ∧
    APR_EINVAL ≠ APR_BADARG := by
  decide!

/-- C15, as the code has it: when `ad_set_acct` reaches the registration (`rv`
is `APR_SUCCESS` and `acct` is `NULL` after the lookup of a known account) and
`md->contacts` is `NULL` or empty, it returns `APR_EINVAL`, the status that the
problem map gives `acme:error:malformed` and not `acme:error:invalidContact`;
`ad->acct` is `NULL`, and neither `md_acme_register` nor `md_reg_update` was
called. -/
theorem C15_no_contacts_is_EINVAL {W : Type} (ext : Ext W) (fuel : Nat) (s s2 : DSt W)
    (hc : s.baton.md.contacts = none ∨ s.baton.md.contacts = some [])
    (hreach : ad_set_acct_lookup ext fuel s = some (APR_SUCCESS, none, s2)) :
    ad_set_acct ext fuel s = some (APR_EINVAL, s2) ∧
    s2.baton.acct = none ∧
    (∀ e ∈ s2.log.drop s.log.length, ∀ rv name fields,
      e ≠ Event.md_acme_register rv ∧ e ≠ Event.md_reg_update name fields) ∧
    problem_status_get "acme:error:malformed" = APR_EINVAL ∧
    problem_status_get "acme:error:invalidContact" ≠ APR_EINVAL := by
  obtain ⟨hb, -, a, hl, hall⟩ := ad_set_acct_lookup_frame ext fuel s _ hreach
  simp only at hb hl
  refine ⟨?_, ?_, ?_, by decide!, by decide!⟩
  · rw [ad_set_acct_eq, hreach]
    simp only [Option.map_some']
    unfold ad_set_acct_register
    have hc2 : s2.baton.md.contacts.isNone = true ∨ s2.baton.md.contacts = some [] := by
      rw [hb]
      rcases hc with hc | hc
      · left; simp [hc]
      · right; exact hc
    simp only []
    rw [if_pos]
    exact ⟨trivial, rfl, hc2⟩
  · rw [hb]
  · intro e he rv name fields
    rw [hl] at he
    simp only [List.drop_left, List.mem_cons] at he
    rcases he with he | he
    · subst he; simp
    · have := hall e he
      constructor <;> (intro h; subst h; simp [is_acct_lookup] at this)

/-- C15, as the code has it, at a managed domain without contacts and a store
without accounts. -/
theorem C15_no_contacts_is_EINVAL_witness :
    ad_set_acct (mock_ext false) 1 (mock_state_md { mock_md none with contacts := none }) =
      some (APR_EINVAL,
        { mock_state_md { mock_md none with contacts := none } with
          baton := { (mock_state_md { mock_md none with contacts := none }).baton with
            phase := some "choose account" }
          log := [Event.phase "choose account", Event.md_acme_acct_find APR_ENOENT] }) :=
  (C15_no_contacts_is_EINVAL (mock_ext false) 1
    (mock_state_md { mock_md none with contacts := none }) _ (Or.inl rfl) rfl).1

/-- C17, refuted: the store fails to write the managed domain.  `ad_set_acct`
registers the account `1`, fails with the status of `md_reg_update`, and
`ad->acct` is the new account, not `NULL`. -/
theorem C17_failure_keeps_account :
    (ad_set_acct mock_ext_reg_update_fails 1 (mock_state none)).map
        (fun r => (r.1, r.2.baton.acct, r.2.log)) =
      some (APR_EGENERAL, some { id := "1" },
        [Event.phase "choose account", Event.md_acme_acct_find APR_ENOENT,
         Event.md_acme_register APR_SUCCESS,
         Event.md_reg_update "a" md_upd_fields.MD_UPD_CA_ACCOUNT]) := by
  decide!

/-- C17, as the code has it, for a `md_acme_register` that hands out an account
whenever it succeeds.  When `ad_set_acct` returns `APR_SUCCESS`, `ad->acct` is
set and `md->ca_account` is the id of that account, and `md_reg_update` with
`MD_UPD_CA_ACCOUNT` was called exactly when `md->ca_account` was unset or named
another account on entry.  When `ad_set_acct` fails, `ad->acct` is `NULL`
exactly when `md_reg_update` was not called: a failure of `md_reg_update`
leaves the chosen account in `ad->acct`. -/
theorem C17_ad_set_acct_records_account {W : Type} (ext : Ext W) (fuel : Nat) (s s1 : DSt W)
    (rv : apr_status_t)
    (hreg : ∀ acme c a w, (ext.md_acme_register acme c a w).1 = APR_SUCCESS →
      (ext.md_acme_register acme c a w).2.1.isSome = true)
    (h : ad_set_acct ext fuel s = some (rv, s1)) :
    (rv = APR_SUCCESS →
      ∃ a, s1.baton.acct = some a ∧ s1.baton.md.ca_account = some a.id ∧
        (Event.md_reg_update s.baton.md.name md_upd_fields.MD_UPD_CA_ACCOUNT ∈
            s1.log.drop s.log.length ↔
          s.baton.md.ca_account ≠ some a.id)) ∧
    (rv ≠ APR_SUCCESS →
      (s1.baton.acct = none ↔
        ∀ name fields, Event.md_reg_update name fields ∉ s1.log.drop s.log.length)) := by
  rw [ad_set_acct_eq] at h
  rcases hl : ad_set_acct_lookup ext fuel s with _ | ⟨rv0, acct0, s0⟩
  · rw [hl] at h; simp at h
  · rw [hl] at h
    simp only [Option.map_some', Option.some.injEq] at h
    obtain ⟨hb, -, a, hlog, hall⟩ := ad_set_acct_lookup_frame ext fuel s _ hl
    simp only at hb hlog
    obtain ⟨b, hlb, -, hs, hf⟩ := ad_set_acct_register_spec ext hreg rv0 acct0 s0 (by rw [hb])
    rw [h] at hlb hs hf
    simp only at hlb hs hf
    have hmd : s0.baton.md = s.baton.md := by rw [hb]
    have hdrop : s1.log.drop s.log.length = Event.phase "choose account" :: (a ++ b) := by
      rw [hlb, hlog]; simp
    have hnot : ∀ name fields, Event.md_reg_update name fields ∉ a := by
      intro name fields hm
      have := hall _ hm
      simp [is_acct_lookup] at this
    constructor
    · intro hrv
      obtain ⟨x, h1, h2, h3⟩ := hs hrv
      refine ⟨x, h1, h2, ?_⟩
      rw [hdrop, ← hmd, ← h3]
      simp [hnot]
    · intro hrv
      rw [hf hrv, hdrop]
      simp [hnot]

/-- C17, as the code has it, at the mock CA with an empty store. -/
theorem C17_ad_set_acct_records_account_witness :
    ad_set_acct (mock_ext false) 1 (mock_state none) = some (APR_SUCCESS, mock_state_acct) ∧
    ∃ a, mock_state_acct.baton.acct = some a ∧
      mock_state_acct.baton.md.ca_account = some a.id ∧
      (Event.md_reg_update (mock_state none).baton.md.name md_upd_fields.MD_UPD_CA_ACCOUNT ∈
          mock_state_acct.log.drop (mock_state none).log.length ↔
        (mock_state none).baton.md.ca_account ≠ some a.id) :=
  ⟨rfl, (C17_ad_set_acct_records_account (mock_ext false) 1 (mock_state none)
    mock_state_acct APR_SUCCESS (fun _ _ _ _ _ => rfl) rfl).1 rfl⟩

/-- C18, for set operations that do what their names say
(`md_acme_authz_set_get` returns an entry of the set for the domain,
`md_acme_authz_set_remove` keeps the entries of other domains,
`md_acme_authz_set_add` adds the entry and keeps the others), an update that
keeps the domain of the authorization and a registration that hands out an
authorization for the domain whenever it succeeds.  When `ad_setup_authz`
returns `APR_SUCCESS`, the set has an authorization for every name of
`md->domains`.  Every call of `md_acme_authz_register` for a name comes
directly after a `md_acme_authz_set_get` for the name that found nothing, or
after one that found an entry, the failed update of the entry and its removal.
When `md_acme_authz_set_load` fails with another status than `APR_ENOENT`,
that status is returned and nothing is called after the load. -/
theorem C18_ad_setup_authz_covers_domains {W : Type} (ext : Ext W) (s : DSt W)
    (hget : ∀ set d i, ext.md_acme_authz_set_get set d = some i →
      ∃ z, set.authzs[i]? = some z ∧ z.domain = d)
    (hremove : ∀ set d, ∀ z ∈ set.authzs, z.domain ≠ d →
      ∃ y ∈ (ext.md_acme_authz_set_remove set d).authzs, y.domain = z.domain)
    (hadd : ∀ set z, (ext.md_acme_authz_set_add set (some z)).1 = APR_SUCCESS →
      z ∈ (ext.md_acme_authz_set_add set (some z)).2.authzs ∧
      ∀ x ∈ set.authzs, x ∈ (ext.md_acme_authz_set_add set (some z)).2.authzs)
    (hupdate : ∀ z acme acct w, (ext.md_acme_authz_update z acme acct w).2.1.domain = z.domain)
    (hregister : ∀ acme d acct w, (ext.md_acme_authz_register acme d acct w).1 = APR_SUCCESS →
      ∃ z, (ext.md_acme_authz_register acme d acct w).2.1 = some z ∧ z.domain = d) :
    ((ad_setup_authz ext s).1 = APR_SUCCESS →
      ∀ d ∈ s.baton.md.domains,
        ∃ z ∈ (the_authz_set (ad_setup_authz ext s).2).authzs, z.domain = d) ∧
    (∀ pre d post,
      (ad_setup_authz ext s).2.log.drop s.log.length =
        pre ++ Event.md_acme_authz_register d :: post →
      (∃ p, pre = p ++ [Event.md_acme_authz_set_get d false]) ∨
      ∃ p rv0, rv0 ≠ APR_SUCCESS ∧
        pre = p ++ [Event.md_acme_authz_set_get d true, Event.md_acme_authz_update d rv0,
          Event.md_acme_authz_set_remove d]) ∧
    ((ext.md_acme_authz_set_load s.baton.md.name s.world).1 ≠ APR_SUCCESS →
      (ext.md_acme_authz_set_load s.baton.md.name s.world).1 ≠ APR_ENOENT →
      (ad_setup_authz ext s).1 = (ext.md_acme_authz_set_load s.baton.md.name s.world).1 ∧
      (ad_setup_authz ext s).2.log =
        s.log ++ ((if s.baton.acct.isSome then [] else [Event.assert_failed "ad->acct"]) ++
          [Event.phase "check authz", Event.md_acme_authz_set_load s.baton.md.name])) := by
  refine ⟨?_, ?_, ?_⟩
  · intro h d hd
    rw [ad_setup_authz_eq] at h ⊢
    have hst : (ad_setup_authz_load ext s).1 = APR_SUCCESS := by
      by_contra hne
      rw [ad_setup_authz_loop_stops ext _ _ _ hne] at h
      exact hne h
    exact ad_setup_authz_loop_covers ext hget hremove hadd hupdate hregister _ _ _ hst h d
      (Or.inl hd)
  · intro pre d post hl
    obtain ⟨a, hlog, -, hr⟩ := ad_setup_authz_log ext s
    rw [hlog] at hl
    simp only [List.drop_left] at hl
    have hall : registers_allowed []
        ((if s.baton.acct.isSome then [] else [Event.assert_failed "ad->acct"]) ++
          Event.phase "check authz" :: Event.md_acme_authz_set_load s.baton.md.name :: a)
        = true := by
      split_ifs
      · simp only [List.nil_append, registers_allowed, Bool.true_and]
        exact hr _
      · simp only [List.singleton_append, registers_allowed, Bool.true_and]
        exact hr _
    have := registers_allowed_spec _ [] hall pre d post hl
    simp only [List.nil_append] at this
    exact allows_register_spec d pre this
  · intro h1 h2
    rw [ad_setup_authz_eq]
    have hst : (ad_setup_authz_load ext s).1 =
        (ext.md_acme_authz_set_load s.baton.md.name s.world).1 := by
      rw [ad_setup_authz_load_status, if_neg h2]
    rw [ad_setup_authz_loop_stops ext _ _ _ (by rw [hst]; exact h1)]
    exact ⟨hst, ad_setup_authz_load_log ext s⟩

/-- C18, at the mock CA with an empty store: the set gets an authorization for
`a.test`. -/
theorem C18_ad_setup_authz_covers_domains_witness :
    ∃ z ∈ (the_authz_set (ad_setup_authz (mock_ext false) mock_state_acct).2).authzs,
      z.domain = "a.test" :=
  (C18_ad_setup_authz_covers_domains (mock_ext false) mock_state_acct
    (fun set d i h => mock_set_get_sound set.authzs d i h)
    (fun set d z hz hne => ⟨z, List.mem_filter.mpr ⟨hz, by simpa using hne⟩, rfl⟩)
    (fun set z _ => ⟨by simp [mock_ext], fun x hx => by simp [mock_ext, hx]⟩)
    (fun z acme acct w => by
      simp only [mock_ext]
      split_ifs <;> rfl)
    (fun acme d acct w _ => ⟨_, rfl, rfl⟩)).1 (by decide!) "a.test" (by decide)

/-- C19, refuted: the stored set has an entry for `a.test`; its update fails,
the entry is removed, and the registration of a new authorization fails.
`ad_setup_authz` returns the error of the registration with the entry removed
from the set and without a call of `md_acme_authz_set_save`. -/
theorem C19_removal_is_not_saved_on_error :
    ((ad_setup_authz mock_ext_authz_gone mock_state_acct).1,
      (the_authz_set (ad_setup_authz mock_ext_authz_gone mock_state_acct).2).authzs,
      (ad_setup_authz mock_ext_authz_gone mock_state_acct).2.log.drop
        mock_state_acct.log.length) =
      (APR_EGENERAL, [],
        [Event.phase "check authz", Event.md_acme_authz_set_load "a",
         Event.md_acme_authz_set_get "a.test" true,
         Event.md_acme_authz_update "a.test" APR_ENOENT,
         Event.md_acme_authz_set_remove "a.test",
         Event.md_acme_authz_register "a.test"]) := by
  decide!

/-- C19, as the code has it: the set is saved at the end of a round that
changed it only if the status is `APR_SUCCESS` there.  When `ad_setup_authz`
returns `APR_SUCCESS`, every `md_acme_authz_set_remove` and every
`md_acme_authz_set_add` it called is followed by a call of
`md_acme_authz_set_save`. -/
theorem C19_changes_saved_on_success {W : Type} (ext : Ext W) (s : DSt W)
    (h : (ad_setup_authz ext s).1 = APR_SUCCESS) :
    ∀ pre e post, (ad_setup_authz ext s).2.log.drop s.log.length = pre ++ e :: post →
      ((∃ d, e = Event.md_acme_authz_set_remove d) ∨ ∃ o, e = Event.md_acme_authz_set_add o) →
      ∃ name, Event.md_acme_authz_set_save name ∈ post := by
  intro pre e post hl he
  obtain ⟨a, hlog, hs, -⟩ := ad_setup_authz_log ext s
  rw [hlog] at hl
  simp only [List.drop_left] at hl
  have hsaved : changes_saved ((if s.baton.acct.isSome then []
      else [Event.assert_failed "ad->acct"]) ++
      Event.phase "check authz" :: Event.md_acme_authz_set_load s.baton.md.name :: a) = true := by
    have ha := hs h
    split_ifs <;> simp [changes_saved, is_set_change, ha]
  have hch : is_set_change e = true := by
    rcases he with ⟨d, rfl⟩ | ⟨o, rfl⟩ <;> rfl
  obtain ⟨x, hx, hsave⟩ := changes_saved_spec _ hsaved pre e post hl hch
  cases x <;> simp [is_set_save] at hsave
  exact ⟨_, hx⟩

/-- C19, as the code has it, at the mock CA with an empty store: the
authorization added for `a.test` is saved. -/
theorem C19_changes_saved_on_success_witness :
    ∃ name, Event.md_acme_authz_set_save name ∈
      [Event.md_acme_authz_set_save "a"] :=
  C19_changes_saved_on_success (mock_ext false) mock_state_acct (by decide!)
    [Event.phase "check authz", Event.md_acme_authz_set_load "a",
      Event.md_acme_authz_set_get "a.test" false, Event.md_acme_authz_register "a.test"]
    (Event.md_acme_authz_set_add (some "a.test")) [Event.md_acme_authz_set_save "a"]
    (by decide!) (Or.inr ⟨_, rfl⟩)

/-- C20, refuted: the first authorization is pending and the second one is
invalid.  One pass of `check_challenges`, in `md_acme_drive.c` and in
`md_acme_order.c`, returns the retry status `APR_EAGAIN`. -/
theorem C20_pending_hides_invalid :
    (the_authz_set two_authz_state).authzs.map md_acme_authz_t.state =
      [md_acme_authz_state_t.MD_ACME_AUTHZ_S_PENDING,
       md_acme_authz_state_t.MD_ACME_AUTHZ_S_INVALID] ∧
    (check_challenges store_ext 0 two_authz_state).1 = APR_EAGAIN ∧
    two_order_ctx.order.authz_urls.map (table_state pending_then_invalid) =
      [md_acme_authz_state_t.MD_ACME_AUTHZ_S_PENDING,
       md_acme_authz_state_t.MD_ACME_AUTHZ_S_INVALID] ∧
    (md_acme_order.check_challenges (table_retrieve pending_then_invalid) two_order_ctx 0 ()).1
      = APR_EAGAIN := by
  decide!

/-- C20, as the code has it, for authorizations whose update (in
`md_acme_drive.c`) or retrieval (in `md_acme_order.c`) succeeds and reports
the state of the list.  One pass of `check_challenges` returns `APR_SUCCESS`
exactly when all authorizations are valid.  Otherwise the first authorization
of the list that is not valid decides: the result is `APR_EAGAIN` when that one
is pending and `APR_EINVAL` when it is in any other state, whatever the states
of the authorizations after it. -/
theorem C20_first_not_valid_decides {W V : Type} (ext : Ext W) (attempt : Nat) (s : DSt W)
    (retrieve : md_acme_t → String → V → apr_status_t × md_acme_authz_t × V)
    (st : String → md_acme_authz_state_t) (ctx : md_acme_order.order_ctx_t) (v : V)
    (hupd : ∀ z ∈ (the_authz_set s).authzs, ∀ acme acct w,
      (ext.md_acme_authz_update z acme acct w).1 = APR_SUCCESS ∧
      (ext.md_acme_authz_update z acme acct w).2.1.state = z.state)
    (hret : ∀ url ∈ ctx.order.authz_urls, ∀ acme w,
      (retrieve acme url w).1 = APR_SUCCESS ∧ (retrieve acme url w).2.1.state = st url) :
    ((check_challenges ext attempt s).1 = APR_SUCCESS ↔
      ∀ z ∈ (the_authz_set s).authzs,
        z.state = md_acme_authz_state_t.MD_ACME_AUTHZ_S_VALID) ∧
    (∀ pre z post, (the_authz_set s).authzs = pre ++ z :: post →
      (∀ y ∈ pre, y.state = md_acme_authz_state_t.MD_ACME_AUTHZ_S_VALID) →
      z.state ≠ md_acme_authz_state_t.MD_ACME_AUTHZ_S_VALID →
      (check_challenges ext attempt s).1 =
        if z.state = md_acme_authz_state_t.MD_ACME_AUTHZ_S_PENDING then APR_EAGAIN
        else APR_EINVAL) ∧
    ((md_acme_order.check_challenges retrieve ctx attempt v).1 = APR_SUCCESS ↔
      ∀ url ∈ ctx.order.authz_urls,
        st url = md_acme_authz_state_t.MD_ACME_AUTHZ_S_VALID) ∧
    (∀ pre url post, ctx.order.authz_urls = pre ++ url :: post →
      (∀ y ∈ pre, st y = md_acme_authz_state_t.MD_ACME_AUTHZ_S_VALID) →
      st url ≠ md_acme_authz_state_t.MD_ACME_AUTHZ_S_VALID →
      (md_acme_order.check_challenges retrieve ctx attempt v).1 =
        if st url = md_acme_authz_state_t.MD_ACME_AUTHZ_S_PENDING then APR_EAGAIN
        else APR_EINVAL) := by
  have hd : (check_challenges ext attempt s).1 =
      first_not_valid ((the_authz_set s).authzs.map md_acme_authz_t.state) :=
    check_challenges_loop_status ext _ _ _ hupd
  have ho : (md_acme_order.check_challenges retrieve ctx attempt v).1 =
      first_not_valid (ctx.order.authz_urls.map st) :=
    order_check_challenges_loop_status retrieve st ctx _ _ hret
  refine ⟨?_, ?_, ?_, ?_⟩
  · rw [hd, first_not_valid_success]
    simp
  · intro pre z post hl hpre hz
    rw [hd, hl, List.map_append, List.map_cons]
    exact first_not_valid_split _ _ _ (by simpa using hpre) hz
  · rw [ho, first_not_valid_success]
    simp
  · intro pre url post hl hpre hz
    rw [ho, hl, List.map_append, List.map_cons]
    exact first_not_valid_split _ _ _ (by simpa using hpre) hz

/-- C20, as the code has it, at a set and at an order whose first
authorization is pending and whose second one is invalid. -/
theorem C20_first_not_valid_decides_witness :
    (check_challenges store_ext 0 two_authz_state).1 =
      (if md_acme_authz_state_t.MD_ACME_AUTHZ_S_PENDING =
          md_acme_authz_state_t.MD_ACME_AUTHZ_S_PENDING then APR_EAGAIN
      else APR_EINVAL) :=
  (C20_first_not_valid_decides store_ext 0 two_authz_state
    (table_retrieve pending_then_invalid) (table_state pending_then_invalid) two_order_ctx ()
    (fun _ _ _ _ _ => ⟨rfl, rfl⟩)
    (fun url hurl _ _ => by
      simp only [two_order_ctx, List.mem_cons, List.mem_singleton, List.not_mem_nil,
        or_false] at hurl
      rcases hurl with h | h <;> subst h <;> exact ⟨rfl, rfl⟩)).2.1 []
    { domain := "a.test", state := md_acme_authz_state_t.MD_ACME_AUTHZ_S_PENDING }
    [{ domain := "b.test", state := md_acme_authz_state_t.MD_ACME_AUTHZ_S_INVALID }]
    rfl (by simp) (by decide)

/-- C21, refuted: the first authorization is valid and the second one is
invalid.  One pass of `check_challenges`, in `md_acme_drive.c` and in
`md_acme_order.c`, returns `APR_EINVAL`; the problem map gives
`acme:error:unauthorized` the status `APR_EACCES`. -/
theorem C21_terminal_state_is_not_unauthorized :
    (check_challenges store_ext 0 terminal_authz_state).1 = APR_EINVAL ∧
    (md_acme_order.check_challenges (table_retrieve valid_then_invalid) two_order_ctx 0 ()).1
      = APR_EINVAL ∧
    problem_status_get "acme:error:unauthorized" = APR_EACCES ∧
    APR_EINVAL ≠ APR_EACCES := by
  decide!

/-- C21, as the code has it, for authorizations whose update (in
`md_acme_drive.c`) or retrieval (in `md_acme_order.c`) succeeds and reports
the state of the list.  When the first authorization that is not valid is in
another state than pending, one pass of `check_challenges` returns
`APR_EINVAL`, the status that the problem map gives `acme:error:malformed`
and not the one it gives `acme:error:unauthorized`. -/
theorem C21_terminal_state_is_EINVAL {W V : Type} (ext : Ext W) (attempt : Nat) (s : DSt W)
    (retrieve : md_acme_t → String → V → apr_status_t × md_acme_authz_t × V)
    (st : String → md_acme_authz_state_t) (ctx : md_acme_order.order_ctx_t) (v : V)
    (hupd : ∀ z ∈ (the_authz_set s).authzs, ∀ acme acct w,
      (ext.md_acme_authz_update z acme acct w).1 = APR_SUCCESS ∧
      (ext.md_acme_authz_update z acme acct w).2.1.state = z.state)
    (hret : ∀ url ∈ ctx.order.authz_urls, ∀ acme w,
      (retrieve acme url w).1 = APR_SUCCESS ∧ (retrieve acme url w).2.1.state = st url) :
    (∀ pre z post, (the_authz_set s).authzs = pre ++ z :: post →
      (∀ y ∈ pre, y.state = md_acme_authz_state_t.MD_ACME_AUTHZ_S_VALID) →
      z.state ≠ md_acme_authz_state_t.MD_ACME_AUTHZ_S_VALID →
      z.state ≠ md_acme_authz_state_t.MD_ACME_AUTHZ_S_PENDING →
      (check_challenges ext attempt s).1 = APR_EINVAL) ∧
    (∀ pre url post, ctx.order.authz_urls = pre ++ url :: post →
      (∀ y ∈ pre, st y = md_acme_authz_state_t.MD_ACME_AUTHZ_S_VALID) →
      st url ≠ md_acme_authz_state_t.MD_ACME_AUTHZ_S_VALID →
      st url ≠ md_acme_authz_state_t.MD_ACME_AUTHZ_S_PENDING →
      (md_acme_order.check_challenges retrieve ctx attempt v).1 = APR_EINVAL) ∧
    problem_status_get "acme:error:malformed" = APR_EINVAL ∧
    problem_status_get "acme:error:unauthorized" ≠ APR_EINVAL := by
  have hd : (check_challenges ext attempt s).1 =
      first_not_valid ((the_authz_set s).authzs.map md_acme_authz_t.state) :=
    check_challenges_loop_status ext _ _ _ hupd
  have ho : (md_acme_order.check_challenges retrieve ctx attempt v).1 =
      first_not_valid (ctx.order.authz_urls.map st) :=
    order_check_challenges_loop_status retrieve st ctx _ _ hret
  refine ⟨?_, ?_, by decide!, by decide!⟩
  · intro pre z post hl hpre hz hp
    rw [hd, hl, List.map_append, List.map_cons,
      first_not_valid_split _ _ _ (by simpa using hpre) hz, if_neg hp]
  · intro pre url post hl hpre hz hp
    rw [ho, hl, List.map_append, List.map_cons,
      first_not_valid_split _ _ _ (by simpa using hpre) hz, if_neg hp]

/-- C21, as the code has it, at a set whose first authorization is valid and
whose second one is invalid. -/
theorem C21_terminal_state_is_EINVAL_witness :
    (check_challenges store_ext 0 terminal_authz_state).1 = APR_EINVAL :=
  (C21_terminal_state_is_EINVAL store_ext 0 terminal_authz_state
    (table_retrieve valid_then_invalid) (table_state valid_then_invalid) two_order_ctx ()
    (fun _ _ _ _ _ => ⟨rfl, rfl⟩)
    (fun url hurl _ _ => by
      simp only [two_order_ctx, List.mem_cons, List.mem_singleton, List.not_mem_nil,
        or_false] at hurl
      rcases hurl with h | h <;> subst h <;> exact ⟨rfl, rfl⟩)).1
    [{ domain := "a.test", state := md_acme_authz_state_t.MD_ACME_AUTHZ_S_VALID }]
    { domain := "b.test", state := md_acme_authz_state_t.MD_ACME_AUTHZ_S_INVALID } []
    rfl (by simp) (by decide) (by decide)

/-- C22: in `acme_drive_cert` the block of the one-shot poll stands between
the check of the agreement and the chain that starts with `ad_setup_authz`.
For a state in which `md->cert_url` is set: when the one-shot poll returns
`APR_ENOENT`, `md->cert_url` becomes `NULL`, `md_reg_update` with
`MD_UPD_CERT_URL` is called and its status is the status of the block; if that
is `APR_SUCCESS`, `ad_setup_authz` is called next and the chain goes on to
`ad_setup_certificate` as long as no call fails.  When the poll returns any
other status than `APR_SUCCESS` and `APR_ENOENT` (`APR_EAGAIN` for a
certificate that is not yet in the response), the run ends with that status,
nothing more is called, and `md->cert_url` is as before. -/
theorem C22_poll_not_found_clears_cert_url {W : Type} (ext : Ext W) (fuel : Nat) (s : DSt W)
    (hurl : s.baton.md.cert_url.isSome = true) :
    (∀ s0 : DSt W, s0.baton.cert = none →
      acme_drive_cert ext fuel s0 =
        (ad_set_acct ext fuel (set_phase "get certificate" s0)).map (fun r =>
          acme_drive_cert_order ext (poll_known_cert ext
            (and_then Phase.md_acme_acct_check_agreement (check_agreement ext)
              (r.1, r.2.note (Event.returned Phase.ad_set_acct r.1)))))) ∧
    ((ad_cert_poll ext true s).1 = APR_ENOENT →
      (poll_known_cert ext (APR_SUCCESS, s)).2.baton.md = { s.baton.md with cert_url := none } ∧
      (poll_known_cert ext (APR_SUCCESS, s)).1 =
        (ext.md_reg_update s.baton.md.name { s.baton.md with cert_url := none }
          md_upd_fields.MD_UPD_CERT_URL (ad_cert_poll ext true s).2.world).1 ∧
      (poll_known_cert ext (APR_SUCCESS, s)).2.log =
        (ad_cert_poll ext true s).2.log ++
          [Event.returned Phase.ad_cert_poll_once APR_ENOENT,
           Event.md_reg_update s.baton.md.name md_upd_fields.MD_UPD_CERT_URL,
           Event.returned Phase.md_reg_update_cert_url
             (poll_known_cert ext (APR_SUCCESS, s)).1] ∧
      ((poll_known_cert ext (APR_SUCCESS, s)).1 = APR_SUCCESS →
        acme_drive_cert_order ext (poll_known_cert ext (APR_SUCCESS, s)) =
          and_then Phase.ad_setup_certificate (ad_setup_certificate ext)
            (and_then Phase.ad_monitor_challenges (ad_monitor_challenges ext)
              (and_then Phase.ad_start_challenges (ad_start_challenges ext)
                ((ad_setup_authz ext (poll_known_cert ext (APR_SUCCESS, s)).2).1,
                  (ad_setup_authz ext (poll_known_cert ext (APR_SUCCESS, s)).2).2.note
                    (Event.returned Phase.ad_setup_authz
                      (ad_setup_authz ext (poll_known_cert ext (APR_SUCCESS, s)).2).1))))) ∧
      ((poll_known_cert ext (APR_SUCCESS, s)).1 ≠ APR_SUCCESS →
        acme_drive_cert_order ext (poll_known_cert ext (APR_SUCCESS, s)) =
          poll_known_cert ext (APR_SUCCESS, s))) ∧
    ((ad_cert_poll ext true s).1 ≠ APR_SUCCESS → (ad_cert_poll ext true s).1 ≠ APR_ENOENT →
      acme_drive_cert_order ext (poll_known_cert ext (APR_SUCCESS, s)) =
        ((ad_cert_poll ext true s).1,
          (ad_cert_poll ext true s).2.note
            (Event.returned Phase.ad_cert_poll_once (ad_cert_poll ext true s).1)) ∧
      (ad_cert_poll ext true s).2.baton.md = s.baton.md) := by
  obtain ⟨c, hb⟩ := ad_cert_poll_baton ext true s
  refine ⟨fun s0 h0 => acme_drive_cert_eq ext fuel s0 h0, ?_, ?_⟩
  · intro hno
    have hp : poll_known_cert ext (APR_SUCCESS, s) =
        ((ext.md_reg_update s.baton.md.name { s.baton.md with cert_url := none }
            md_upd_fields.MD_UPD_CERT_URL (ad_cert_poll ext true s).2.world).1,
          { (ad_cert_poll ext true s).2 with
            baton := { (ad_cert_poll ext true s).2.baton with
              md := { s.baton.md with cert_url := none } }
            world := (ext.md_reg_update s.baton.md.name { s.baton.md with cert_url := none }
              md_upd_fields.MD_UPD_CERT_URL (ad_cert_poll ext true s).2.world).2
            log := (ad_cert_poll ext true s).2.log ++
              [Event.returned Phase.ad_cert_poll_once APR_ENOENT,
               Event.md_reg_update s.baton.md.name md_upd_fields.MD_UPD_CERT_URL,
               Event.returned Phase.md_reg_update_cert_url
                 (ext.md_reg_update s.baton.md.name { s.baton.md with cert_url := none }
                   md_upd_fields.MD_UPD_CERT_URL (ad_cert_poll ext true s).2.world).1] }) := by
      unfold poll_known_cert
      simp only [hurl, and_self, if_true, hno, APR_STATUS_IS_ENOENT, beq_self_eq_true, St.note,
        hb, List.append_assoc, List.cons_append, List.nil_append]
    refine ⟨by rw [hp], by rw [hp], by rw [hp], ?_, ?_⟩
    · intro hs
      unfold acme_drive_cert_order
      simp only []
      congr 3
      unfold and_then
      rw [if_pos hs]
    · intro hf
      exact acme_drive_cert_order_failed ext _ hf
  · intro h1 h2
    have hp : poll_known_cert ext (APR_SUCCESS, s) =
        ((ad_cert_poll ext true s).1,
          (ad_cert_poll ext true s).2.note
            (Event.returned Phase.ad_cert_poll_once (ad_cert_poll ext true s).1)) := by
      unfold poll_known_cert
      have h3 : APR_STATUS_IS_ENOENT (ad_cert_poll ext true s).1 = false := by
        simp [APR_STATUS_IS_ENOENT, h2]
      simp only [hurl, and_self, if_true, h3, Bool.false_eq_true, if_false]
    refine ⟨?_, by rw [hb]⟩
    rw [hp]
    exact acme_drive_cert_order_failed ext _ h1

/-- C22, at a managed domain with the certificate URL
`https://ca.test/cert/7` that the CA does not know any more. -/
theorem C22_poll_not_found_clears_cert_url_witness :
    (poll_known_cert mock_ext_cert_gone
        (APR_SUCCESS, mock_state (some "https://ca.test/cert/7"))).2.baton.md =
      { (mock_state (some "https://ca.test/cert/7")).baton.md with cert_url := none } :=
  ((C22_poll_not_found_clears_cert_url mock_ext_cert_gone 1
    (mock_state (some "https://ca.test/cert/7")) rfl).2.1 (by decide!)).1

/-- C23: `md_acme_order_purge(store, group, name)`.  When the order loads, its
calls are: the load, `md_store_purge` on `MD_SG_CHALLENGES` for every entry of
the `challenge_dirs` of the loaded order, in their order, and
`md_store_remove` of the order with `force` set.  When the order does not
load, its calls are the load and that remove.  In both cases the result is the
status of the remove.  On a store whose forced remove succeeds always, a purge
and a second purge after it return `APR_SUCCESS`. -/
theorem C23_order_purge {W : Type} (x : md_acme_order.OrderExt W) (group : md_store_group_t)
    (name : String) (s : md_acme_order.OSt W) :
    ((x.md_store_load_json group name "order.json" s.world).1 = APR_SUCCESS →
      ∃ w, (md_acme_order.md_acme_order_purge x group name s).1 =
          (x.md_store_remove group name "order.json" true w).1 ∧
        (md_acme_order.md_acme_order_purge x group name s).2.log =
          s.log ++ [md_acme_order.Call.md_store_load_json group name "order.json"] ++
            (md_acme_order.md_acme_order_from_json
                ((x.md_store_load_json group name "order.json" s.world).2.1.getD
                  md_json_t.null)).challenge_dirs.map
              (md_acme_order.Call.md_store_purge md_store_group_t.MD_SG_CHALLENGES) ++
            [md_acme_order.Call.md_store_remove group name "order.json" true]) ∧
    ((x.md_store_load_json group name "order.json" s.world).1 ≠ APR_SUCCESS →
      (md_acme_order.md_acme_order_purge x group name s).1 =
        (x.md_store_remove group name "order.json" true
          (x.md_store_load_json group name "order.json" s.world).2.2).1 ∧
      (md_acme_order.md_acme_order_purge x group name s).2.log =
        s.log ++ [md_acme_order.Call.md_store_load_json group name "order.json",
          md_acme_order.Call.md_store_remove group name "order.json" true]) ∧
    ((∀ g n a w, (x.md_store_remove g n a true w).1 = APR_SUCCESS) →
      (md_acme_order.md_acme_order_purge x group name s).1 = APR_SUCCESS ∧
      (md_acme_order.md_acme_order_purge x group name
        (md_acme_order.md_acme_order_purge x group name s).2).1 = APR_SUCCESS) := by
  have hstatus : ∀ s1 : md_acme_order.OSt W, ∃ w,
      (md_acme_order.md_acme_order_purge x group name s1).1 =
        (x.md_store_remove group name "order.json" true w).1 := by
    intro s1
    unfold md_acme_order.md_acme_order_purge md_util_pool_vdo md_acme_order.p_purge
    exact ⟨_, rfl⟩
  refine ⟨?_, ?_, ?_⟩
  · intro h
    refine ⟨_, rfl, ?_⟩
    unfold md_acme_order.md_acme_order_purge md_util_pool_vdo md_acme_order.p_purge
      md_acme_order.md_acme_order_load
    simp only [md_acme_order.OSt.note, md_acme_order.MD_FN_ORDER, h, if_true, Option.getD_some,
      p_purge_loop_log]
  · intro h
    unfold md_acme_order.md_acme_order_purge md_util_pool_vdo md_acme_order.p_purge
      md_acme_order.md_acme_order_load
    simp [md_acme_order.OSt.note, md_acme_order.MD_FN_ORDER, h]
  · intro h
    obtain ⟨w1, h1⟩ := hstatus s
    obtain ⟨w2, h2⟩ := hstatus (md_acme_order.md_acme_order_purge x group name s).2
    exact ⟨by rw [h1]; exact h _ _ _ _, by rw [h2]; exact h _ _ _ _⟩

/-- C23, at a store that holds an order with two challenge directories for `a`
in the staging area. -/
theorem C23_order_purge_witness :
    ∃ w, (md_acme_order.md_acme_order_purge mem_store md_store_group_t.MD_SG_STAGING "a"
          stored_order_state).1 =
        (mem_store.md_store_remove md_store_group_t.MD_SG_STAGING "a" "order.json" true w).1 ∧
      (md_acme_order.md_acme_order_purge mem_store md_store_group_t.MD_SG_STAGING "a"
          stored_order_state).2.log =
        stored_order_state.log ++
          [md_acme_order.Call.md_store_load_json md_store_group_t.MD_SG_STAGING "a"
            "order.json"] ++
          (md_acme_order.md_acme_order_from_json
              ((mem_store.md_store_load_json md_store_group_t.MD_SG_STAGING "a" "order.json"
                stored_order_state.world).2.1.getD md_json_t.null)).challenge_dirs.map
            (md_acme_order.Call.md_store_purge md_store_group_t.MD_SG_CHALLENGES) ++
          [md_acme_order.Call.md_store_remove md_store_group_t.MD_SG_STAGING "a" "order.json"
            true] :=
  (C23_order_purge mem_store md_store_group_t.MD_SG_STAGING "a" stored_order_state).1
    (by decide!)

/-- C24: for every order, `md_acme_order_from_json` of its
`md_acme_order_to_json` is the order itself: the same `url`, `authz_urls` and
`challenge_dirs`.  The JSON object has the members `authorizations` and
`challenge-dirs`, after the member `url` when `order->url` is not `NULL`. -/
theorem C24_order_json_round_trip (o : md_acme_order.md_acme_order_t) :
    md_acme_order.md_acme_order_from_json (md_acme_order.md_acme_order_to_json o) = o ∧
    md_acme_order.md_acme_order_to_json o =
      md_json_t.obj
        ((match o.url with
          | some url => [("url", md_json_t.str url)]
          | none => []) ++
        [("authorizations", md_json_t.arr (o.authz_urls.map md_json_t.str)),
         ("challenge-dirs", md_json_t.arr (o.challenge_dirs.map md_json_t.str))]) := by
  obtain ⟨url, authz_urls, challenge_dirs⟩ := o
  have hne1 : ("url" == "authorizations") = false := by decide
  have hne2 : ("url" == "challenge-dirs") = false := by decide
  have hne3 : ("authorizations" == "challenge-dirs") = false := by decide
  have hne4 : ("authorizations" == "url") = false := by decide
  have hne5 : ("challenge-dirs" == "url") = false := by decide
  have hne6 : ("challenge-dirs" == "authorizations") = false := by decide
  cases url with
  | none =>
    simp [md_acme_order.md_acme_order_from_json, md_acme_order.md_acme_order_to_json,
      md_acme_order.md_acme_order_create, md_json_create, md_json_sets, md_json_setsa,
      md_json_gets, md_json_getsa, json_object_set, md_acme_order.MD_KEY_URL,
      md_acme_order.MD_KEY_AUTHZS, md_acme_order.MD_KEY_CHALLENGE_DIRS, json_strings_map,
      List.find?, hne1, hne2, hne3, hne4, hne5, hne6]
  | some u =>
    simp [md_acme_order.md_acme_order_from_json, md_acme_order.md_acme_order_to_json,
      md_acme_order.md_acme_order_create, md_json_create, md_json_sets, md_json_setsa,
      md_json_gets, md_json_getsa, json_object_set, md_acme_order.MD_KEY_URL,
      md_acme_order.MD_KEY_AUTHZS, md_acme_order.MD_KEY_CHALLENGE_DIRS, json_strings_map,
      List.find?, hne1, hne2, hne3, hne4, hne5, hne6]

/-- C25, refuted: when the directory of the CA cannot be read,
`acme_driver_run` returns with `ad->phase` at `ACME setup`; when the account
has not agreed to the terms of service, it returns with `ad->phase` at
`check agreement`.  Neither is one of the nine names. -/
theorem C25_phase_outside_the_nine_names :
    (acme_driver_run mock_ext_no_directory 1 (mock_state none)).map
        (fun r => (r.1, r.2.baton.phase)) = some (APR_EGENERAL, some "ACME setup") ∧
    (acme_driver_run mock_ext_no_agreement 1 (mock_state none)).map
        (fun r => (r.1, r.2.baton.phase)) = some (APR_EACCES, some "check agreement") ∧
    "ACME setup" ∉ ["choose account", "check authz", "start challenges", "monitor challenges",
      "setup cert pkey", "setup csr", "submit csr", "poll certificate", "completed"] ∧
    "check agreement" ∉ ["choose account", "check authz", "start challenges",
      "monitor challenges", "setup cert pkey", "setup csr", "submit csr", "poll certificate",
      "completed"] := by
  decide!

/-- C25, as the code has it.  When `acme_driver_run` returns, `ad->phase` is
`completed` exactly when the status is `APR_SUCCESS`.  When the run failed,
either `md_acme_setup` failed and the phase is `ACME setup`, or the phase is a
name of the call of `acme_drive_cert` that returned last, with the status of
the run: `choose account`, `check agreement`, `poll certificate` (for the
one-shot poll and for the `md_reg_update` after it), `check authz`,
`start challenges`, `monitor challenges`, or one of `setup cert pkey`,
`setup csr`, `submit csr`, `poll certificate` for `ad_setup_certificate`.  So
the phase is always one of eleven names: the nine, `ACME setup` and
`check agreement`. -/
theorem C25_phase_on_return {W : Type} (ext : Ext W) (fuel : Nat) (s s1 : DSt W)
    (rv : apr_status_t) (h : acme_driver_run ext fuel s = some (rv, s1)) :
    (s1.baton.phase = some "completed" ↔ rv = APR_SUCCESS) ∧
    (rv ≠ APR_SUCCESS →
      (s1.baton.phase = some "ACME setup" ∧
        (md_acme_setup ext.toHttp (set_phase "ACME setup" s)).1 = rv) ∨
      ∃ p, s1.log.getLast? = some (Event.returned p rv) ∧
        ∃ n ∈ phase_names p, s1.baton.phase = some n) ∧
    (∃ n ∈ ["ACME setup", "choose account", "check agreement", "poll certificate",
        "check authz", "start challenges", "monitor challenges", "setup cert pkey",
        "setup csr", "submit csr", "completed"],
      s1.baton.phase = some n) := by
  have hfail : rv ≠ APR_SUCCESS →
      (s1.baton.phase = some "ACME setup" ∧
        (md_acme_setup ext.toHttp (set_phase "ACME setup" s)).1 = rv) ∨
      ∃ p, s1.log.getLast? = some (Event.returned p rv) ∧
        ∃ n ∈ phase_names p, s1.baton.phase = some n := by
    intro hrv
    unfold acme_driver_run at h
    simp only [] at h
    split_ifs at h with h1
    · rcases hd : acme_drive_cert ext fuel
          (md_acme_setup ext.toHttp (set_phase "ACME setup" s)).2 with _ | r
      · rw [hd] at h; simp at h
      · rw [hd] at h
        simp only [] at h
        split_ifs at h with h2
        · simp only [Option.some.injEq, Prod.mk.injEq] at h
          exact absurd (h.1 ▸ h2) hrv
        · simp only [Option.some.injEq] at h
          by_cases hc : (md_acme_setup ext.toHttp (set_phase "ACME setup" s)).2.baton.cert = none
          · have hp := acme_drive_cert_phase ext fuel _ r hc hd
            simp only [Prod.mk.injEq] at h
            unfold phase_of_last_call at hp
            obtain ⟨p, hl, n, hn, hph⟩ := hp
            rw [h.1, h.2] at hl
            rw [h.2] at hph
            exact Or.inr ⟨p, hl, n, hn, hph⟩
          · unfold acme_drive_cert at hd
            have hsome : (md_acme_setup ext.toHttp
                (set_phase "ACME setup" s)).2.baton.cert.isSome = true := by
              cases hh : (md_acme_setup ext.toHttp (set_phase "ACME setup" s)).2.baton.cert with
              | none => exact absurd hh hc
              | some v => rfl
            rw [if_pos hsome] at hd
            simp only [Option.some.injEq] at hd
            rw [← hd] at h2
            exact absurd rfl h2
    · simp only [] at h
      rw [if_neg h1] at h
      simp only [Option.some.injEq, Prod.mk.injEq] at h
      left
      refine ⟨?_, h.1⟩
      rw [← h.2, md_acme_setup_baton]
      rfl
  have hsucc : rv = APR_SUCCESS → s1.baton.phase = some "completed" := by
    intro hrv
    unfold acme_driver_run at h
    simp only [] at h
    split at h
    · simp at h
    · rename_i rv2 s2 heq
      split_ifs at h
      · simp only [Option.some.injEq, Prod.mk.injEq] at h
        rw [← h.2]
        rfl
      · simp only [Option.some.injEq, Prod.mk.injEq] at h
        rename_i hne
        exact absurd (h.1.trans hrv) hne
  refine ⟨⟨?_, hsucc⟩, hfail, ?_⟩
  · intro hp
    by_contra hrv
    rcases hfail hrv with ⟨hp2, -⟩ | ⟨p, -, n, hn, hp2⟩
    · rw [hp] at hp2
      simp at hp2
    · rw [hp] at hp2
      simp only [Option.some.injEq] at hp2
      rw [← hp2] at hn
      exact phase_names_not_completed p hn
  · by_cases hrv : rv = APR_SUCCESS
    · exact ⟨"completed", by simp, hsucc hrv⟩
    · rcases hfail hrv with ⟨hp2, -⟩ | ⟨p, -, n, hn, hp2⟩
      · exact ⟨"ACME setup", by simp, hp2⟩
      · exact ⟨n, phase_names_known p n hn, hp2⟩

/-- C25, as the code has it, at the mock CA whose directory cannot be read. -/
theorem C25_phase_on_return_witness :
    (mock_state_no_directory.baton.phase = some "completed" ↔ APR_EGENERAL = APR_SUCCESS) ∧
    ∃ n ∈ ["ACME setup", "choose account", "check agreement", "poll certificate",
        "check authz", "start challenges", "monitor challenges", "setup cert pkey",
        "setup csr", "submit csr", "completed"],
      mock_state_no_directory.baton.phase = some n :=
  ⟨(C25_phase_on_return mock_ext_no_directory 1 (mock_state none) mock_state_no_directory
      APR_EGENERAL rfl).1,
    (C25_phase_on_return mock_ext_no_directory 1 (mock_state none) mock_state_no_directory
      APR_EGENERAL rfl).2.2⟩

/-- C27: the store cannot be written.  `md_acme_order_start_challenges`
answers the challenge of the pending authorization, puts its directory into
`challenge_dirs`, calls `md_acme_order_save`, which fails with `APR_EACCES`,
and returns `APR_SUCCESS` with nothing in the store: the claim has the order
saved whenever the function succeeds. -/
theorem C27_save_failure_is_dropped :
    md_acme_order.md_acme_order_start_challenges read_only_store
        { authz_urls := ["https://ca.test/authz/a"] } (script_acme none) ["http-01"]
        (mock_md none) { world := [], log := [] } =
      (APR_SUCCESS,
        { authz_urls := ["https://ca.test/authz/a"],
          challenge_dirs := ["http-01/https://ca.test/authz/a"] },
        { world := [],
          log := [md_acme_order.Call.md_acme_authz_retrieve "https://ca.test/authz/a",
            md_acme_order.Call.md_acme_authz_respond "https://ca.test/authz/a",
            md_acme_order.Call.md_store_save_json md_store_group_t.MD_SG_STAGING "a"
              "order.json" false APR_EACCES] }) := by
  rfl

/-- C29: the managed domain has the one name `a.test`, and the stored set has
authorizations for `a.test` and `old.test`.  `ad_setup_authz` returns
`APR_SUCCESS` with both entries in the set, and the assertion
`ad->authz_set->authzs->nelts == ad->md->domains->nelts` of
`ad_start_challenges` and of `ad_monitor_challenges` is false. -/
theorem C29_stale_entries_break_the_assertion :
    (mock_state none).baton.md.domains = ["a.test"] ∧
    (ad_setup_authz mock_ext_stale_set mock_state_acct).1 = APR_SUCCESS ∧
    (the_authz_set (ad_setup_authz mock_ext_stale_set mock_state_acct).2).authzs.map
        md_acme_authz_t.domain = ["a.test", "old.test"] ∧
    (acme_drive_cert mock_ext_stale_set 1 (mock_state none)).map
        (fun r => r.2.log.filter
          (fun e => is_assert_failed e || decide (e = Event.returned Phase.ad_setup_authz r.1)
            || decide (e = Event.phase "start challenges")
            || decide (e = Event.phase "monitor challenges"))) =
      some [Event.returned Phase.ad_setup_authz APR_SUCCESS,
        Event.assert_failed "ad->authz_set->authzs->nelts == ad->md->domains->nelts",
        Event.phase "start challenges",
        Event.assert_failed "ad->authz_set->authzs->nelts == ad->md->domains->nelts",
        Event.phase "monitor challenges"] := by
  decide!

/-- C30: after every sequence of calls of `md_acme_order_add`,
`md_acme_order_remove` and `md_acme_order_add_challenge_dir` on the order of
`md_acme_order_create`, `authz_urls` and `challenge_dirs` have no duplicates.
On every order: adding a URL or a directory that is not there puts it at the
end of its list and leaves the rest as it is; adding one that is there, or a
`NULL` directory, changes nothing; all of these return `APR_SUCCESS`.
Removing a URL that is there takes it out and keeps the other URLs in their
order; removing one that is not there returns `APR_ENOENT` and changes
nothing; removing a URL right after adding it to an order that did not have it
gives back the `authz_urls` of before. -/
theorem C30_order_lists_stay_duplicate_free (ops : List md_acme_order.order_op)
    (o : md_acme_order.md_acme_order_t) (url : String) (dir : Option String) :
    ((md_acme_order.apply_ops ops).authz_urls.Nodup ∧
      (md_acme_order.apply_ops ops).challenge_dirs.Nodup) ∧
    (md_acme_order.md_acme_order_create =
      { url := none, authz_urls := [], challenge_dirs := [] }) ∧
    (url ∉ o.authz_urls →
      md_acme_order.md_acme_order_add o url =
        (APR_SUCCESS, { o with authz_urls := o.authz_urls ++ [url] })) ∧
    (url ∈ o.authz_urls → md_acme_order.md_acme_order_add o url = (APR_SUCCESS, o)) ∧
    (∀ d, dir = some d → d ∉ o.challenge_dirs →
      md_acme_order.md_acme_order_add_challenge_dir o dir =
        (APR_SUCCESS, { o with challenge_dirs := o.challenge_dirs ++ [d] })) ∧
    ((dir = none ∨ ∃ d, dir = some d ∧ d ∈ o.challenge_dirs) →
      md_acme_order.md_acme_order_add_challenge_dir o dir = (APR_SUCCESS, o)) ∧
    (url ∈ o.authz_urls →
      md_acme_order.md_acme_order_remove o url =
        (APR_SUCCESS, { o with authz_urls := o.authz_urls.filter (fun p => p ≠ url) })) ∧
    (url ∉ o.authz_urls → md_acme_order.md_acme_order_remove o url = (APR_ENOENT, o)) ∧
    (url ∉ o.authz_urls →
      (md_acme_order.md_acme_order_remove (md_acme_order.md_acme_order_add o url).2 url) =
        (APR_SUCCESS, o)) := by
  have hadd_absent : url ∉ o.authz_urls →
      md_acme_order.md_acme_order_add o url =
        (APR_SUCCESS, { o with authz_urls := o.authz_urls ++ [url] }) := by
    intro h
    unfold md_acme_order.md_acme_order_add
    rw [if_pos ((md_array_str_index_neg _ _).mpr h)]
  have hremove_present : ∀ o1 : md_acme_order.md_acme_order_t, url ∈ o1.authz_urls →
      md_acme_order.md_acme_order_remove o1 url =
        (APR_SUCCESS, { o1 with authz_urls := o1.authz_urls.filter (fun p => p ≠ url) }) := by
    intro o1 h
    unfold md_acme_order.md_acme_order_remove
    have hi : md_array_str_index o1.authz_urls url 0 true ≥ 0 := by
      by_contra hlt
      exact (md_array_str_index_neg _ _).mp (by omega) h
    simp only [hi, if_true, md_array_str_remove_eq]
  refine ⟨order_apply_ops_nodup ops _ List.nodup_nil List.nodup_nil, rfl, hadd_absent, ?_, ?_, ?_,
    hremove_present o, ?_, ?_⟩
  · intro h
    unfold md_acme_order.md_acme_order_add
    rw [if_neg (fun hlt => (md_array_str_index_neg _ _).mp hlt h)]
  · intro d hd h
    subst hd
    unfold md_acme_order.md_acme_order_add_challenge_dir
    simp only []
    rw [if_pos ((md_array_str_index_neg _ _).mpr h)]
  · intro h
    rcases h with h | ⟨d, hd, h⟩
    · subst h; rfl
    · subst hd
      unfold md_acme_order.md_acme_order_add_challenge_dir
      simp only []
      rw [if_neg (fun hlt => (md_array_str_index_neg _ _).mp hlt h)]
  · intro h
    unfold md_acme_order.md_acme_order_remove
    have hi : ¬ md_array_str_index o.authz_urls url 0 true ≥ 0 := by
      have := (md_array_str_index_neg _ _).mpr h
      omega
    simp only [hi, if_false]
  · intro h
    rw [hadd_absent h]
    rw [hremove_present _ (by simp)]
    simp only []
    congr 1
    have : List.filter (fun p => decide (p ≠ url)) (o.authz_urls ++ [url]) = o.authz_urls := by
      rw [List.filter_append]
      have h1 : List.filter (fun p => decide (p ≠ url)) o.authz_urls = o.authz_urls := by
        rw [List.filter_eq_self]
        intro a ha
        simp only [ne_eq, decide_not, Bool.not_eq_true', decide_eq_false_iff_not]
        intro hs; subst hs; exact h ha
      rw [h1]
      simp
    rw [this]

/-- C30, at the calls add `u1`, add `u2`, add `u1`, remove `u2`, add the
directory `d1` twice, and at the order with the URL `u1`. -/
theorem C30_order_lists_stay_duplicate_free_witness :
    md_acme_order.md_acme_order_add { authz_urls := ["u1"] } "u1" =
      (APR_SUCCESS, { authz_urls := ["u1"] }) :=
  (C30_order_lists_stay_duplicate_free
    [md_acme_order.order_op.add "u1", md_acme_order.order_op.add "u2",
     md_acme_order.order_op.add "u1", md_acme_order.order_op.remove "u2",
     md_acme_order.order_op.add_challenge_dir (some "d1"),
     md_acme_order.order_op.add_challenge_dir (some "d1")]
    { authz_urls := ["u1"] } "u1" (some "d1")).2.2.2.1 (by decide)

end mod_md
